import Mathlib

/-!
# reporter-rhtsupport: a shallow embedding of `src/plugins/reporter-rhtsupport.c`

Strings are Lean strings (a C string is the text before its terminating NUL), a
`char *` that may be NULL is an `Option String`, and the outside world (prompts,
portal answers, the dump directory, the archive library) is an explicit
environment record.  Every effect the program has on the outside world is
appended to a trace.
-/

namespace RhtSupport

/-! ## The error message normalisation of `main` (lines 853-866) -/

/-- The copy loop of `main` (lines 855-863), run in place on the buffer that holds
`result->msg`, with `src` and `dst` as offsets from `errmsg`: it reads a byte,
turns a newline into a space, stores the byte and stops after it has stored the
terminating NUL.  The result is the buffer and the final value of `dst`.  Reading
past the end of the buffer is undefined (`none`). -/
def replace_newlines : Nat → List Char → Nat → Nat → Option (List Char × Nat)
  | 0, _, _, _ => none
  | fuel + 1, mem, src, dst =>
    match mem.get? src with
    | none => none
    | some c0 =>
      let c := if c0 = '\n' then ' ' else c0
      let mem1 := mem.set dst c
      if c = '\x00' then some (mem1, dst + 1)
      else replace_newlines fuel mem1 (src + 1) (dst + 1)

/-- The loop `while (--dst >= errmsg && *dst == ' ') *dst = '\0';` of line 865.
The argument is the value of `dst` before the decrement: at offset 0 the
decremented pointer is below `errmsg` and the loop ends. -/
def trim_trailing (mem : List Char) : Nat → List Char
  | 0 => mem
  | d + 1 => if mem.get? d = some ' ' then trim_trailing (mem.set d '\x00') d else mem

/-- The C string stored at the start of a buffer: the bytes before the first NUL. -/
def cstr (mem : List Char) : List Char := mem.takeWhile (fun c => c != '\x00')

/-- Lines 853-866 on the buffer of `result->msg`: the copy loop, then the trimming
loop started from the `dst` the copy loop left. -/
def normalise_buffer (mem : List Char) : Option (List Char) :=
  match replace_newlines mem.length mem 0 0 with
  | none => none
  | some (mem1, dst) => some (trim_trailing mem1 dst)

/-- The `errmsg` that `main` reports after lines 853-866, for a server message
`msg` stored as a NUL terminated C string. -/
def normalise_errmsg (msg : List Char) : Option (List Char) :=
  (normalise_buffer (msg ++ ['\x00'])).map cstr

/-- What the comment of lines 848-851 asks of one byte: a newline becomes a space. -/
def newline_to_space (c : Char) : Char := if c = '\n' then ' ' else c

/-! ## Data of the reporter -/

/-- The fields of `rhts_result_t` that this file reads. -/
structure rhts_result where
  error : Int
  http_resp_code : Int
  msg : Option String
  url : Option String
  body : Option String
deriving DecidableEq, Repr

/-- The fields of `report_result_t` that this file reads. -/
structure report_result where
  url : Option String
  bthash : Option String
deriving DecidableEq, Repr

/-- The fields of `struct ureport_server_response` that this file reads. -/
structure ureport_server_response where
  urr_is_error : Bool
  urr_bthash : Option String
  urr_message : Option String
deriving DecidableEq, Repr

/-- A `struct post_state` as far as this file looks at it: the HTTP status, and the
response `ureport_server_response_from_reply` makes of it (NULL when it makes none). -/
structure post_state where
  http_resp_code : Int
  reply : Option ureport_server_response
deriving DecidableEq, Repr

/-- The two actions `UREPORT_SUBMIT_ACTION` and `UREPORT_ATTACH_ACTION`. -/
inductive ureport_action where
  | submit
  | attach
deriving DecidableEq, Repr

/-- The JSON document posted to the microreport server: the microreport made by
`ureport_from_dump_dir`, or the attachment `ureport_json_attachment_new` makes of a
bthash, an attachment id and a value. -/
inductive ureport_json where
  | report (json : String)
  | attachment (bthash : String) (attach_id : String) (data : Option String)
deriving DecidableEq, Repr

/-- The five places where `ask_yes_no` is called: line 647, 701, 718, 736 and 363. -/
inductive Prompt where
  | already_reported
  | count_once
  | vendor
  | not_packaged
  | hints
deriving DecidableEq, Repr

/-- The effects of the program on the outside world.  Log lines are not traced. -/
inductive Event where
  | ask
  | ask_password
  | ask_yes_no (q : Prompt)
  | attach_file_to_case (url : Option String) (login password : String) (ssl_verify : Bool)
      (file : String)
  | create_new_case (url : Option String) (login password : String) (ssl_verify : Bool)
      (product : String) (version : Option String) (summary dsc : String)
      (package : Option String)
  | add_comment_to_case (url : Option String) (login password : String) (ssl_verify : Bool)
      (comment : String)
  | get_rhts_hints (url : String) (login password : String) (ssl_verify : Bool)
      (tempfile : String)
  | upload_file (bigurl : String) (tempfile : String)
  | ureport_do_post (json : ureport_json) (username password : String) (action : ureport_action)
  | ureport_server_response_save_in_dump_dir (resp : ureport_server_response)
  | mkdtemp (tmpdir_name : String)
  | create_tarball (tempfile : String)
  | unlink (path : String)
  | rmdir (path : String)
  | add_reported_to_entry (label : String) (url : Option String) (msg : Option String)
deriving DecidableEq, Repr

/-- How a run ends: `return` from `main`, a direct `exit`, `error_msg_and_die` or
`xfunc_die` (exit status and message), `show_usage_and_die`, a NULL dereference, or
`hang` when the model ran out of fuel inside a retry loop that has no bound. -/
inductive Outcome where
  | ret (code : Int)
  | exit (code : Int)
  | die (retval : Int) (msg : Option String)
  | usage
  | crash
  | hang
deriving DecidableEq, Repr

/-- The problem data as `main` reads it: the items fetched with
`problem_data_get_content_or_NULL` and the value of `get_problem_data_reproducible`. -/
structure problem_data where
  package : Option String
  count : Option String
  vendor : Option String
  executable : Option String
  reproducible : Int
deriving DecidableEq, Repr

/-- One value of the problem data hash table, with the three flag tests of
`create_tarball`: `CD_FLAG_TXT`, `CD_FLAG_BIN` and `CD_FLAG_BIGTXT`. -/
structure problem_item where
  content : String
  flag_txt : Bool
  flag_bin : Bool
  flag_bigtxt : Bool
deriving DecidableEq, Repr

/-- A binding recorded in the manifest (`reportfile_t`). -/
inductive Binding where
  | from_string (name content : String)
  | from_namedfile (on_disk_filename binding_name recorded_filename : String) (binary : Bool)
deriving DecidableEq, Repr

/-- The calls `create_tarball` makes on the archive writer. -/
inductive TarOp where
  | tar_append_file (realname savename : String)
  | th_write (path : String) (size : Nat)
  | full_write (block : List Char)
  | tar_append_eof
  | tar_close
deriving DecidableEq, Repr

/-- What `create_tarball` meets: the hash table iteration, the dump directory
enumerator, the serialised manifest and the results of the archive calls. -/
structure TarEnv where
  tar_fdopen_ok : Bool
  problem_items : List (String × problem_item)
  dd_files : List (String × String)
  tar_append_file_ok : Nat → Bool
  reportfile_as_string : List Binding → List Char
  th_write_ok : Bool
  full_write : List Char → Int
  tar_append_eof_ok : Bool
  tar_close_ok : Bool
  gzip_ok : Bool

/-- The environment of one run: the parsed command line, the configuration, the
library functions and constants that are not in this file, the answers of the user
and the answers of the servers.  `rhts n` and `ureport_do_post n` answer the request
that is the n-th network request of the run; `ask n` and `ask_password n` answer the
n-th call of `ask` and of `ask_password`. -/
structure Env where
  -- the command line as `parse_opts` leaves it: the flags, the id of `-tID`, the
  -- arguments after the options, and the values of `-F` and `-d`
  opt_t : Bool
  opt_f : Bool
  opt_u : Bool
  opt_D : Bool
  case_no : Option String
  argv : List String
  fmt_file : Option String
  dump_dir_name : String
  -- the process environment and the settings loaded from the configuration files
  getenv : String → Option String
  settings : String → Option String
  -- the value `UREPORT_OPTION_VALUE_FROM_CONF` finds for an option of the microreport
  -- configuration, if any
  ureport_option_value : String → Option String
  -- library functions; `xatoi_positive` gives `none` where the C function dies
  string_to_bool : String → Bool
  xatoi_positive : String → Option Nat
  concat_path_file : String → String → String
  concat_path_basename : String → String → String
  -- constants of the library headers, and the exit status `xfunc_die` uses
  EXIT_CANCEL_BY_USER : Int
  xfunc_error_retval : Int
  PROBLEM_REPRODUCIBLE_UNKNOWN : Int
  LARGE_DATA_TMP_DIR : String
  -- the answers of the user; `none` is a NULL answer
  ask : Nat → Option String
  ask_password : Nat → Option String
  ask_yes_no : Prompt → Bool
  -- whether `dd_opendir` succeeds at line 67, 258, 799 and 871
  dd_opendir_reported_to : Bool
  dd_opendir_ureport : Bool
  dd_opendir_tarball : Bool
  dd_opendir_record : Bool
  -- what `find_in_reported_to` finds for the labels "RHTSupport" and "uReport"
  reported_to_RHTSupport : Option report_result
  reported_to_uReport : Option report_result
  -- results of the other library calls, `none` for NULL or for a call that dies;
  -- `problem_formatter_generate_report` gives the summary and the description
  ureport_from_dump_dir : Option String
  create_problem_data_for_reporting : Option problem_data
  mkdtemp : Option String
  problem_formatter_load_file_fails : Bool
  problem_formatter_load_string_fails : Bool
  problem_formatter_generate_report : Option (String × String)
  tar : TarEnv
  stat_st_size : Option Nat
  -- the product and version `parse_osinfo_for_rhts` extracts
  product : Option String
  version : Option String
  parse_response_from_RHTS_hint_xml2txt : String → Option String
  -- the answers of the servers
  rhts : Nat → rhts_result
  upload_file : Option String
  ureport_do_post : Nat → Option post_state

/-- The state threaded through a run: the trace so far and the numbers of network
requests, of `ask` calls and of `ask_password` calls made so far. -/
structure State where
  trace : List Event
  ncall : Nat
  nask : Nat
  npw : Nat
deriving DecidableEq, Repr

/-- The result of a piece of the program: it goes on with a value, or the run ends. -/
inductive Res (α : Type) where
  | ok (a : α) (s : State)
  | halt (o : Outcome) (s : State)
deriving DecidableEq, Repr

/-- The state a result carries. -/
def Res.state {α : Type} : Res α → State
  | .ok _ s => s
  | .halt _ s => s

/-- The state at program start. -/
def State.init : State := ⟨[], 0, 0, 0⟩

/-- Append one event to the trace. -/
def State.emit (s : State) (e : Event) : State := { s with trace := s.trace ++ [e] }

/-- A request to the support portal: the request is traced and the answer is the
one the environment gives to this request number. -/
def portal_call (E : Env) (e : Event) (s : State) : rhts_result × State :=
  (E.rhts s.ncall, { s with trace := s.trace ++ [e], ncall := s.ncall + 1 })

/-! ## Credentials (lines 373-410) -/

/-- Function `ask_rh_login`: an absent or empty answer ends the run with the
user-cancel status. -/
def ask_rh_login (E : Env) (s : State) : Res String :=
  let s1 : State := { s with trace := s.trace ++ [Event.ask], nask := s.nask + 1 }
  match E.ask s.nask with
  | none => .halt (.die E.EXIT_CANCEL_BY_USER (some "Can't continue without login")) s1
  | some login =>
    if login = "" then
      .halt (.die E.EXIT_CANCEL_BY_USER (some "Can't continue without login")) s1
    else .ok login s1

/-- Function `ask_rh_password`. -/
def ask_rh_password (E : Env) (s : State) : Res String :=
  let s1 : State := { s with trace := s.trace ++ [Event.ask_password], npw := s.npw + 1 }
  match E.ask_password s.npw with
  | none => .halt (.die E.EXIT_CANCEL_BY_USER (some "Can't continue without password")) s1
  | some password =>
    if password = "" then
      .halt (.die E.EXIT_CANCEL_BY_USER (some "Can't continue without password")) s1
    else .ok password s1

/-- Function `ask_rh_credentials`: the login prompt, then the password prompt. -/
def ask_rh_credentials (E : Env) (s : State) : Res (String × String) :=
  match ask_rh_login E s with
  | .halt o s1 => .halt o s1
  | .ok login s1 =>
    match ask_rh_password E s1 with
    | .halt o s2 => .halt o s2
    | .ok password s2 => .ok (login, password) s2

/-- The macro `INVALID_CREDENTIALS_LOOP(l, p, r, fncall)` (lines 51-57), a do-while
loop: the request is made, a result without error or with a status other than 401
leaves the loop, and otherwise new credentials are asked for and the loop goes
round.  `fncall` gives the request made with the current login and password.  The
C loop has no bound; the model stops with `hang` when `fuel` retries are used up. -/
def INVALID_CREDENTIALS_LOOP (E : Env) (fncall : String → String → Event) :
    Nat → String → String → State → Res (String × String × rhts_result)
  | fuel, l, p, s =>
    let (r, s1) := portal_call E (fncall l p) s
    if r.error = 0 ∨ r.http_resp_code ≠ 401 then .ok (l, p, r) s1
    else
      match ask_rh_credentials E s1 with
      | .halt o s2 => .halt o s2
      | .ok (l1, p1) s2 =>
        match fuel with
        | 0 => .halt .hang s2
        | fuel1 + 1 => INVALID_CREDENTIALS_LOOP E fncall fuel1 l1 p1 s2

/-! ## The archive builder `create_tarball` (lines 75-221) -/

/-- Lines 118-122: the text after the last slash of `content`, or all of it. -/
def basename_of (content : String) : String :=
  String.mk (content.data.reverse.takeWhile (fun c => c != '/')).reverse

/-- The body of the hash table loop (lines 111-131): the binding one item adds to
the manifest, if any. -/
def binding_of (cpf : String → String → String) (name : String) (value : problem_item) :
    Option Binding :=
  if value.flag_txt then some (.from_string name value.content)
  else if value.flag_bin then
    some (.from_namedfile value.content name (cpf "content" (basename_of value.content))
      (!value.flag_bigtxt))
  else none

/-- The hash table loop (lines 108-132): the bindings of the manifest in iteration
order. -/
def manifest_bindings (cpf : String → String → String) (items : List (String × problem_item)) :
    List Binding :=
  items.filterMap (fun nv => binding_of cpf nv.1 nv.2)

/-- The dump directory loop (lines 136-150), from the i-th file on: every file is
appended as `content/<short_name>`; the first failing `tar_append_file` ends the
loop.  Returns whether all appends succeeded, and the calls made. -/
def append_dd_files (T : TarEnv) (cpf : String → String → String) :
    Nat → List (String × String) → Bool × List TarOp
  | _, [] => (true, [])
  | i, (short_name, full_name) :: rest =>
    let uploaded_name := cpf "content" short_name
    if T.tar_append_file_ok i then
      let (ok, ops) := append_dd_files T cpf (i + 1) rest
      (ok, TarOp.tar_append_file full_name uploaded_name :: ops)
    else (false, [TarOp.tar_append_file full_name uploaded_name])

/-- The function `strlen`. -/
def strlen (s : List Char) : Nat := (cstr s).length

/-- Line 160: `unsigned len = strlen(signature)`, an unsigned of 32 bits. -/
def content_xml_len (signature : List Char) : Nat := strlen signature % 2 ^ 32

/-- Line 161: `unsigned len512 = (len + 511) & ~511` in unsigned arithmetic of 32
bits, where `~511` is 0xFFFFFE00. -/
def len512 (len : Nat) : Nat := ((len + 511) % 2 ^ 32) &&& 4294966784

/-- Line 162: the block `memcpy(xzalloc(len512), signature, len)`, as the `len512`
bytes that `full_write` is asked to write.  (`len512 < len` is possible only when
`len + 511` wraps around, and then the C code writes past its allocation.) -/
def content_xml_block (signature : List Char) : List Char :=
  let len := content_xml_len signature
  (signature.take len ++ List.replicate (len512 len - len) '\x00').take (len512 len)

/-- Lines 158-186: the header of `content.xml`, its padded payload, the end of
archive marker and the close, each attempted only when the one before succeeded.
Returns whether all succeeded, and the calls made. -/
def write_content_xml (T : TarEnv) (signature : List Char) : Bool × List TarOp :=
  let len := content_xml_len signature
  let block := content_xml_block signature
  let hdr := TarOp.th_write "content.xml" len
  if !T.th_write_ok then (false, [hdr])
  else if T.full_write block ≠ (len512 len : Int) then (false, [hdr, .full_write block])
  else if !T.tar_append_eof_ok then (false, [hdr, .full_write block, .tar_append_eof])
  else if !T.tar_close_ok then (false, [hdr, .full_write block, .tar_append_eof, .tar_close])
  else (true, [hdr, .full_write block, .tar_append_eof, .tar_close])

/-- Function `create_tarball`: the return value (0 on success, 1 on failure) and the
calls made on the archive writer.  On the failure path the writer is closed if it
was opened (line 204). -/
def create_tarball (T : TarEnv) (cpf : String → String → String) : Int × List TarOp :=
  if !T.tar_fdopen_ok then (1, [])
  else
    let file := manifest_bindings cpf T.problem_items
    match append_dd_files T cpf 0 T.dd_files with
    | (false, ops) => (1, ops ++ [.tar_close])
    | (true, ops) =>
      match write_content_xml T (T.reportfile_as_string file) with
      | (false, ops2) => (1, ops ++ ops2 ++ [.tar_close])
      | (true, ops2) => if T.gzip_ok then (0, ops ++ ops2) else (1, ops ++ ops2)

/-! ## The microreport client (lines 223-311) -/

/-- Function `ureport_do_post_credentials`: posts with the user name and password of
the server configuration; a 401 answer asks for new credentials, stores them in the
configuration and posts again.  Returns the response (NULL when the post failed) and
the user name and password the configuration holds afterwards.  The model stops
with `hang` when `fuel` retries are used up. -/
def ureport_do_post_credentials (E : Env) (json : ureport_json) (action : ureport_action) :
    Nat → String → String → State → Res (Option ureport_server_response × String × String)
  | fuel, username, password, s =>
    let s1 : State :=
      { s with trace := s.trace ++ [Event.ureport_do_post json username password action],
               ncall := s.ncall + 1 }
    match E.ureport_do_post s.ncall with
    | none => .ok (none, username, password) s1
    | some post =>
      if post.http_resp_code ≠ 401 then .ok (post.reply, username, password) s1
      else
        match ask_rh_credentials E s1 with
        | .halt o s2 => .halt o s2
        | .ok (l1, p1) s2 =>
          match fuel with
          | 0 => .halt .hang s2
          | fuel1 + 1 => ureport_do_post_credentials E json action fuel1 l1 p1 s2

/-- Function `submit_ureport`: the bthash (or NULL) and the credentials the server
configuration holds afterwards. -/
def submit_ureport (E : Env) (fuel : Nat) (username password : String) (s : State) :
    Res (Option String × String × String) :=
  if !E.dd_opendir_ureport then .ok (none, username, password) s
  else
    match E.reported_to_uReport with
    | some rr_bthash => .ok (rr_bthash.bthash, username, password) s
    | none =>
      match E.ureport_from_dump_dir with
      | none => .ok (none, username, password) s
      | some json =>
        match ureport_do_post_credentials E (.report json) .submit fuel username password s with
        | .halt o s1 => .halt o s1
        | .ok (none, u1, p1) s1 => .ok (none, u1, p1) s1
        | .ok (some resp, u1, p1) s1 =>
          if !resp.urr_is_error then
            .ok (resp.urr_bthash, u1, p1)
              (s1.emit (Event.ureport_server_response_save_in_dump_dir resp))
          else .ok (none, u1, p1) s1

/-- Function `attach_to_ureport`: returns the credentials the server configuration
holds afterwards. -/
def attach_to_ureport (E : Env) (fuel : Nat) (username password : String) (bthash : String)
    (attach_id : String) (data : Option String) (s : State) : Res (String × String) :=
  match ureport_do_post_credentials E (.attachment bthash attach_id data) .attach fuel
      username password s with
  | .halt o s1 => .halt o s1
  | .ok (_, u1, p1) s1 => .ok (u1, p1) s1

/-! ## The hint probe `check_for_hints` (lines 313-371) -/

/-- Function `check_for_hints`: returns the `retval` and the login and password the
credential loop ended with. -/
def check_for_hints (E : Env) (fuel : Nat) (url : String) (login password : String)
    (ssl_verify : Bool) (tempfile : String) (s : State) : Res (Bool × String × String) :=
  match INVALID_CREDENTIALS_LOOP E
      (fun l p => Event.get_rhts_hints url l p ssl_verify tempfile) fuel login password s with
  | .halt o s1 => .halt o s1
  | .ok (l, p, result) s1 =>
    if result.error ≠ 0 then .ok (false, l, p) s1
    else
      match result.body with
      | none => .ok (false, l, p) s1
      | some body =>
        match E.parse_response_from_RHTS_hint_xml2txt body with
        | none => .ok (false, l, p) s1
        | some _ =>
          .ok (!E.ask_yes_no Prompt.hints, l, p) (s1.emit (Event.ask_yes_no Prompt.hints))

/-! ## Configuration (lines 412-455 and 525-586) -/

/-- Function `get_param_string`. -/
def get_param_string (getenv : String → Option String) (name : String)
    (settings : String → Option String) (dflt : String) : String :=
  match getenv ("RHTSupport_" ++ name) with
  | some envvar => envvar
  | none =>
    match settings name with
    | some v => v
    | none => dflt

/-- The local variables of `main` that live across its stages; `ur_username` and
`ur_password` are the credentials held by `urconf`. -/
structure Locals where
  url : Option String
  login : String
  password : String
  bigurl : String
  ssl_verify : Bool
  bigsize : Nat
  submit_ur : Bool
  base_api_url : String
  ur_username : String
  ur_password : String
  bthash : Option String
deriving DecidableEq, Repr

/-- Lines 542-586 of `main`: the parameters, the prompts for a missing login or
password, and the microreport configuration. -/
def stage_config (E : Env) (s : State) : Res Locals :=
  let url := get_param_string E.getenv "URL" E.settings "https://api.access.redhat.com/rs"
  let login0 := get_param_string E.getenv "Login" E.settings ""
  let password0 := get_param_string E.getenv "Password" E.settings ""
  let bigurl := get_param_string E.getenv "BigFileURL" E.settings
    "ftp://dropbox.redhat.com/incoming/"
  match (if login0 = "" then ask_rh_login E s else .ok login0 s) with
  | .halt o s1 => .halt o s1
  | .ok login s1 =>
    match (if password0 = "" then ask_rh_password E s1 else .ok password0 s1) with
    | .halt o s2 => .halt o s2
    | .ok password s2 =>
      let ssl_verify := E.string_to_bool
        (match E.getenv "RHTSupport_SSLVerify" with
         | some envvar => envvar
         | none => (E.settings "SSLVerify").getD "1")
      match E.xatoi_positive
        (match E.getenv "RHTSupport_BigSizeMB" with
         | some envvar => envvar
         | none => (E.settings "BigSizeMB").getD "200") with
      | none => .halt (.die E.xfunc_error_retval none) s2
      | some bigsize =>
        let submit_ur := E.string_to_bool
          (match E.getenv "RHTSupport_SubmitUReport" with
           | some envvar => envvar
           | none => (E.settings "SubmitUReport").getD (if E.opt_u then "1" else "0"))
        .ok { url := some url, login := login, password := password, bigurl := bigurl,
              ssl_verify := ssl_verify, bigsize := bigsize, submit_ur := submit_ur,
              base_api_url := url, ur_username := login, ur_password := password,
              bthash := none } s2

/-! ## Mode selection (lines 588-664) -/

/-- Function `get_reported_to`: a dump directory that cannot be opened ends the run. -/
def get_reported_to (E : Env) (s : State) : Res (Option report_result) :=
  if !E.dd_opendir_reported_to then .halt (.die E.xfunc_error_retval none) s
  else .ok E.reported_to_RHTSupport s

/-- Lines 590-612: the URL that `-t` attaches to. -/
def resolve_target_url (E : Env) (url : Option String) (s : State) : Res (Option String) :=
  match E.case_no with
  | none =>
    match get_reported_to E s with
    | .halt o s1 => .halt o s1
    | .ok none s1 =>
      .halt (.die E.xfunc_error_retval
        (some ("Can't attach: problem data in '" ++ E.dump_dir_name ++
          "' was not reported to RHTSupport and therefore has no URL"))) s1
    | .ok (some reported_to) s1 =>
      match reported_to.url with
      | none =>
        .halt (.die E.xfunc_error_retval
          (some ("Can't attach: problem data in '" ++ E.dump_dir_name ++
            "' was not reported to RHTSupport and therefore has no URL"))) s1
      | some u => .ok (some u) s1
  | some case_no =>
    .ok (some (E.concat_path_file (E.concat_path_file (url.getD "") "cases") case_no)) s

/-- Lines 617-633: the files of the command line are attached one after the other;
an error result ends the run with the message of the result. -/
def attach_files (E : Env) (url : Option String) (login password : String) (ssl_verify : Bool) :
    List String → State → Outcome × State
  | [], s => (.ret 0, s)
  | file :: rest, s =>
    let (result, s1) := portal_call E (.attach_file_to_case url login password ssl_verify file) s
    if result.error ≠ 0 then (.die E.xfunc_error_retval result.msg, s1)
    else attach_files E url login password ssl_verify rest s1

/-- Lines 641-652: a problem that was already reported, with a URL and without `-f`, is
reported again only after a confirmation; the answer "no" makes `main` return 0. -/
def confirm_report_again (E : Env) (reported_to : Option report_result) (s : State) :
    Res Unit :=
  match reported_to with
  | none => .ok () s
  | some rr =>
    if rr.url.isSome ∧ E.opt_f = false then
      let s1 := s.emit (Event.ask_yes_no Prompt.already_reported)
      if E.ask_yes_no Prompt.already_reported then .ok () s1 else .halt (.ret 0) s1
    else .ok () s

/-- Lines 638-663: the start of the new case mode. -/
def stage_new_case_start (E : Env) (fuel : Nat) (L : Locals) (s : State) : Res Locals :=
  if E.argv ≠ [] then .halt .usage s
  else
    match get_reported_to E s with
    | .halt o s1 => .halt o s1
    | .ok reported_to s1 =>
      match confirm_report_again E reported_to s1 with
      | .halt o s2 => .halt o s2
      | .ok _ s2 =>
        if L.submit_ur then
          match submit_ureport E fuel L.ur_username L.ur_password s2 with
          | .halt o s3 => .halt o s3
          | .ok (bthash, u1, p1) s3 =>
            .ok { L with bthash := bthash, login := u1, password := p1,
                         ur_username := u1, ur_password := p1 } s3
        else .ok L s2

/-- Lines 588-664: with `-t` the target URL is resolved and, when files are given,
they are attached and the program returns; without `-t` the new case mode starts. -/
def stage_mode (E : Env) (fuel : Nat) (L : Locals) (s : State) : Res Locals :=
  if E.opt_t then
    match resolve_target_url E L.url s with
    | .halt o s1 => .halt o s1
    | .ok url s1 =>
      if E.argv ≠ [] then
        let (o, s2) := attach_files E url L.login L.password L.ssl_verify E.argv s1
        .halt o s2
      else .ok { L with url := url } s1
  else stage_new_case_start E fuel L s

/-! ## The body of `main` after mode selection (lines 666-987) -/

/-- The constant `QUERY_HINTS_IF_SMALLER_THAN` (line 47). -/
def QUERY_HINTS_IF_SMALLER_THAN : Nat := 8 * 1024 * 1024

/-- The workspace of a run and the texts of the new case, as left by lines 666-809. -/
structure Workspace where
  tmpdir_name : String
  tempfile : String
  tempfile_size : Nat
  package : Option String
  summary : String
  dsc : String
deriving DecidableEq, Repr

/-- The label `ret` (lines 963-987): the archive is unlinked, the workspace
directory is removed, and a latched `errmsg` ends the run with that message. -/
def cleanup (E : Env) (tempfile tmpdir_name : String) (errmsg : Option String) (s : State) :
    Outcome × State :=
  let s1 := (s.emit (Event.unlink tempfile)).emit (Event.rmdir tmpdir_name)
  match errmsg with
  | some m => (.die E.xfunc_error_retval (some m), s1)
  | none => (.ret 0, s1)

/-- One confirmation of the pre-flight checks (lines 701-707, 718-721, 736-739):
the question is asked and the answer "no" ends the run with `exit(EXIT_CANCEL_BY_USER)`. -/
def confirm_or_exit (E : Env) (q : Prompt) (s : State) : Res Unit :=
  let s1 := s.emit (Event.ask_yes_no q)
  if E.ask_yes_no q then .ok () s1 else .halt (.exit E.EXIT_CANCEL_BY_USER) s1

/-- Lines 694-743: the three pre-flight checks on the problem data. -/
def stage_preflight (E : Env) (pd : problem_data) (s : State) : Res Unit :=
  match (if pd.count = some "1" ∧ pd.reproducible ≤ E.PROBLEM_REPRODUCIBLE_UNKNOWN
         then confirm_or_exit E Prompt.count_once s else .ok () s) with
  | .halt o s1 => .halt o s1
  | .ok _ s1 =>
    match (if pd.package.isSome ∧ pd.vendor.isSome ∧ pd.vendor ≠ some "Red Hat, Inc."
           then confirm_or_exit E Prompt.vendor s1 else .ok () s1) with
    | .halt o s2 => .halt o s2
    | .ok _ s2 =>
      if pd.package.isNone then confirm_or_exit E Prompt.not_packaged s2 else .ok () s2

/-- Lines 745-794: the report is formatted; `-D` prints it and exits with 0. -/
def stage_format (E : Env) (s : State) : Res (String × String) :=
  let load_fails : Option String :=
    match E.fmt_file with
    | some fmt_file =>
      if E.problem_formatter_load_file_fails then some ("Invalid format file: " ++ fmt_file)
      else none
    | none =>
      if E.problem_formatter_load_string_fails then some "Invalid problem report format string"
      else none
  match load_fails with
  | some m => .halt (.die E.xfunc_error_retval (some m)) s
  | none =>
    match E.problem_formatter_generate_report with
    | none =>
      .halt (.die E.xfunc_error_retval (some "Failed to format bug report from problem data")) s
    | some (summary, dsc) =>
      if E.opt_D then .halt (.exit 0) s else .ok (summary, dsc) s

/-- Lines 666-809: the problem data, the workspace directory, the pre-flight checks,
the report texts, the archive and its size.  A failing `create_tarball` latches its
message and jumps to `ret`. -/
def stage_prepare (E : Env) (s : State) : Res Workspace :=
  match E.create_problem_data_for_reporting with
  | none => .halt (.die E.xfunc_error_retval none) s
  | some pd =>
    match E.mkdtemp with
    | none =>
      .halt (.die E.xfunc_error_retval (some ("Can't create a temporary directory in " ++ E.LARGE_DATA_TMP_DIR))) s
    | some tmpdir_name =>
      let s1 := s.emit (Event.mkdtemp tmpdir_name)
      let tempfile := E.concat_path_basename tmpdir_name E.dump_dir_name ++ ".tar.gz"
      match stage_preflight E pd s1 with
      | .halt o s2 => .halt o s2
      | .ok _ s2 =>
        match stage_format E s2 with
        | .halt o s3 => .halt o s3
        | .ok (summary, dsc) s3 =>
          if !E.dd_opendir_tarball then .halt (.die E.xfunc_error_retval none) s3
          else
            let s4 := s3.emit (Event.create_tarball tempfile)
            if (create_tarball E.tar E.concat_path_file).1 ≠ 0 then
              let (o, s5) := cleanup E tempfile tmpdir_name
                (some ("Can't create temporary file in " ++ E.LARGE_DATA_TMP_DIR)) s4
              .halt o s5
            else
              match E.stat_st_size with
              | none => .halt (.die E.xfunc_error_retval none) s4
              | some tempfile_size =>
                .ok { tmpdir_name := tmpdir_name, tempfile := tempfile,
                      tempfile_size := tempfile_size, package := pd.package,
                      summary := summary, dsc := dsc } s4

/-- Lines 845-868: the message of a failed case creation, normalised in place.  A
NULL message is dereferenced by line 857. -/
def case_errmsg (msg : Option String) : Option String :=
  match msg with
  | none => none
  | some m => (normalise_errmsg m.data).map String.mk

/-- Lines 886-908: the microreport is linked with the new case. -/
def stage_link (E : Env) (fuel : Nat) (L : Locals) (case_url : Option String) (s : State) :
    Res Locals :=
  match L.bthash with
  | none => .ok L s
  | some bthash =>
    match attach_to_ureport E fuel L.login L.password bthash "RHCID" case_url s with
    | .halt o s1 => .halt o s1
    | .ok (u1, p1) s1 =>
      match E.ureport_option_value "ContactEmail" with
      | none => .ok { L with login := u1, password := p1, ur_username := u1, ur_password := p1 } s1
      | some email =>
        match attach_to_ureport E fuel u1 p1 bthash "email" (some email) s1 with
        | .halt o s2 => .halt o s2
        | .ok (u2, p2) s2 =>
          .ok { L with login := u2, password := p2, ur_username := u2, ur_password := p2 } s2

/-- Lines 916-922: an archive of at least `bigsize` MiB, with `bigsize` not 0, is
uploaded to the bulk drop.  Returns `remote_filename`. -/
def stage_upload (E : Env) (L : Locals) (W : Workspace) (s : State) : Option String × State :=
  if L.bigsize ≠ 0 ∧ W.tempfile_size / (1024 * 1024) ≥ L.bigsize then
    (E.upload_file,
     { s with trace := s.trace ++ [Event.upload_file L.bigurl W.tempfile], ncall := s.ncall + 1 })
  else (none, s)

/-- Lines 916-961: the archive goes to the bulk drop and is announced in a comment,
or it is attached to the case. -/
def stage_deliver (E : Env) (fuel : Nat) (L : Locals) (W : Workspace) (s : State) :
    Res Locals :=
  match stage_upload E L W s with
  | (some remote_filename, s1) =>
    match INVALID_CREDENTIALS_LOOP E
        (fun l p => Event.add_comment_to_case L.url l p L.ssl_verify
          ("Problem data was uploaded to " ++ remote_filename)) fuel L.login L.password s1 with
    | .halt o s2 => .halt o s2
    | .ok (l, p, _) s2 => .ok { L with login := l, password := p } s2
  | (none, s1) =>
    match INVALID_CREDENTIALS_LOOP E
        (fun l p => Event.attach_file_to_case L.url l p L.ssl_verify W.tempfile)
        fuel L.login L.password s1 with
    | .halt o s2 => .halt o s2
    | .ok (l, p, _) s2 => .ok { L with login := l, password := p } s2

/-- Lines 813-819: the hint probe runs for an archive of at most
`QUERY_HINTS_IF_SMALLER_THAN` bytes.  Returns whether the user cancelled, and the
login and password to go on with. -/
def stage_hints (E : Env) (fuel : Nat) (L : Locals) (W : Workspace) (s : State) :
    Res (Bool × String × String) :=
  if W.tempfile_size ≤ QUERY_HINTS_IF_SMALLER_THAN then
    check_for_hints E fuel L.base_api_url L.login L.password L.ssl_verify W.tempfile s
  else .ok (false, L.login, L.password) s

/-- Lines 821-914: the product is determined and the case is created; a failure
latches the normalised message, a success is recorded in the dump directory and
linked with the microreport.  The result says whether the run goes on to the
delivery of the archive (`some` locals) or jumps to `ret` with the latched `errmsg`. -/
def stage_case (E : Env) (fuel : Nat) (L : Locals) (W : Workspace) (s : State) :
    Res (Option Locals × Option String) :=
  match E.product with
  | none =>
    .halt (.die E.xfunc_error_retval
      (some "Can't determine RH Support Product from problem data.")) s
  | some product =>
    match INVALID_CREDENTIALS_LOOP E
        (fun l p => Event.create_new_case L.url l p L.ssl_verify product E.version
          W.summary W.dsc W.package) fuel L.login L.password s with
    | .halt o s2 => .halt o s2
    | .ok (l2, p2, result) s2 =>
      if result.error ≠ 0 then
        match case_errmsg result.msg with
        | none => .halt .crash s2
        | some errmsg => .ok (none, some errmsg) s2
      else
        let s3 := if E.dd_opendir_record then
            s2.emit (Event.add_reported_to_entry "RHTSupport" result.url result.msg)
          else s2
        match stage_link E fuel { L with login := l2, password := p2 } result.url s3 with
        | .halt o s4 => .halt o s4
        | .ok L1 s4 => .ok (some { L1 with url := result.url }, none) s4

/-- Lines 811-914: the new case mode after the archive is built: the hint probe, and
unless the user cancelled there, the case. -/
def stage_create (E : Env) (fuel : Nat) (L : Locals) (W : Workspace) (s : State) :
    Res (Option Locals × Option String) :=
  match stage_hints E fuel L W s with
  | .halt o s1 => .halt o s1
  | .ok (true, _, _) s1 => .ok (none, none) s1
  | .ok (false, l1, p1) s1 => stage_case E fuel { L with login := l1, password := p1 } W s1

/-- Lines 916-987, entered with the result of the new case stage: a run that ended
stays ended, a jump to `ret` goes to the cleanup with the latched `errmsg`, and
otherwise the archive is delivered and the cleanup follows. -/
def stage_tail (E : Env) (fuel : Nat) (W : Workspace) :
    Res (Option Locals × Option String) → Outcome × State
  | .halt o s2 => (o, s2)
  | .ok (none, errmsg) s2 => cleanup E W.tempfile W.tmpdir_name errmsg s2
  | .ok (some L1, _) s2 =>
    match stage_deliver E fuel L1 W s2 with
    | .halt o s3 => (o, s3)
    | .ok _ s3 => cleanup E W.tempfile W.tmpdir_name none s3

/-- Lines 811-987: what `main` does once the archive is built: without `-t` the new
case stage, and then the delivery and the cleanup. -/
def stage_finish (E : Env) (fuel : Nat) (L : Locals) (W : Workspace) (s : State) :
    Outcome × State :=
  stage_tail E fuel W
    (if !E.opt_t then stage_create E fuel L W s else .ok (some L, none) s)

/-- Lines 666-987. -/
def stage_report (E : Env) (fuel : Nat) (L : Locals) (s : State) : Outcome × State :=
  match stage_prepare E s with
  | .halt o s1 => (o, s1)
  | .ok W s1 => stage_finish E fuel L W s1

/-- The function `main`: how the run ends and the state it ends in.  `fuel` bounds
the number of retries each credential loop may make. -/
def main (E : Env) (fuel : Nat) : Outcome × State :=
  match stage_config E State.init with
  | .halt o s => (o, s)
  | .ok L s =>
    match stage_mode E fuel L s with
    | .halt o s1 => (o, s1)
    | .ok L1 s1 => stage_report E fuel L1 s1

/-- The run up to line 809: the locals, the workspace and the state with which `main`
arrives there, if it does. -/
def reaches_archive (E : Env) (fuel : Nat) : Option (Locals × Workspace × State) :=
  match stage_config E State.init with
  | .halt _ _ => none
  | .ok L0 s0 =>
    match stage_mode E fuel L0 s0 with
    | .halt _ _ => none
    | .ok L s =>
      match stage_prepare E s with
      | .halt _ _ => none
      | .ok W s1 => some (L, W, s1)

/-! ## Vocabulary for statements about traces -/

/-- The kind of an event: the function called, without its arguments. -/
inductive Kind where
  | ask
  | ask_password
  | ask_yes_no
  | attach_file_to_case
  | create_new_case
  | add_comment_to_case
  | get_rhts_hints
  | upload_file
  | ureport_do_post
  | ureport_save
  | mkdtemp
  | create_tarball
  | unlink
  | rmdir
  | add_reported_to_entry
deriving DecidableEq, Repr

/-- The kind of an event. -/
def Event.kind : Event → Kind
  | .ask => .ask
  | .ask_password => .ask_password
  | .ask_yes_no _ => .ask_yes_no
  | .attach_file_to_case _ _ _ _ _ => .attach_file_to_case
  | .create_new_case _ _ _ _ _ _ _ _ _ => .create_new_case
  | .add_comment_to_case _ _ _ _ _ => .add_comment_to_case
  | .get_rhts_hints _ _ _ _ _ => .get_rhts_hints
  | .upload_file _ _ => .upload_file
  | .ureport_do_post _ _ _ _ => .ureport_do_post
  | .ureport_server_response_save_in_dump_dir _ => .ureport_save
  | .mkdtemp _ => .mkdtemp
  | .create_tarball _ => .create_tarball
  | .unlink _ => .unlink
  | .rmdir _ => .rmdir
  | .add_reported_to_entry _ _ _ => .add_reported_to_entry

/-- The number of events of a kind in a trace. -/
def count_kind (k : Kind) (tr : List Event) : Nat := (tr.filter (fun e => e.kind = k)).length

/-- Whether a trace has an event of a kind. -/
def has_kind (k : Kind) (tr : List Event) : Prop := ∃ e ∈ tr, e.kind = k

/-- State `s2` continues `s1`: its trace is the trace of `s1` followed by events
that all satisfy `P`. -/
def Grows (P : Event → Prop) (s1 s2 : State) : Prop :=
  ∃ evs, s2.trace = s1.trace ++ evs ∧ ∀ e ∈ evs, P e

/-- A portal answer without error. -/
def result_ok : rhts_result :=
  { error := 0, http_resp_code := 200, msg := none, url := some "https://portal/cases/123",
    body := none }

/-- A portal answer that rejects the credentials. -/
def result_401 : rhts_result :=
  { error := 1, http_resp_code := 401, msg := some "Unauthorized\n", url := none, body := none }

/-- A portal answer with an error that is not about the credentials. -/
def result_500 : rhts_result :=
  { error := 1, http_resp_code := 500, msg := some "server error\n", url := none, body := none }

/-- A sample archive environment: two files in the dump directory, all calls succeed. -/
def tar_sample : TarEnv :=
  { tar_fdopen_ok := true
    problem_items := []
    dd_files := [("backtrace", "/d/backtrace"), ("count", "/d/count")]
    tar_append_file_ok := fun _ => true
    reportfile_as_string := fun _ => ['<', 'x', '/', '>']
    th_write_ok := true
    full_write := fun block => block.length
    tar_append_eof_ok := true
    tar_close_ok := true
    gzip_ok := true }

/-- A sample run: new case mode, login and password configured, nothing reported
before, every prompt answered with "yes" and every request answered without error. -/
def env_base : Env :=
  { opt_t := false, opt_f := false, opt_u := false, opt_D := false
    case_no := none
    argv := []
    fmt_file := none
    dump_dir_name := "d"
    getenv := fun _ => none
    settings := fun k => if k = "Login" then some "u" else if k = "Password" then some "p" else none
    ureport_option_value := fun _ => none
    string_to_bool := fun v => v = "1"
    xatoi_positive := fun v => if v = "200" then some 200 else none
    concat_path_file := fun a b => a ++ "/" ++ b
    concat_path_basename := fun a b => a ++ "/" ++ b
    EXIT_CANCEL_BY_USER := 69
    xfunc_error_retval := 1
    PROBLEM_REPRODUCIBLE_UNKNOWN := 0
    LARGE_DATA_TMP_DIR := "/var/tmp"
    ask := fun _ => some "user"
    ask_password := fun _ => some "pw"
    ask_yes_no := fun _ => true
    dd_opendir_reported_to := true
    dd_opendir_ureport := true
    dd_opendir_tarball := true
    dd_opendir_record := true
    reported_to_RHTSupport := none
    reported_to_uReport := none
    ureport_from_dump_dir := some "json"
    create_problem_data_for_reporting :=
      some { package := some "pkg", count := some "2", vendor := some "Red Hat, Inc.",
             executable := some "/bin/x", reproducible := 1 }
    mkdtemp := some "/var/tmp/rhtsupport-XXXXXX"
    problem_formatter_load_file_fails := false
    problem_formatter_load_string_fails := false
    problem_formatter_generate_report := some ("summary", "description")
    tar := tar_sample
    stat_st_size := some 1048576
    product := some "Red Hat Enterprise Linux"
    version := some "7.0"
    parse_response_from_RHTS_hint_xml2txt := fun _ => none
    rhts := fun _ => result_ok
    upload_file := some "remote.tar.gz"
    ureport_do_post := fun _ =>
      some { http_resp_code := 200,
             reply := some { urr_is_error := false, urr_bthash := some "F1", urr_message := none } } }

/-- The sample run with a portal that answers every request with an error of
status 500 and the message "server error\n". -/
def env_case_fails : Env :=
  { env_base with rhts := fun _ => result_500 }

/-- The sample run with problem data from which no product can be determined. -/
def env_no_product : Env :=
  { env_base with product := none }

/-- The sample run with a problem that occurred once, of unknown reproducibility,
and a user who answers "no" to every question. -/
def env_count_no : Env :=
  { env_base with
    create_problem_data_for_reporting :=
      some { package := some "pkg", count := some "1", vendor := some "Red Hat, Inc.",
             executable := some "/bin/x", reproducible := 0 }
    ask_yes_no := fun _ => false }

/-- The run `-tCASE7 extra1.log` against a portal that answers 401. -/
def env_attach_401 : Env :=
  { env_base with
    opt_t := true, case_no := some "CASE7", argv := ["extra1.log"]
    rhts := fun _ => result_401 }

/-- The run `-tCASE7 extra1.log extra2.log` against a portal that accepts both. -/
def env_attach : Env :=
  { env_base with
    opt_t := true, case_no := some "CASE7", argv := ["extra1.log", "extra2.log"] }

/-- The run with `-u` and problem data from which no product can be determined. -/
def env_no_product_u : Env :=
  { env_base with opt_u := true, product := none }

/-- The sample run with `-u` on a dump directory that already holds a "uReport"
entry with the bthash "F0". -/
def env_ureport_known : Env :=
  { env_base with
    opt_u := true
    reported_to_uReport := some { url := none, bthash := some "F0" } }

/-- The run `-t extra1.log` on a dump directory without an "RHTSupport" entry. -/
def env_attach_unreported : Env :=
  { env_base with opt_t := true, argv := ["extra1.log"] }

/-- The run `-t extra1.log` on a dump directory that was reported to the case 7. -/
def env_attach_reported : Env :=
  { env_base with
    opt_t := true, argv := ["extra1.log"]
    reported_to_RHTSupport := some { url := some "https://portal/cases/7", bthash := none } }

/-- The sample run with a dump directory that cannot be opened any more when the new
case is to be recorded (line 871). -/
def env_record_fails : Env :=
  { env_base with dd_opendir_record := false }

/-- The sample run with a portal whose answers carry a body, a parser that finds a
suggestion in it, and a user who answers "no" to the question of the hint probe. -/
def env_hint_cancel : Env :=
  { env_base with
    rhts := fun _ => { result_ok with body := some "<problems/>" }
    parse_response_from_RHTS_hint_xml2txt := fun _ => some "suggestion"
    ask_yes_no := fun q => match q with
      | Prompt.hints => false
      | _ => true }

/-- The sample run with a portal that answers the hint probe (the first request) with
an error of status 500 and every later request without error. -/
def env_hint_error : Env :=
  { env_base with rhts := fun n => if n = 0 then result_500 else result_ok }

/-- The sample run with `-u` and a contact e-mail in the microreport configuration. -/
def env_link : Env :=
  { env_base with
    opt_u := true
    ureport_option_value := fun k => if k = "ContactEmail" then some "me@example.com" else none }

/-- The locals with which the sample runs reach the pre-flight checks. -/
def locals_sample : Locals :=
  { url := some "https://api.access.redhat.com/rs", login := "u", password := "p"
    bigurl := "ftp://dropbox.redhat.com/incoming/", ssl_verify := true, bigsize := 200
    submit_ur := false, base_api_url := "https://api.access.redhat.com/rs"
    ur_username := "u", ur_password := "p", bthash := none }

/-- The workspace of the sample runs. -/
def workspace_sample : Workspace :=
  { tmpdir_name := "/var/tmp/rhtsupport-XXXXXX"
    tempfile := "/var/tmp/rhtsupport-XXXXXX/d.tar.gz"
    tempfile_size := 1048576, package := some "pkg"
    summary := "summary", dsc := "description" }

/-- The state of the sample runs when the archive is built. -/
def state_archive_sample : State :=
  { trace := [Event.mkdtemp "/var/tmp/rhtsupport-XXXXXX",
              Event.create_tarball "/var/tmp/rhtsupport-XXXXXX/d.tar.gz"],
    ncall := 0, nask := 0, npw := 0 }

/-- The sample run with a portal that answers every request with an error of
status 500 and a message of two lines, "bad\nrequest\n". -/
def env_case_fails_lines : Env :=
  { env_base with rhts := fun _ => { result_500 with msg := some "bad\nrequest\n" } }

/-! ## A finer vocabulary for traces, and the way stations of a run -/

/-- The kind of an event, with the question of a yes/no prompt and the action of a
microreport post told apart. -/
inductive Tag where
  | plain (k : Kind)
  | prompt (q : Prompt)
  | post (a : ureport_action)
deriving DecidableEq, Repr

/-- The tag of an event. -/
def Event.tag : Event → Tag
  | .ask_yes_no q => .prompt q
  | .ureport_do_post _ _ _ a => .post a
  | .ask => .plain .ask
  | .ask_password => .plain .ask_password
  | .attach_file_to_case _ _ _ _ _ => .plain .attach_file_to_case
  | .create_new_case _ _ _ _ _ _ _ _ _ => .plain .create_new_case
  | .add_comment_to_case _ _ _ _ _ => .plain .add_comment_to_case
  | .get_rhts_hints _ _ _ _ _ => .plain .get_rhts_hints
  | .upload_file _ _ => .plain .upload_file
  | .ureport_server_response_save_in_dump_dir _ => .plain .ureport_save
  | .mkdtemp _ => .plain .mkdtemp
  | .create_tarball _ => .plain .create_tarball
  | .unlink _ => .plain .unlink
  | .rmdir _ => .plain .rmdir
  | .add_reported_to_entry _ _ _ => .plain .add_reported_to_entry

/-- Lines 694-708: the first pre-flight check, on the count and the reproducibility
of the problem. -/
def stage_count_check (E : Env) (pd : problem_data) (s : State) : Res Unit :=
  if pd.count = some "1" ∧ pd.reproducible ≤ E.PROBLEM_REPRODUCIBLE_UNKNOWN
  then confirm_or_exit E Prompt.count_once s else .ok () s

/-- Lines 710-743: the pre-flight checks on the vendor and on the package. -/
def stage_vendor_package_check (E : Env) (pd : problem_data) (s : State) : Res Unit :=
  match (if pd.package.isSome ∧ pd.vendor.isSome ∧ pd.vendor ≠ some "Red Hat, Inc."
         then confirm_or_exit E Prompt.vendor s else .ok () s) with
  | .halt o s2 => .halt o s2
  | .ok _ s2 =>
    if pd.package.isNone then confirm_or_exit E Prompt.not_packaged s2 else .ok () s2

/-- Lines 745-809, after the pre-flight checks: the report texts, the archive and its
size, for the workspace directory `tmpdir_name`. -/
def stage_archive (E : Env) (pd : problem_data) (tmpdir_name : String) (s : State) :
    Res Workspace :=
  let tempfile := E.concat_path_basename tmpdir_name E.dump_dir_name ++ ".tar.gz"
  match stage_format E s with
  | .halt o s3 => .halt o s3
  | .ok (summary, dsc) s3 =>
    if !E.dd_opendir_tarball then .halt (.die E.xfunc_error_retval none) s3
    else
      let s4 := s3.emit (Event.create_tarball tempfile)
      if (create_tarball E.tar E.concat_path_file).1 ≠ 0 then
        let (o, s5) := cleanup E tempfile tmpdir_name
          (some ("Can't create temporary file in " ++ E.LARGE_DATA_TMP_DIR)) s4
        .halt o s5
      else
        match E.stat_st_size with
        | none => .halt (.die E.xfunc_error_retval none) s4
        | some tempfile_size =>
          .ok { tmpdir_name := tmpdir_name, tempfile := tempfile,
                tempfile_size := tempfile_size, package := pd.package,
                summary := summary, dsc := dsc } s4

/-- The run up to line 694: the locals, the problem data, the name of the workspace
directory and the state with which `main` arrives at the pre-flight checks, if it
does. -/
def reaches_preflight (E : Env) (fuel : Nat) : Option (Locals × problem_data × String × State) :=
  match stage_config E State.init with
  | .halt _ _ => none
  | .ok L0 s0 =>
    match stage_mode E fuel L0 s0 with
    | .halt _ _ => none
    | .ok L s =>
      match E.create_problem_data_for_reporting with
      | none => none
      | some pd =>
        match E.mkdtemp with
        | none => none
        | some tmpdir_name => some (L, pd, tmpdir_name, s.emit (Event.mkdtemp tmpdir_name))

/-- The run up to line 821: the locals, the workspace and the state with which a run
without `-t` arrives at the creation of the case, if it does: the archive is built
and the hint probe, if it ran, neither ended the run nor was cancelled. -/
def reaches_case (E : Env) (fuel : Nat) : Option (Locals × Workspace × State) :=
  match reaches_archive E fuel with
  | none => none
  | some (L, W, s) =>
    if E.opt_t then none
    else
      match stage_hints E fuel L W s with
      | .ok (false, l1, p1) s1 => some ({ L with login := l1, password := p1 }, W, s1)
      | _ => none

/-- Lines 821-845 on their own: the locals, the result of the last `create_new_case`
request and the state after it, when the product is determined, the credential loop
returns and its result has no error. -/
def creation_result (E : Env) (fuel : Nat) (L : Locals) (W : Workspace) (s : State) :
    Option (Locals × Workspace × rhts_result × State) :=
  match E.product with
  | none => none
  | some product =>
    match INVALID_CREDENTIALS_LOOP E
        (fun l p => Event.create_new_case L.url l p L.ssl_verify product E.version
          W.summary W.dsc W.package) fuel L.login L.password s with
    | .halt _ _ => none
    | .ok (l2, p2, result) s2 =>
      if result.error = 0 then some ({ L with login := l2, password := p2 }, W, result, s2)
      else none

/-- The run up to line 845 with a created case: the locals, the workspace, the result
of the last `create_new_case` request and the state after it, if the run gets there
and that result has no error. -/
def case_created (E : Env) (fuel : Nat) : Option (Locals × Workspace × rhts_result × State) :=
  match reaches_case E fuel with
  | none => none
  | some (L, W, s1) => creation_result E fuel L W s1

/-- Lines 871-883: the new case is recorded in the dump directory, if the directory
can be opened. -/
def stage_record (E : Env) (result : rhts_result) (s : State) : State :=
  if E.dd_opendir_record then
    s.emit (Event.add_reported_to_entry "RHTSupport" result.url result.msg)
  else s

/-- Lines 871-987 for a created case: the record, the link with the microreport, the
delivery of the archive and the cleanup. -/
def stage_after_creation (E : Env) (fuel : Nat) (L : Locals) (W : Workspace)
    (result : rhts_result) (s : State) : Outcome × State :=
  stage_tail E fuel W
    (match stage_link E fuel L result.url (stage_record E result s) with
     | .halt o s4 => .halt o s4
     | .ok L1 s4 => .ok (some { L1 with url := result.url }, none) s4)

/-- Lines 694-987, entered with the result of the count check: a run that ended stays
ended, and otherwise the other pre-flight checks, the archive and the rest follow. -/
def stage_after_count_check (E : Env) (fuel : Nat) (L : Locals) (pd : problem_data)
    (tmpdir_name : String) : Res Unit → Outcome × State
  | .halt o s1 => (o, s1)
  | .ok _ s1 =>
    match stage_vendor_package_check E pd s1 with
    | .halt o s2 => (o, s2)
    | .ok _ s2 =>
      match stage_archive E pd tmpdir_name s2 with
      | .halt o s3 => (o, s3)
      | .ok W s3 => stage_finish E fuel L W s3

/-- An event of the posting of one attachment to the microreport: a credential prompt
or a post of that attachment. -/
def link_event (json : ureport_json) (e : Event) : Prop :=
  e = Event.ask ∨ e = Event.ask_password ∨
    ∃ u p, e = Event.ureport_do_post json u p ureport_action.attach

/-! # Theorems -/

set_option maxRecDepth 100000

/-! ### Lemmas on the normalisation -/

theorem replace_newlines_spec (rest : List Char) :
    ∀ (pre : List Char) (fuel : Nat), '\x00' ∉ rest → rest.length < fuel →
      replace_newlines fuel (pre ++ rest ++ ['\x00']) pre.length pre.length
        = some (pre ++ rest.map newline_to_space ++ ['\x00'], pre.length + rest.length + 1) := by
  induction rest with
  | nil =>
    intro pre fuel _ hf
    obtain ⟨f, rfl⟩ : ∃ f, fuel = f + 1 := ⟨fuel - 1, by simp at hf; omega⟩
    simp [replace_newlines, List.getElem?_append_right]
  | cons a rest ih =>
    intro pre fuel h0 hf
    obtain ⟨f, rfl⟩ : ∃ f, fuel = f + 1 := ⟨fuel - 1, by simp at hf; omega⟩
    have ha : a ≠ '\x00' := fun h => h0 (by simp [h])
    have hr : '\x00' ∉ rest := fun h => h0 (by simp [h])
    have hget : (pre ++ a :: rest ++ ['\x00']).get? pre.length = some a := by
      rw [List.append_assoc, List.get?_eq_getElem?, List.getElem?_append_right (le_refl _)]
      simp
    have hc : (if a = '\n' then ' ' else a) ≠ '\x00' := by
      split
      · decide
      · exact ha
    have hset : (pre ++ a :: rest ++ ['\x00']).set pre.length (newline_to_space a)
        = (pre ++ [newline_to_space a]) ++ rest ++ ['\x00'] := by
      simp [List.set_append]
    have := ih (pre ++ [newline_to_space a]) f hr (by simp at hf ⊢; omega)
    simp only [List.length_append, List.length_singleton] at this
    rw [replace_newlines, hget]
    simp only [hc, if_false]
    show replace_newlines f ((pre ++ a :: rest ++ ['\x00']).set pre.length (newline_to_space a))
        (pre.length + 1) (pre.length + 1) = _
    rw [hset, this]
    simp [Nat.add_assoc, Nat.add_comm 1]

theorem trim_trailing_at_nul (s : List Char) :
    trim_trailing (s ++ ['\x00']) (s.length + 1) = s ++ ['\x00'] := by
  have : (s ++ ['\x00']).get? s.length = some '\x00' := by
    simp [List.getElem?_append_right]
  simp [trim_trailing, this]

theorem newline_to_space_ne_nul {c : Char} (h : c ≠ '\x00') : newline_to_space c ≠ '\x00' := by
  unfold newline_to_space
  split
  · decide
  · exact h

theorem cstr_of_terminated (s : List Char) (h : '\x00' ∉ s) : cstr (s ++ ['\x00']) = s := by
  induction s with
  | nil => simp [cstr]
  | cons a s ih =>
    have ha : a ≠ '\x00' := fun e => h (by simp [e])
    have hs : '\x00' ∉ s := fun e => h (by simp [e])
    have := ih hs
    have hb : (a != '\x00') = true := by simp [ha]
    simp only [cstr] at this ⊢
    simp [List.takeWhile_cons, hb, this]

theorem normalise_errmsg_eq (msg : List Char) (h : '\x00' ∉ msg) :
    normalise_errmsg msg = some (msg.map newline_to_space) := by
  have h1 := replace_newlines_spec msg [] (msg ++ ['\x00']).length h (by simp)
  simp only [List.nil_append, List.length_nil, Nat.zero_add, List.length_append,
    List.length_singleton] at h1
  have h2 : '\x00' ∉ msg.map newline_to_space := by
    intro hm
    obtain ⟨c, hc, he⟩ := List.mem_map.1 hm
    exact newline_to_space_ne_nul (fun e => h (e ▸ hc)) he
  have h3 := trim_trailing_at_nul (msg.map newline_to_space)
  simp only [List.length_map] at h3
  simp [normalise_errmsg, normalise_buffer, h1, h3, cstr_of_terminated _ h2]

/-! ### Traces -/

theorem Grows.refl (P : Event → Prop) (s : State) : Grows P s s :=
  ⟨[], by simp, by simp⟩

theorem Grows.trans {P : Event → Prop} {s1 s2 s3 : State} (h1 : Grows P s1 s2)
    (h2 : Grows P s2 s3) : Grows P s1 s3 := by
  obtain ⟨e1, ht1, hp1⟩ := h1
  obtain ⟨e2, ht2, hp2⟩ := h2
  refine ⟨e1 ++ e2, by rw [ht2, ht1, List.append_assoc], ?_⟩
  intro e he
  rcases List.mem_append.1 he with h | h
  · exact hp1 e h
  · exact hp2 e h

theorem Grows.mono {P Q : Event → Prop} {s1 s2 : State} (h : Grows P s1 s2)
    (hpq : ∀ e, P e → Q e) : Grows Q s1 s2 := by
  obtain ⟨evs, ht, hp⟩ := h
  exact ⟨evs, ht, fun e he => hpq e (hp e he)⟩

theorem Grows.emit (P : Event → Prop) (s : State) (e : Event) (h : P e) : Grows P s (s.emit e) :=
  ⟨[e], rfl, by simpa using h⟩

theorem Grows.mem {P : Event → Prop} {s1 s2 : State} (h : Grows P s1 s2) {e : Event}
    (he : e ∈ s2.trace) : e ∈ s1.trace ∨ P e := by
  obtain ⟨evs, ht, hp⟩ := h
  rw [ht] at he
  rcases List.mem_append.1 he with h | h
  · exact Or.inl h
  · exact Or.inr (hp e h)

theorem Grows.sub {P : Event → Prop} {s1 s2 : State} (h : Grows P s1 s2) {e : Event}
    (he : e ∈ s1.trace) : e ∈ s2.trace := by
  obtain ⟨evs, ht, _⟩ := h
  rw [ht]
  exact List.mem_append.2 (Or.inl he)

theorem Res.state_ok {α : Type} (a : α) (s : State) : (Res.ok a s).state = s := rfl

theorem Res.state_halt {α : Type} (o : Outcome) (s : State) :
    (Res.halt o s : Res α).state = s := rfl

/-! ### The credential prompts -/

theorem ask_rh_login_state (E : Env) (s : State) :
    (ask_rh_login E s).state
      = { s with trace := s.trace ++ [Event.ask], nask := s.nask + 1 } := by
  unfold ask_rh_login
  cases E.ask s.nask with
  | none => rfl
  | some login => by_cases h : login = "" <;> simp [h, Res.state]

theorem ask_rh_password_state (E : Env) (s : State) :
    (ask_rh_password E s).state
      = { s with trace := s.trace ++ [Event.ask_password], npw := s.npw + 1 } := by
  unfold ask_rh_password
  cases E.ask_password s.npw with
  | none => rfl
  | some password => by_cases h : password = "" <;> simp [h, Res.state]

theorem ask_rh_login_halts (E : Env) (s : State) (o : Outcome) (s1 : State)
    (h : ask_rh_login E s = .halt o s1) : ∃ m, o = Outcome.die E.EXIT_CANCEL_BY_USER m := by
  unfold ask_rh_login at h
  cases ha : E.ask s.nask with
  | none =>
    rw [ha] at h
    simp only [Res.halt.injEq] at h
    exact ⟨_, h.1.symm⟩
  | some login =>
    rw [ha] at h
    by_cases hl : login = ""
    · simp only [hl, if_true, Res.halt.injEq] at h
      exact ⟨_, h.1.symm⟩
    · simp [hl] at h

theorem ask_rh_password_halts (E : Env) (s : State) (o : Outcome) (s1 : State)
    (h : ask_rh_password E s = .halt o s1) : ∃ m, o = Outcome.die E.EXIT_CANCEL_BY_USER m := by
  unfold ask_rh_password at h
  cases ha : E.ask_password s.npw with
  | none =>
    rw [ha] at h
    simp only [Res.halt.injEq] at h
    exact ⟨_, h.1.symm⟩
  | some password =>
    rw [ha] at h
    by_cases hl : password = ""
    · simp only [hl, if_true, Res.halt.injEq] at h
      exact ⟨_, h.1.symm⟩
    · simp [hl] at h

theorem ask_rh_credentials_cases (E : Env) (s : State) :
    (∃ m, ask_rh_credentials E s
        = .halt (.die E.EXIT_CANCEL_BY_USER m)
            { s with trace := s.trace ++ [Event.ask], nask := s.nask + 1 }) ∨
    (∃ m, ask_rh_credentials E s
        = .halt (.die E.EXIT_CANCEL_BY_USER m)
            { trace := s.trace ++ [Event.ask, Event.ask_password], ncall := s.ncall,
              nask := s.nask + 1, npw := s.npw + 1 }) ∨
    (∃ l p, ask_rh_credentials E s
        = .ok (l, p) { trace := s.trace ++ [Event.ask, Event.ask_password], ncall := s.ncall,
                       nask := s.nask + 1, npw := s.npw + 1 }) := by
  unfold ask_rh_credentials
  have h1 := ask_rh_login_state E s
  cases hl : ask_rh_login E s with
  | halt o s1 =>
    rw [hl] at h1
    simp only [Res.state] at h1
    obtain ⟨m, rfl⟩ := ask_rh_login_halts E s o s1 hl
    exact Or.inl ⟨m, by simp [h1]⟩
  | ok login s1 =>
    rw [hl] at h1
    simp only [Res.state] at h1
    have h2 := ask_rh_password_state E s1
    cases hp : ask_rh_password E s1 with
    | halt o s2 =>
      rw [hp] at h2
      simp only [Res.state] at h2
      obtain ⟨m, rfl⟩ := ask_rh_password_halts E s1 o s2 hp
      refine Or.inr (Or.inl ⟨m, ?_⟩)
      subst h1
      simp only [hp]
      subst h2
      simp
    | ok password s2 =>
      rw [hp] at h2
      simp only [Res.state] at h2
      refine Or.inr (Or.inr ⟨login, password, ?_⟩)
      subst h1
      simp only [hp]
      subst h2
      simp

theorem ask_rh_credentials_grows (E : Env) (s : State) :
    Grows (fun e => e = Event.ask ∨ e = Event.ask_password) s (ask_rh_credentials E s).state ∧
    (ask_rh_credentials E s).state.ncall = s.ncall := by
  rcases ask_rh_credentials_cases E s with ⟨o, h⟩ | ⟨o, h⟩ | ⟨l, p, h⟩ <;> rw [h] <;>
    simp only [Res.state] <;> refine ⟨⟨_, rfl, ?_⟩, ?_⟩ <;> simp

/-! ### The credential loop -/

theorem loop_step (E : Env) (fncall : String → String → Event) (fuel : Nat)
    (l p : String) (s : State) :
    INVALID_CREDENTIALS_LOOP E fncall fuel l p s =
      if (E.rhts s.ncall).error = 0 ∨ (E.rhts s.ncall).http_resp_code ≠ 401 then
        .ok (l, p, E.rhts s.ncall)
          { s with trace := s.trace ++ [fncall l p], ncall := s.ncall + 1 }
      else
        match ask_rh_credentials E
            { s with trace := s.trace ++ [fncall l p], ncall := s.ncall + 1 } with
        | .halt o s2 => .halt o s2
        | .ok (l1, p1) s2 =>
          match fuel with
          | 0 => .halt .hang s2
          | fuel1 + 1 => INVALID_CREDENTIALS_LOOP E fncall fuel1 l1 p1 s2 := by
  cases fuel <;> rw [INVALID_CREDENTIALS_LOOP] <;> rfl

/-- C2, the code at the message "err\n": the trimming loop starts at the NUL the
copy loop stored last, stops there, and the space made of the newline stays. -/
theorem errmsg_keeps_trailing_space :
    normalise_errmsg ['e', 'r', 'r', '\n'] = some ['e', 'r', 'r', ' '] ∧
    trim_trailing ['e', 'r', 'r', ' ', '\x00'] 5 = ['e', 'r', 'r', ' ', '\x00'] ∧
    (main env_case_fails 3).1 = Outcome.die 1 (some "server error ") := by
  refine ⟨by decide, by decide, by decide⟩

/-! ### The padding of content.xml -/

theorem land_mask (x : Nat) (hx : x < 2 ^ 32) : x &&& 4294966784 = x / 512 * 512 := by
  apply Nat.eq_of_testBit_eq
  intro i
  have hm : (4294966784 : Nat) = (2 ^ 23 - 1) <<< 9 := by decide
  have hr : x / 512 * 512 = (x >>> 9) <<< 9 := by
    rw [Nat.shiftLeft_eq, Nat.shiftRight_eq_div_pow]
  rw [Nat.testBit_and, hm, hr, Nat.testBit_shiftLeft, Nat.testBit_shiftLeft,
    Nat.testBit_two_pow_sub_one, Nat.testBit_shiftRight]
  by_cases h9 : 9 ≤ i
  · have e : 9 + (i - 9) = i := by omega
    simp only [ge_iff_le, h9, decide_True, Bool.true_and, e]
    by_cases h32 : i < 32
    · have : i - 9 < 23 := by omega
      simp [this]
    · have : x.testBit i = false := by
        apply Nat.testBit_lt_two_pow
        calc x < 2 ^ 32 := hx
          _ ≤ 2 ^ i := Nat.pow_le_pow_right (by decide) (by omega)
      simp [this]
  · simp [h9]

theorem len512_eq (len : Nat) (h : len + 511 < 2 ^ 32) : len512 len = (len + 511) / 512 * 512 := by
  unfold len512
  rw [Nat.mod_eq_of_lt h, land_mask _ h]

theorem take_strlen (signature : List Char) : signature.take (strlen signature) = cstr signature := by
  unfold strlen cstr
  induction signature with
  | nil => simp
  | cons a l ih =>
    by_cases h : (a != '\x00') = true
    · simp [List.takeWhile_cons, h, ih]
    · simp [List.takeWhile_cons, h]

theorem strlen_le (signature : List Char) : strlen signature ≤ signature.length := by
  unfold strlen cstr
  exact (List.takeWhile_sublist _).length_le

/-- C5: for a manifest whose length plus 511 is below 2^32, `create_tarball` sets
the size of the `content.xml` header to the length of the manifest; `len512` is a
multiple of 512, at least the length and less than 512 above it, hence the least
such multiple, and equal to the length when that is a multiple of 512; the block
handed to `full_write` has `len512` bytes, starts with the manifest and is zero
after it; the header is written first and the block right after it. -/
theorem content_xml_is_padded (T : TarEnv) (signature : List Char)
    (hlen : strlen signature + 511 < 2 ^ 32) :
    content_xml_len signature = strlen signature ∧
    (512 ∣ len512 (strlen signature) ∧ strlen signature ≤ len512 (strlen signature) ∧
      len512 (strlen signature) - strlen signature < 512 ∧
      ∀ m, 512 ∣ m → strlen signature ≤ m → len512 (strlen signature) ≤ m) ∧
    (512 ∣ strlen signature → len512 (strlen signature) = strlen signature) ∧
    (content_xml_block signature).length = len512 (strlen signature) ∧
    (content_xml_block signature).take (strlen signature) = cstr signature ∧
    (∀ i, strlen signature ≤ i → i < len512 (strlen signature) →
      (content_xml_block signature).get? i = some '\x00') ∧
    (write_content_xml T signature).2.head? = some (TarOp.th_write "content.xml" (strlen signature)) ∧
    (T.th_write_ok = true → (write_content_xml T signature).2.get? 1
      = some (TarOp.full_write (content_xml_block signature))) := by
  have hl : content_xml_len signature = strlen signature := by
    unfold content_xml_len
    exact Nat.mod_eq_of_lt (by omega)
  have h512 := len512_eq (strlen signature) hlen
  have hle := strlen_le signature
  have hge : strlen signature ≤ len512 (strlen signature) := by rw [h512]; omega
  have hblock : content_xml_block signature
      = cstr signature ++ List.replicate (len512 (strlen signature) - strlen signature) '\x00' := by
    unfold content_xml_block
    simp only [hl, take_strlen]
    apply List.take_of_length_le
    simp only [List.length_append, List.length_replicate]
    have : (cstr signature).length = strlen signature := rfl
    omega
  have hcl : (cstr signature).length = strlen signature := rfl
  refine ⟨hl, ⟨?_, hge, ?_, ?_⟩, ?_, ?_, ?_, ?_, ?_, ?_⟩
  · rw [h512]; exact Nat.dvd_mul_left _ _
  · rw [h512]; omega
  · rintro m ⟨j, rfl⟩ hm
    rw [h512]; omega
  · rintro ⟨j, hj⟩
    rw [h512]; omega
  · rw [hblock]; simp [hcl]; omega
  · rw [hblock, ← hcl, List.take_left']
    rfl
  · intro i h1 h2
    rw [hblock, List.get?_eq_getElem?, List.getElem?_append_right (by rw [hcl]; exact h1)]
    rw [List.getElem?_replicate]
    simp [hcl]
    omega
  · unfold write_content_xml
    simp only [hl]
    repeat' split
    all_goals rfl
  · intro hw
    unfold write_content_xml
    simp only [hl, hw]
    repeat' split
    all_goals first | rfl | simp_all

/-- C5, at a manifest of four bytes: the block has 512 bytes. -/
theorem content_xml_is_padded_witness :
    (content_xml_block ['<', 'x', '/', '>']).length = len512 (strlen ['<', 'x', '/', '>']) ∧
    len512 (strlen ['<', 'x', '/', '>']) - strlen ['<', 'x', '/', '>'] < 512 :=
  have h := content_xml_is_padded tar_sample ['<', 'x', '/', '>'] (by decide)
  ⟨h.2.2.2.1, h.2.1.2.2.1⟩

/-! ### Runs of `main` on the sample environments -/

/-- C4, the code at two runs that create the workspace directory.  With an
undetermined product the run dies at line 832, and with the answer "no" to the
question of line 701 it exits at line 707; in both the directory made by `mkdtemp`
is in the trace and neither `unlink` nor `rmdir` is. -/
theorem workspace_left_behind :
    ((main env_no_product 3).1
        = Outcome.die 1 (some "Can't determine RH Support Product from problem data.") ∧
      Event.mkdtemp "/var/tmp/rhtsupport-XXXXXX" ∈ (main env_no_product 3).2.trace ∧
      count_kind Kind.unlink (main env_no_product 3).2.trace = 0 ∧
      count_kind Kind.rmdir (main env_no_product 3).2.trace = 0) ∧
    ((main env_count_no 3).1 = Outcome.exit 69 ∧
      Event.mkdtemp "/var/tmp/rhtsupport-XXXXXX" ∈ (main env_count_no 3).2.trace ∧
      count_kind Kind.unlink (main env_count_no 3).2.trace = 0 ∧
      count_kind Kind.rmdir (main env_count_no 3).2.trace = 0) := by
  decide

/-- C9, the code at the run `-tCASE7 extra1.log` with a 401 answer: the run dies with
the message of the result after one attach request and no credential prompt. -/
theorem attach_only_401_is_fatal :
    main env_attach_401 3 =
      (Outcome.die 1 (some "Unauthorized\n"),
       { trace := [Event.attach_file_to_case (some "https://api.access.redhat.com/rs/cases/CASE7")
                    "u" "p" true "extra1.log"],
         ncall := 1, nask := 0, npw := 0 }) := by
  decide

/-! ### Configuration and mode selection -/

theorem ask_rh_login_grows (E : Env) (s : State) :
    Grows (fun e => e = Event.ask ∨ e = Event.ask_password) s (ask_rh_login E s).state ∧
    (ask_rh_login E s).state.ncall = s.ncall := by
  rw [ask_rh_login_state]
  exact ⟨⟨_, rfl, by simp⟩, rfl⟩

theorem ask_rh_password_grows (E : Env) (s : State) :
    Grows (fun e => e = Event.ask ∨ e = Event.ask_password) s (ask_rh_password E s).state ∧
    (ask_rh_password E s).state.ncall = s.ncall := by
  rw [ask_rh_password_state]
  exact ⟨⟨_, rfl, by simp⟩, rfl⟩

theorem login_or_keep (E : Env) (s : State) (c : Prop) [Decidable c] (d : String)
    (r : Res String) (h : (if c then ask_rh_login E s else Res.ok d s) = r) :
    Grows (fun e => e = Event.ask ∨ e = Event.ask_password) s r.state ∧ r.state.ncall = s.ncall := by
  subst h
  split
  · exact ask_rh_login_grows E s
  · exact ⟨Grows.refl _ _, rfl⟩

theorem password_or_keep (E : Env) (s : State) (c : Prop) [Decidable c] (d : String)
    (r : Res String) (h : (if c then ask_rh_password E s else Res.ok d s) = r) :
    Grows (fun e => e = Event.ask ∨ e = Event.ask_password) s r.state ∧ r.state.ncall = s.ncall := by
  subst h
  split
  · exact ask_rh_password_grows E s
  · exact ⟨Grows.refl _ _, rfl⟩

theorem stage_config_grows (E : Env) (s : State) :
    Grows (fun e => e = Event.ask ∨ e = Event.ask_password) s (stage_config E s).state ∧
    (stage_config E s).state.ncall = s.ncall := by
  unfold stage_config
  simp only
  split
  · rename_i o s1 h
    exact login_or_keep _ _ _ _ _ h
  · rename_i login s1 h
    have h1 := login_or_keep _ _ _ _ _ h
    simp only [Res.state] at h1
    split
    · rename_i o s2 h'
      have h2 := password_or_keep _ _ _ _ _ h'
      simp only [Res.state] at h2 ⊢
      exact ⟨h1.1.trans h2.1, h2.2.trans h1.2⟩
    · rename_i password s2 h'
      have h2 := password_or_keep _ _ _ _ _ h'
      simp only [Res.state] at h2
      split <;> simp only [Res.state] <;> exact ⟨h1.1.trans h2.1, h2.2.trans h1.2⟩

theorem get_reported_to_state (E : Env) (s : State) : (get_reported_to E s).state = s := by
  unfold get_reported_to
  split <;> rfl

theorem resolve_target_url_state (E : Env) (url : Option String) (s : State) :
    (resolve_target_url E url s).state = s := by
  unfold resolve_target_url
  have hs := get_reported_to_state E s
  repeat' split
  all_goals simp_all [Res.state]

theorem attach_files_all_ok (E : Env) (url : Option String) (login password : String)
    (ssl_verify : Bool) (files : List String) :
    ∀ s : State, (∀ i, i < files.length → (E.rhts (s.ncall + i)).error = 0) →
      attach_files E url login password ssl_verify files s =
        (Outcome.ret 0,
         { s with trace := s.trace ++ files.map
                    (fun file => Event.attach_file_to_case url login password ssl_verify file),
                  ncall := s.ncall + files.length }) := by
  induction files with
  | nil => intro s _; simp [attach_files]
  | cons f rest ih =>
    intro s h
    have h0 := h 0 (by simp)
    simp only [Nat.add_zero] at h0
    have hrest : ∀ i, i < rest.length → (E.rhts (s.ncall + 1 + i)).error = 0 := by
      intro i hi
      have := h (i + 1) (by simp; omega)
      rwa [show s.ncall + (i + 1) = s.ncall + 1 + i by omega] at this
    have := ih { s with trace := s.trace ++
      [Event.attach_file_to_case url login password ssl_verify f], ncall := s.ncall + 1 } hrest
    simp only [attach_files, portal_call, h0, ne_eq, not_true_eq_false, if_false]
    rw [this]
    simp [Nat.add_assoc, Nat.add_comm 1]

theorem attach_files_first_error (E : Env) (url : Option String) (login password : String)
    (ssl_verify : Bool) (files : List String) :
    ∀ (s : State) (k : Nat), k < files.length →
      (∀ i, i < k → (E.rhts (s.ncall + i)).error = 0) → (E.rhts (s.ncall + k)).error ≠ 0 →
      attach_files E url login password ssl_verify files s =
        (Outcome.die E.xfunc_error_retval (E.rhts (s.ncall + k)).msg,
         { s with trace := s.trace ++ (files.take (k + 1)).map
                    (fun file => Event.attach_file_to_case url login password ssl_verify file),
                  ncall := s.ncall + k + 1 }) := by
  induction files with
  | nil => intro s k hk; simp at hk
  | cons f rest ih =>
    intro s k hk h hbad
    cases k with
    | zero =>
      simp only [Nat.add_zero] at hbad
      simp [attach_files, portal_call, hbad]
    | succ k =>
      have h0 := h 0 (by omega)
      simp only [Nat.add_zero] at h0
      have hrest : ∀ i, i < k → (E.rhts (s.ncall + 1 + i)).error = 0 := by
        intro i hi
        have := h (i + 1) (by omega)
        rwa [show s.ncall + (i + 1) = s.ncall + 1 + i by omega] at this
      have hbad1 : (E.rhts (s.ncall + 1 + k)).error ≠ 0 := by
        rwa [show s.ncall + (k + 1) = s.ncall + 1 + k by omega] at hbad
      have := ih { s with trace := s.trace ++
        [Event.attach_file_to_case url login password ssl_verify f], ncall := s.ncall + 1 } k
        (by simpa using hk) hrest hbad1
      simp only [attach_files, portal_call, h0, ne_eq, not_true_eq_false, if_false]
      rw [this]
      simp [Nat.add_assoc, Nat.add_comm 1]

theorem main_attach_only (E : Env) (fuel : Nat) (L : Locals) (s0 : State) (url : Option String)
    (s1 : State) (ht : E.opt_t = true) (hargv : E.argv ≠ [])
    (hcfg : stage_config E State.init = .ok L s0)
    (hurl : resolve_target_url E L.url s0 = .ok url s1) :
    main E fuel = attach_files E url L.login L.password L.ssl_verify E.argv s0 := by
  have hs := resolve_target_url_state E L.url s0
  rw [hurl] at hs
  simp only [Res.state] at hs
  subst hs
  simp [main, hcfg, stage_mode, ht, hurl, hargv]

/-! ### The attach-only mode -/

/-- C10: a run with `-t` and file arguments whose configuration and target URL are
resolved.  Before the attach requests there are only credential prompts and no
network request.  If every answer is without error, the run returns 0 and its trace
ends with one attach request per file, in argument order, all with the resolved URL.
If the k-th answer is the first with an error, the run dies with the message of that
answer after the attach requests for the first k + 1 files.  The run returns 0
exactly when no answer to the files has an error, and every event of the run is a
credential prompt or an attach request for one of the files with the resolved URL:
no workspace directory, archive, microreport or case creation. -/
theorem attach_only_attaches_in_order (E : Env) (fuel : Nat) (L : Locals) (s0 : State)
    (url : Option String) (s1 : State) (ht : E.opt_t = true) (hargv : E.argv ≠ [])
    (hcfg : stage_config E State.init = .ok L s0)
    (hurl : resolve_target_url E L.url s0 = .ok url s1) :
    (∀ e ∈ s0.trace, e = Event.ask ∨ e = Event.ask_password) ∧ s0.ncall = 0 ∧
    ((∀ i, i < E.argv.length → (E.rhts i).error = 0) →
      (main E fuel).1 = Outcome.ret 0 ∧
      (main E fuel).2.trace = s0.trace ++ E.argv.map
        (fun file => Event.attach_file_to_case url L.login L.password L.ssl_verify file)) ∧
    (∀ k, k < E.argv.length → (∀ i, i < k → (E.rhts i).error = 0) → (E.rhts k).error ≠ 0 →
      (main E fuel).1 = Outcome.die E.xfunc_error_retval (E.rhts k).msg ∧
      (main E fuel).2.trace = s0.trace ++ (E.argv.take (k + 1)).map
        (fun file => Event.attach_file_to_case url L.login L.password L.ssl_verify file)) ∧
    ((main E fuel).1 = Outcome.ret 0 ↔ ∀ i, i < E.argv.length → (E.rhts i).error = 0) ∧
    (∀ e ∈ (main E fuel).2.trace, e = Event.ask ∨ e = Event.ask_password ∨
      ∃ file ∈ E.argv, e = Event.attach_file_to_case url L.login L.password L.ssl_verify file) := by
  have hmain := main_attach_only E fuel L s0 url s1 ht hargv hcfg hurl
  have hg := stage_config_grows E State.init
  rw [hcfg] at hg
  simp only [Res.state, State.init] at hg
  obtain ⟨⟨evs, hevs, hP⟩, hn⟩ := hg
  simp only [List.nil_append] at hevs
  have hprompts : ∀ e ∈ s0.trace, e = Event.ask ∨ e = Event.ask_password := by
    intro e he
    rw [hevs] at he
    exact hP e he
  have hA : (∀ i, i < E.argv.length → (E.rhts i).error = 0) →
      (main E fuel).1 = Outcome.ret 0 ∧
      (main E fuel).2.trace = s0.trace ++ E.argv.map
        (fun file => Event.attach_file_to_case url L.login L.password L.ssl_verify file) := by
    intro h
    rw [hmain, attach_files_all_ok E url L.login L.password L.ssl_verify E.argv s0
      (by intro i hi; rw [hn, Nat.zero_add]; exact h i hi)]
    exact ⟨rfl, rfl⟩
  have hB : ∀ k, k < E.argv.length → (∀ i, i < k → (E.rhts i).error = 0) →
      (E.rhts k).error ≠ 0 →
      (main E fuel).1 = Outcome.die E.xfunc_error_retval (E.rhts k).msg ∧
      (main E fuel).2.trace = s0.trace ++ (E.argv.take (k + 1)).map
        (fun file => Event.attach_file_to_case url L.login L.password L.ssl_verify file) := by
    intro k hk h hbad
    rw [hmain, attach_files_first_error E url L.login L.password L.ssl_verify E.argv s0 k hk
      (by intro i hi; rw [hn, Nat.zero_add]; exact h i hi)
      (by rw [hn, Nat.zero_add]; exact hbad)]
    simp only [hn, Nat.zero_add]
    exact ⟨trivial, trivial⟩
  have hfirst : (¬ ∀ i, i < E.argv.length → (E.rhts i).error = 0) →
      ∃ k, k < E.argv.length ∧ (∀ i, i < k → (E.rhts i).error = 0) ∧ (E.rhts k).error ≠ 0 := by
    intro hne
    have hex : ∃ k, k < E.argv.length ∧ (E.rhts k).error ≠ 0 := by
      by_contra hc
      exact hne (fun i hi => by_contra (fun hb => hc ⟨i, hi, hb⟩))
    refine ⟨Nat.find hex, (Nat.find_spec hex).1, ?_, (Nat.find_spec hex).2⟩
    intro i hi
    by_contra hb
    exact Nat.find_min hex hi ⟨lt_trans hi (Nat.find_spec hex).1, hb⟩
  refine ⟨hprompts, hn, hA, hB, ⟨?_, fun h => (hA h).1⟩, ?_⟩
  · intro hret
    by_contra hne
    obtain ⟨k, hk, hok, hbad⟩ := hfirst hne
    rw [(hB k hk hok hbad).1] at hret
    exact Outcome.noConfusion hret
  · intro e he
    have hsub : ∀ files : List String, (∀ f ∈ files, f ∈ E.argv) →
        e ∈ s0.trace ++ files.map
          (fun file => Event.attach_file_to_case url L.login L.password L.ssl_verify file) →
        e = Event.ask ∨ e = Event.ask_password ∨
          ∃ file ∈ E.argv, e = Event.attach_file_to_case url L.login L.password L.ssl_verify file := by
      intro files hf hmem
      rcases List.mem_append.1 hmem with h | h
      · rcases hprompts e h with h | h
        · exact Or.inl h
        · exact Or.inr (Or.inl h)
      · obtain ⟨file, hfile, rfl⟩ := List.mem_map.1 h
        exact Or.inr (Or.inr ⟨file, hf file hfile, rfl⟩)
    by_cases hall : ∀ i, i < E.argv.length → (E.rhts i).error = 0
    · rw [(hA hall).2] at he
      exact hsub E.argv (fun f hf => hf) he
    · obtain ⟨k, hk, hok, hbad⟩ := hfirst hall
      rw [(hB k hk hok hbad).2] at he
      exact hsub (E.argv.take (k + 1)) (fun f hf => List.mem_of_mem_take hf) he

/-- C10, at the run `-tCASE7 extra1.log extra2.log` with two accepted attachments. -/
theorem attach_only_attaches_in_order_witness :
    (main env_attach 3).1 = Outcome.ret 0 ∧
    (main env_attach 3).2.trace =
      [Event.attach_file_to_case (some "https://api.access.redhat.com/rs/cases/CASE7")
         "u" "p" true "extra1.log",
       Event.attach_file_to_case (some "https://api.access.redhat.com/rs/cases/CASE7")
         "u" "p" true "extra2.log"] :=
  (attach_only_attaches_in_order env_attach 3
    { url := some "https://api.access.redhat.com/rs", login := "u", password := "p",
      bigurl := "ftp://dropbox.redhat.com/incoming/", ssl_verify := true, bigsize := 200,
      submit_ur := false, base_api_url := "https://api.access.redhat.com/rs",
      ur_username := "u", ur_password := "p", bthash := none }
    State.init (some "https://api.access.redhat.com/rs/cases/CASE7") State.init
    (by decide) (by decide) (by decide) (by decide)).2.2.1 (by intro i _; rfl)

/-! ### What each stage adds to the trace -/

theorem Grows.kinds {J K : List Kind} {s1 s2 : State}
    (h : Grows (fun e => e.kind ∈ J) s1 s2) (hsub : ∀ k ∈ J, k ∈ K) :
    Grows (fun e => e.kind ∈ K) s1 s2 :=
  h.mono (fun e he => hsub e.kind he)

theorem Grows.no_kind {K : List Kind} {s1 s2 : State} (h : Grows (fun e => e.kind ∈ K) s1 s2)
    {k : Kind} (hk : k ∉ K) (h1 : ¬ has_kind k s1.trace) : ¬ has_kind k s2.trace := by
  rintro ⟨e, he, hek⟩
  rcases h.mem he with h' | h'
  · exact h1 ⟨e, h', hek⟩
  · exact hk (hek ▸ h')

theorem Grows.has_kind {P : Event → Prop} {s1 s2 : State} (h : Grows P s1 s2) {k : Kind}
    (h1 : has_kind k s1.trace) : has_kind k s2.trace := by
  obtain ⟨e, he, hek⟩ := h1
  exact ⟨e, h.sub he, hek⟩

theorem prompts_kinds {s1 s2 : State}
    (h : Grows (fun e => e = Event.ask ∨ e = Event.ask_password) s1 s2) :
    Grows (fun e => e.kind ∈ [Kind.ask, Kind.ask_password]) s1 s2 :=
  h.mono (fun e he => by rcases he with rfl | rfl <;> simp [Event.kind])

/-- The credential loop: the first new event is the request with the credentials
given, and the later ones are prompts and further requests. -/
theorem loop_trace (E : Env) (fncall : String → String → Event) (fuel : Nat)
    (l p : String) (s : State) :
    ∃ evs, (INVALID_CREDENTIALS_LOOP E fncall fuel l p s).state.trace
        = s.trace ++ fncall l p :: evs ∧
      ∀ e ∈ evs, e = Event.ask ∨ e = Event.ask_password ∨ ∃ l1 p1, e = fncall l1 p1 := by
  induction fuel generalizing l p s with
  | zero =>
    rw [loop_step]
    split
    · exact ⟨[], by simp [Res.state_ok], by simp⟩
    · rcases ask_rh_credentials_cases E
        { s with trace := s.trace ++ [fncall l p], ncall := s.ncall + 1 }
        with ⟨o, h⟩ | ⟨o, h⟩ | ⟨l1, p1, h⟩ <;> rw [h] <;>
        simp only [Res.state_ok, Res.state_halt]
      · exact ⟨[Event.ask], by simp, by simp⟩
      · exact ⟨[Event.ask, Event.ask_password], by simp, by simp⟩
      · exact ⟨[Event.ask, Event.ask_password], by simp, by simp⟩
  | succ n ih =>
    rw [loop_step]
    split
    · exact ⟨[], by simp [Res.state_ok], by simp⟩
    · rcases ask_rh_credentials_cases E
        { s with trace := s.trace ++ [fncall l p], ncall := s.ncall + 1 }
        with ⟨o, h⟩ | ⟨o, h⟩ | ⟨l1, p1, h⟩ <;> rw [h] <;>
        simp only [Res.state_ok, Res.state_halt]
      · exact ⟨[Event.ask], by simp, by simp⟩
      · exact ⟨[Event.ask, Event.ask_password], by simp, by simp⟩
      · obtain ⟨evs, ht, hp⟩ := ih l1 p1
          { trace := s.trace ++ [fncall l p] ++ [Event.ask, Event.ask_password],
            ncall := s.ncall + 1, nask := s.nask + 1, npw := s.npw + 1 }
        refine ⟨Event.ask :: Event.ask_password :: fncall l1 p1 :: evs, ?_, ?_⟩
        · rw [ht]; simp
        · intro e he
          simp only [List.mem_cons] at he
          rcases he with rfl | rfl | rfl | he
          · exact Or.inl rfl
          · exact Or.inr (Or.inl rfl)
          · exact Or.inr (Or.inr ⟨l1, p1, rfl⟩)
          · exact hp e he

/-- The credential loop ends a run only when a prompt is left unanswered or the
model runs out of fuel. -/
theorem loop_halts (E : Env) (fncall : String → String → Event) (fuel : Nat)
    (l p : String) (s : State) (o : Outcome) (s1 : State)
    (h : INVALID_CREDENTIALS_LOOP E fncall fuel l p s = .halt o s1) :
    o = Outcome.hang ∨ ∃ m, o = Outcome.die E.EXIT_CANCEL_BY_USER m := by
  induction fuel generalizing l p s with
  | zero =>
    rw [loop_step] at h
    split at h
    · exact Res.noConfusion h
    · rcases ask_rh_credentials_cases E
        { s with trace := s.trace ++ [fncall l p], ncall := s.ncall + 1 }
        with ⟨m, hc⟩ | ⟨m, hc⟩ | ⟨l1, p1, hc⟩ <;> rw [hc] at h <;>
        simp only [Res.halt.injEq] at h
      · exact Or.inr ⟨m, h.1.symm⟩
      · exact Or.inr ⟨m, h.1.symm⟩
      · exact Or.inl h.1.symm
  | succ n ih =>
    rw [loop_step] at h
    split at h
    · exact Res.noConfusion h
    · rcases ask_rh_credentials_cases E
        { s with trace := s.trace ++ [fncall l p], ncall := s.ncall + 1 }
        with ⟨m, hc⟩ | ⟨m, hc⟩ | ⟨l1, p1, hc⟩ <;> rw [hc] at h
      · simp only [Res.halt.injEq] at h
        exact Or.inr ⟨m, h.1.symm⟩
      · simp only [Res.halt.injEq] at h
        exact Or.inr ⟨m, h.1.symm⟩
      · exact ih l1 p1 _ h

theorem loop_grows (E : Env) (fncall : String → String → Event) (k : Kind)
    (hk : ∀ l p, (fncall l p).kind = k) (fuel : Nat) (l p : String) (s : State) :
    Grows (fun e => e.kind ∈ [k, Kind.ask, Kind.ask_password]) s
      (INVALID_CREDENTIALS_LOOP E fncall fuel l p s).state := by
  obtain ⟨evs, ht, hp⟩ := loop_trace E fncall fuel l p s
  refine ⟨fncall l p :: evs, ht, ?_⟩
  intro e he
  rcases List.mem_cons.1 he with rfl | he
  · simp [hk]
  · rcases hp e he with rfl | rfl | ⟨l1, p1, rfl⟩
    · simp [Event.kind]
    · simp [Event.kind]
    · simp [hk]

theorem loop_has_kind (E : Env) (fncall : String → String → Event) (k : Kind)
    (hk : ∀ l p, (fncall l p).kind = k) (fuel : Nat) (l p : String) (s : State) :
    has_kind k (INVALID_CREDENTIALS_LOOP E fncall fuel l p s).state.trace := by
  obtain ⟨evs, ht, _⟩ := loop_trace E fncall fuel l p s
  exact ⟨fncall l p, by rw [ht]; simp, hk l p⟩

theorem ureport_step (E : Env) (json : ureport_json) (action : ureport_action) (fuel : Nat)
    (username password : String) (s : State) :
    ureport_do_post_credentials E json action fuel username password s =
      match E.ureport_do_post s.ncall with
      | none => .ok (none, username, password)
          { s with trace := s.trace ++ [Event.ureport_do_post json username password action],
                   ncall := s.ncall + 1 }
      | some post =>
        if post.http_resp_code ≠ 401 then .ok (post.reply, username, password)
          { s with trace := s.trace ++ [Event.ureport_do_post json username password action],
                   ncall := s.ncall + 1 }
        else
          match ask_rh_credentials E
            { s with trace := s.trace ++ [Event.ureport_do_post json username password action],
                     ncall := s.ncall + 1 } with
          | .halt o s2 => .halt o s2
          | .ok (l1, p1) s2 =>
            match fuel with
            | 0 => .halt .hang s2
            | fuel1 + 1 => ureport_do_post_credentials E json action fuel1 l1 p1 s2 := by
  cases fuel <;> rw [ureport_do_post_credentials]

theorem ureport_loop_grows (E : Env) (json : ureport_json) (action : ureport_action)
    (fuel : Nat) (username password : String) (s : State) :
    Grows (fun e => e.kind ∈ [Kind.ureport_do_post, Kind.ask, Kind.ask_password]) s
      (ureport_do_post_credentials E json action fuel username password s).state := by
  have hpost : ∀ (u p : String) (s : State),
      Grows (fun e => e.kind ∈ [Kind.ureport_do_post, Kind.ask, Kind.ask_password]) s
        { s with trace := s.trace ++ [Event.ureport_do_post json u p action],
                 ncall := s.ncall + 1 } :=
    fun u p s => ⟨_, rfl, by simp [Event.kind]⟩
  have hask : ∀ s : State,
      Grows (fun e => e.kind ∈ [Kind.ureport_do_post, Kind.ask, Kind.ask_password]) s
        (ask_rh_credentials E s).state :=
    fun s => (prompts_kinds (ask_rh_credentials_grows E s).1).kinds (by decide)
  induction fuel generalizing username password s with
  | zero =>
    rw [ureport_step]
    split
    · exact hpost _ _ _
    · split
      · exact hpost _ _ _
      · refine (hpost username password s).trans ?_
        have g := hask
          { s with trace := s.trace ++ [Event.ureport_do_post json username password action],
                   ncall := s.ncall + 1 }
        split
        · rename_i hc; rw [hc] at g; exact g
        · rename_i hc; rw [hc] at g; exact g
  | succ n ih =>
    rw [ureport_step]
    split
    · exact hpost _ _ _
    · split
      · exact hpost _ _ _
      · refine (hpost username password s).trans ?_
        have g := hask
          { s with trace := s.trace ++ [Event.ureport_do_post json username password action],
                   ncall := s.ncall + 1 }
        split
        · rename_i hc; rw [hc] at g; exact g
        · rename_i hc; rw [hc] at g
          exact g.trans (ih _ _ _)

theorem ureport_loop_halts (E : Env) (json : ureport_json) (action : ureport_action)
    (fuel : Nat) (username password : String) (s : State) (o : Outcome) (s1 : State)
    (h : ureport_do_post_credentials E json action fuel username password s = .halt o s1) :
    o = Outcome.hang ∨ ∃ m, o = Outcome.die E.EXIT_CANCEL_BY_USER m := by
  induction fuel generalizing username password s with
  | zero =>
    rw [ureport_step] at h
    split at h
    · exact Res.noConfusion h
    · split at h
      · exact Res.noConfusion h
      · rcases ask_rh_credentials_cases E
          { s with trace := s.trace ++ [Event.ureport_do_post json username password action],
                   ncall := s.ncall + 1 }
          with ⟨m, hc⟩ | ⟨m, hc⟩ | ⟨l1, p1, hc⟩ <;> rw [hc] at h <;>
          simp only [Res.halt.injEq] at h
        · exact Or.inr ⟨m, h.1.symm⟩
        · exact Or.inr ⟨m, h.1.symm⟩
        · exact Or.inl h.1.symm
  | succ n ih =>
    rw [ureport_step] at h
    split at h
    · exact Res.noConfusion h
    · split at h
      · exact Res.noConfusion h
      · rcases ask_rh_credentials_cases E
          { s with trace := s.trace ++ [Event.ureport_do_post json username password action],
                   ncall := s.ncall + 1 }
          with ⟨m, hc⟩ | ⟨m, hc⟩ | ⟨l1, p1, hc⟩ <;> rw [hc] at h
        · simp only [Res.halt.injEq] at h
          exact Or.inr ⟨m, h.1.symm⟩
        · simp only [Res.halt.injEq] at h
          exact Or.inr ⟨m, h.1.symm⟩
        · exact ih l1 p1 _ h

theorem submit_ureport_grows (E : Env) (fuel : Nat) (u p : String) (s : State) :
    Grows (fun e => e.kind ∈ [Kind.ureport_do_post, Kind.ask, Kind.ask_password,
        Kind.ureport_save]) s (submit_ureport E fuel u p s).state := by
  unfold submit_ureport
  split
  · exact Grows.refl _ _
  · split
    · exact Grows.refl _ _
    · split
      · exact Grows.refl _ _
      · rename_i json _
        have g := (ureport_loop_grows E (.report json) .submit fuel u p s).kinds
          (K := [Kind.ureport_do_post, Kind.ask, Kind.ask_password, Kind.ureport_save])
          (by decide)
        generalize ureport_do_post_credentials E (.report json) .submit fuel u p s = r at g
        rcases r with ⟨⟨_ | resp, u1, p1⟩, s1⟩ | ⟨o, s1⟩
        · exact g
        · simp only
          split
          · exact g.trans (Grows.emit _ _ _ (by simp [Event.kind]))
          · exact g
        · exact g

theorem submit_ureport_halts (E : Env) (fuel : Nat) (u p : String) (s : State) (o : Outcome)
    (s1 : State) (h : submit_ureport E fuel u p s = .halt o s1) :
    o = Outcome.hang ∨ ∃ m, o = Outcome.die E.EXIT_CANCEL_BY_USER m := by
  unfold submit_ureport at h
  split at h
  · exact Res.noConfusion h
  · split at h
    · exact Res.noConfusion h
    · split at h
      · exact Res.noConfusion h
      · rename_i json _
        have g := ureport_loop_halts E (.report json) .submit fuel u p s
        generalize ureport_do_post_credentials E (.report json) .submit fuel u p s = r at g h
        rcases r with ⟨⟨_ | resp, u1, p1⟩, s2⟩ | ⟨o2, s2⟩
        · exact Res.noConfusion h
        · simp only at h
          split at h <;> exact Res.noConfusion h
        · simp only [Res.halt.injEq] at h
          exact h.1 ▸ g o2 s2 rfl

theorem attach_to_ureport_grows (E : Env) (fuel : Nat) (u p bthash attach_id : String)
    (data : Option String) (s : State) :
    Grows (fun e => e.kind ∈ [Kind.ureport_do_post, Kind.ask, Kind.ask_password]) s
      (attach_to_ureport E fuel u p bthash attach_id data s).state := by
  unfold attach_to_ureport
  have g := ureport_loop_grows E (.attachment bthash attach_id data) .attach fuel u p s
  generalize ureport_do_post_credentials E (.attachment bthash attach_id data) .attach fuel u p s
    = r at g
  rcases r with ⟨⟨_, u1, p1⟩, s1⟩ | ⟨o, s1⟩ <;> exact g

theorem attach_to_ureport_halts (E : Env) (fuel : Nat) (u p bthash attach_id : String)
    (data : Option String) (s : State) (o : Outcome) (s1 : State)
    (h : attach_to_ureport E fuel u p bthash attach_id data s = .halt o s1) :
    o = Outcome.hang ∨ ∃ m, o = Outcome.die E.EXIT_CANCEL_BY_USER m := by
  unfold attach_to_ureport at h
  have g := ureport_loop_halts E (.attachment bthash attach_id data) .attach fuel u p s
  generalize ureport_do_post_credentials E (.attachment bthash attach_id data) .attach fuel u p s
    = r at g h
  rcases r with ⟨⟨_, u1, p1⟩, s2⟩ | ⟨o2, s2⟩
  · exact Res.noConfusion h
  · simp only [Res.halt.injEq] at h
    exact h.1 ▸ g o2 s2 rfl

theorem check_for_hints_grows (E : Env) (fuel : Nat) (url login password : String)
    (ssl_verify : Bool) (tempfile : String) (s : State) :
    Grows (fun e => e.kind ∈ [Kind.get_rhts_hints, Kind.ask, Kind.ask_password,
        Kind.ask_yes_no]) s
      (check_for_hints E fuel url login password ssl_verify tempfile s).state ∧
    has_kind Kind.get_rhts_hints
      (check_for_hints E fuel url login password ssl_verify tempfile s).state.trace := by
  unfold check_for_hints
  have g := (loop_grows E (fun l p => Event.get_rhts_hints url l p ssl_verify tempfile)
    Kind.get_rhts_hints (fun _ _ => rfl) fuel login password s).kinds
    (K := [Kind.get_rhts_hints, Kind.ask, Kind.ask_password, Kind.ask_yes_no]) (by decide)
  have k := loop_has_kind E (fun l p => Event.get_rhts_hints url l p ssl_verify tempfile)
    Kind.get_rhts_hints (fun _ _ => rfl) fuel login password s
  generalize INVALID_CREDENTIALS_LOOP E
    (fun l p => Event.get_rhts_hints url l p ssl_verify tempfile) fuel login password s = r at g k
  rcases r with ⟨⟨l, p, result⟩, s1⟩ | ⟨o, s1⟩
  · simp only
    repeat' split
    all_goals first
      | exact ⟨g, k⟩
      | exact ⟨g.trans (Grows.emit _ _ _ (by simp [Event.kind])),
          (Grows.emit (fun _ => True) _ _ trivial).has_kind k⟩
  · exact ⟨g, k⟩

theorem check_for_hints_halts (E : Env) (fuel : Nat) (url login password : String)
    (ssl_verify : Bool) (tempfile : String) (s : State) (o : Outcome) (s1 : State)
    (h : check_for_hints E fuel url login password ssl_verify tempfile s = .halt o s1) :
    o = Outcome.hang ∨ ∃ m, o = Outcome.die E.EXIT_CANCEL_BY_USER m := by
  unfold check_for_hints at h
  have g := loop_halts E (fun l p => Event.get_rhts_hints url l p ssl_verify tempfile)
    fuel login password s
  generalize INVALID_CREDENTIALS_LOOP E
    (fun l p => Event.get_rhts_hints url l p ssl_verify tempfile) fuel login password s = r at g h
  rcases r with ⟨⟨l, p, result⟩, s2⟩ | ⟨o2, s2⟩
  · simp only at h
    repeat' split at h
    all_goals exact Res.noConfusion h
  · simp only [Res.halt.injEq] at h
    exact h.1 ▸ g o2 s2 rfl

theorem confirm_report_again_grows (E : Env) (reported_to : Option report_result) (s : State) :
    Grows (fun e => e.kind ∈ [Kind.ask_yes_no]) s (confirm_report_again E reported_to s).state := by
  unfold confirm_report_again
  repeat' split
  all_goals first
    | exact Grows.refl _ _
    | exact Grows.emit _ _ _ (by simp [Event.kind])

theorem stage_new_case_start_grows (E : Env) (fuel : Nat) (L : Locals) (s : State) :
    Grows (fun e => e.kind ∈ [Kind.ask_yes_no, Kind.ureport_do_post, Kind.ask,
        Kind.ask_password, Kind.ureport_save]) s (stage_new_case_start E fuel L s).state := by
  unfold stage_new_case_start
  split
  · exact Grows.refl _ _
  · have hs := get_reported_to_state E s
    generalize get_reported_to E s = r at hs
    rcases r with ⟨reported_to, s1⟩ | ⟨o, s1⟩
    · simp only [Res.state_ok] at hs
      subst hs
      simp only
      have g2 := (confirm_report_again_grows E reported_to s1).kinds
        (K := [Kind.ask_yes_no, Kind.ureport_do_post, Kind.ask, Kind.ask_password,
          Kind.ureport_save]) (by decide)
      generalize confirm_report_again E reported_to s1 = r2 at g2
      rcases r2 with ⟨_, s2⟩ | ⟨o, s2⟩
      · simp only [Res.state_ok] at g2 ⊢
        split
        · refine g2.trans ?_
          have g := (submit_ureport_grows E fuel L.ur_username L.ur_password s2).kinds
            (K := [Kind.ask_yes_no, Kind.ureport_do_post, Kind.ask, Kind.ask_password,
              Kind.ureport_save]) (by decide)
          generalize submit_ureport E fuel L.ur_username L.ur_password s2 = r at g
          rcases r with ⟨⟨bthash, u1, p1⟩, s3⟩ | ⟨o, s3⟩ <;> exact g
        · exact g2
      · exact g2
    · simp only [Res.state_halt] at hs
      subst hs
      exact Grows.refl _ _

theorem attach_files_grows (E : Env) (url : Option String) (login password : String)
    (ssl_verify : Bool) (files : List String) (s : State) :
    Grows (fun e => e.kind ∈ [Kind.attach_file_to_case]) s
      (attach_files E url login password ssl_verify files s).2 := by
  induction files generalizing s with
  | nil => exact Grows.refl _ _
  | cons f rest ih =>
    simp only [attach_files, portal_call]
    have h1 : Grows (fun e => e.kind ∈ [Kind.attach_file_to_case]) s
        { s with trace := s.trace ++ [Event.attach_file_to_case url login password ssl_verify f],
                 ncall := s.ncall + 1 } := ⟨_, rfl, by simp [Event.kind]⟩
    split
    · exact h1
    · exact h1.trans (ih _)

theorem stage_mode_grows (E : Env) (fuel : Nat) (L : Locals) (s : State) :
    Grows (fun e => e.kind ∈ [Kind.attach_file_to_case, Kind.ask_yes_no, Kind.ureport_do_post,
        Kind.ask, Kind.ask_password, Kind.ureport_save]) s (stage_mode E fuel L s).state := by
  unfold stage_mode
  split
  · have hs := resolve_target_url_state E L.url s
    generalize resolve_target_url E L.url s = r at hs
    rcases r with ⟨url, s1⟩ | ⟨o, s1⟩
    · simp only [Res.state_ok] at hs
      subst hs
      simp only
      split
      · exact (attach_files_grows E url L.login L.password L.ssl_verify E.argv s1).kinds
          (by decide)
      · exact Grows.refl _ _
    · simp only [Res.state_halt] at hs
      subst hs
      exact Grows.refl _ _
  · exact (stage_new_case_start_grows E fuel L s).kinds (by decide)

theorem cleanup_grows (E : Env) (tempfile tmpdir_name : String) (errmsg : Option String)
    (s : State) :
    Grows (fun e => e.kind ∈ [Kind.unlink, Kind.rmdir]) s
      (cleanup E tempfile tmpdir_name errmsg s).2 := by
  unfold cleanup
  have : Grows (fun e => e.kind ∈ [Kind.unlink, Kind.rmdir]) s
      ((s.emit (Event.unlink tempfile)).emit (Event.rmdir tmpdir_name)) :=
    (Grows.emit _ _ _ (by simp [Event.kind])).trans (Grows.emit _ _ _ (by simp [Event.kind]))
  split <;> exact this

theorem confirm_or_exit_grows (E : Env) (q : Prompt) (s : State) :
    Grows (fun e => e.kind ∈ [Kind.ask_yes_no]) s (confirm_or_exit E q s).state := by
  unfold confirm_or_exit
  split <;> exact Grows.emit _ _ _ (by simp [Event.kind])

theorem stage_preflight_grows (E : Env) (pd : problem_data) (s : State) :
    Grows (fun e => e.kind ∈ [Kind.ask_yes_no]) s (stage_preflight E pd s).state := by
  unfold stage_preflight
  have h : ∀ (c : Prop) [Decidable c] (q : Prompt) (s : State),
      Grows (fun e => e.kind ∈ [Kind.ask_yes_no]) s
        (if c then confirm_or_exit E q s else Res.ok () s).state := by
    intro c _ q s
    split
    · exact confirm_or_exit_grows E q s
    · exact Grows.refl _ _
  have g1 := h (pd.count = some "1" ∧ pd.reproducible ≤ E.PROBLEM_REPRODUCIBLE_UNKNOWN)
    Prompt.count_once s
  generalize (if pd.count = some "1" ∧ pd.reproducible ≤ E.PROBLEM_REPRODUCIBLE_UNKNOWN
    then confirm_or_exit E Prompt.count_once s else Res.ok () s) = r1 at g1
  rcases r1 with ⟨_, s1⟩ | ⟨o, s1⟩
  · simp only [Res.state_ok] at g1 ⊢
    have g2 := h (pd.package.isSome ∧ pd.vendor.isSome ∧ pd.vendor ≠ some "Red Hat, Inc.")
      Prompt.vendor s1
    generalize (if pd.package.isSome ∧ pd.vendor.isSome ∧ pd.vendor ≠ some "Red Hat, Inc."
      then confirm_or_exit E Prompt.vendor s1 else Res.ok () s1) = r2 at g2
    rcases r2 with ⟨_, s2⟩ | ⟨o, s2⟩
    · simp only [Res.state_ok] at g2 ⊢
      exact (g1.trans g2).trans (h _ Prompt.not_packaged s2)
    · exact g1.trans g2
  · exact g1

theorem stage_format_state (E : Env) (s : State) : (stage_format E s).state = s := by
  unfold stage_format
  repeat' split
  all_goals rfl

theorem stage_prepare_grows (E : Env) (s : State) :
    Grows (fun e => e.kind ∈ [Kind.mkdtemp, Kind.ask_yes_no, Kind.create_tarball, Kind.unlink,
        Kind.rmdir]) s (stage_prepare E s).state := by
  unfold stage_prepare
  split
  · exact Grows.refl _ _
  · rename_i pd _
    split
    · exact Grows.refl _ _
    · rename_i tmpdir_name _
      simp only
      have g0 : Grows (fun e => e.kind ∈ [Kind.mkdtemp, Kind.ask_yes_no, Kind.create_tarball,
          Kind.unlink, Kind.rmdir]) s (s.emit (Event.mkdtemp tmpdir_name)) :=
        Grows.emit _ _ _ (by simp [Event.kind])
      have g1 := (stage_preflight_grows E pd (s.emit (Event.mkdtemp tmpdir_name))).kinds
        (K := [Kind.mkdtemp, Kind.ask_yes_no, Kind.create_tarball, Kind.unlink, Kind.rmdir])
        (by decide)
      generalize stage_preflight E pd (s.emit (Event.mkdtemp tmpdir_name)) = r1 at g1
      rcases r1 with ⟨_, s2⟩ | ⟨o, s2⟩
      · simp only [Res.state_ok] at g1 ⊢
        have g2 := stage_format_state E s2
        generalize stage_format E s2 = r2 at g2
        rcases r2 with ⟨⟨summary, dsc⟩, s3⟩ | ⟨o, s3⟩
        · simp only [Res.state_ok] at g2
          subst g2
          simp only
          have g3 : Grows (fun e => e.kind ∈ [Kind.mkdtemp, Kind.ask_yes_no,
              Kind.create_tarball, Kind.unlink, Kind.rmdir]) s3
              (s3.emit (Event.create_tarball
                (E.concat_path_basename tmpdir_name E.dump_dir_name ++ ".tar.gz"))) :=
            Grows.emit _ _ _ (by simp [Event.kind])
          split
          · exact g0.trans g1
          · split
            · exact ((g0.trans g1).trans g3).trans ((cleanup_grows E _ _ _ _).kinds (by decide))
            · split
              · exact (g0.trans g1).trans g3
              · exact (g0.trans g1).trans g3
        · simp only [Res.state_halt] at g2
          subst g2
          exact g0.trans g1
      · exact g0.trans g1

theorem stage_link_grows (E : Env) (fuel : Nat) (L : Locals) (case_url : Option String)
    (s : State) :
    Grows (fun e => e.kind ∈ [Kind.ureport_do_post, Kind.ask, Kind.ask_password]) s
      (stage_link E fuel L case_url s).state := by
  unfold stage_link
  split
  · exact Grows.refl _ _
  · rename_i bthash _
    have g1 := attach_to_ureport_grows E fuel L.login L.password bthash "RHCID" case_url s
    generalize attach_to_ureport E fuel L.login L.password bthash "RHCID" case_url s = r1 at g1
    rcases r1 with ⟨⟨u1, p1⟩, s1⟩ | ⟨o, s1⟩
    · simp only [Res.state_ok] at g1 ⊢
      split
      · exact g1
      · rename_i email _
        have g2 := attach_to_ureport_grows E fuel u1 p1 bthash "email" (some email) s1
        generalize attach_to_ureport E fuel u1 p1 bthash "email" (some email) s1 = r2 at g2
        rcases r2 with ⟨⟨u2, p2⟩, s2⟩ | ⟨o, s2⟩ <;> exact g1.trans g2
    · exact g1

theorem stage_upload_grows (E : Env) (L : Locals) (W : Workspace) (s : State) :
    Grows (fun e => e.kind ∈ [Kind.upload_file]) s (stage_upload E L W s).2 := by
  unfold stage_upload
  split
  · exact ⟨_, rfl, by simp [Event.kind]⟩
  · exact Grows.refl _ _

theorem stage_deliver_grows (E : Env) (fuel : Nat) (L : Locals) (W : Workspace) (s : State) :
    Grows (fun e => e.kind ∈ [Kind.upload_file, Kind.add_comment_to_case,
        Kind.attach_file_to_case, Kind.ask, Kind.ask_password]) s
      (stage_deliver E fuel L W s).state := by
  unfold stage_deliver
  have g0 := (stage_upload_grows E L W s).kinds
    (K := [Kind.upload_file, Kind.add_comment_to_case, Kind.attach_file_to_case, Kind.ask,
      Kind.ask_password]) (by decide)
  generalize stage_upload E L W s = u at g0
  rcases u with ⟨_ | remote, s1⟩
  · simp only at g0 ⊢
    have g := (loop_grows E (fun l p => Event.attach_file_to_case L.url l p L.ssl_verify
      W.tempfile) Kind.attach_file_to_case (fun _ _ => rfl)
      fuel L.login L.password s1).kinds
      (K := [Kind.upload_file, Kind.add_comment_to_case, Kind.attach_file_to_case, Kind.ask,
        Kind.ask_password]) (by decide)
    generalize INVALID_CREDENTIALS_LOOP E (fun l p => Event.attach_file_to_case L.url l p
      L.ssl_verify W.tempfile) fuel L.login L.password s1 = r at g
    rcases r with ⟨⟨l, p, result⟩, s2⟩ | ⟨o, s2⟩ <;> exact g0.trans g
  · simp only at g0 ⊢
    have g := (loop_grows E (fun l p => Event.add_comment_to_case L.url l p L.ssl_verify
      ("Problem data was uploaded to " ++ remote)) Kind.add_comment_to_case (fun _ _ => rfl)
      fuel L.login L.password s1).kinds
      (K := [Kind.upload_file, Kind.add_comment_to_case, Kind.attach_file_to_case, Kind.ask,
        Kind.ask_password]) (by decide)
    generalize INVALID_CREDENTIALS_LOOP E (fun l p => Event.add_comment_to_case L.url l p
      L.ssl_verify ("Problem data was uploaded to " ++ remote)) fuel L.login L.password s1
      = r at g
    rcases r with ⟨⟨l, p, result⟩, s2⟩ | ⟨o, s2⟩ <;> exact g0.trans g

theorem stage_hints_grows (E : Env) (fuel : Nat) (L : Locals) (W : Workspace) (s : State) :
    Grows (fun e => e.kind ∈ [Kind.get_rhts_hints, Kind.ask, Kind.ask_password,
        Kind.ask_yes_no]) s (stage_hints E fuel L W s).state ∧
    (W.tempfile_size ≤ QUERY_HINTS_IF_SMALLER_THAN →
      has_kind Kind.get_rhts_hints (stage_hints E fuel L W s).state.trace) ∧
    (¬ W.tempfile_size ≤ QUERY_HINTS_IF_SMALLER_THAN →
      stage_hints E fuel L W s = .ok (false, L.login, L.password) s) := by
  unfold stage_hints
  split
  · rename_i h
    exact ⟨(check_for_hints_grows _ _ _ _ _ _ _ _).1,
      fun _ => (check_for_hints_grows _ _ _ _ _ _ _ _).2, fun hn => absurd h hn⟩
  · rename_i h
    exact ⟨Grows.refl _ _, fun hp => absurd hp h, fun _ => rfl⟩

theorem stage_case_grows (E : Env) (fuel : Nat) (L : Locals) (W : Workspace) (s : State) :
    Grows (fun e => e.kind ∈ [Kind.create_new_case, Kind.ask, Kind.ask_password,
        Kind.add_reported_to_entry, Kind.ureport_do_post]) s (stage_case E fuel L W s).state := by
  unfold stage_case
  split
  · exact Grows.refl _ _
  · rename_i product _
    have g := (loop_grows E (fun l p => Event.create_new_case L.url l p L.ssl_verify product
      E.version W.summary W.dsc W.package) Kind.create_new_case (fun _ _ => rfl)
      fuel L.login L.password s).kinds
      (K := [Kind.create_new_case, Kind.ask, Kind.ask_password, Kind.add_reported_to_entry,
        Kind.ureport_do_post]) (by decide)
    generalize INVALID_CREDENTIALS_LOOP E (fun l p => Event.create_new_case L.url l p
      L.ssl_verify product E.version W.summary W.dsc W.package) fuel L.login L.password s
      = r at g
    rcases r with ⟨⟨l2, p2, result⟩, s2⟩ | ⟨o, s2⟩
    · simp only [Res.state_ok] at g ⊢
      split
      · split <;> exact g
      · have g3 : Grows (fun e => e.kind ∈ [Kind.create_new_case, Kind.ask, Kind.ask_password,
            Kind.add_reported_to_entry, Kind.ureport_do_post]) s2
            (if E.dd_opendir_record = true then
              s2.emit (Event.add_reported_to_entry "RHTSupport" result.url result.msg)
             else s2) := by
          split
          · exact Grows.emit _ _ _ (by simp [Event.kind])
          · exact Grows.refl _ _
        generalize (if E.dd_opendir_record = true then
              s2.emit (Event.add_reported_to_entry "RHTSupport" result.url result.msg)
             else s2) = s3 at g3
        have g4 := (stage_link_grows E fuel { L with login := l2, password := p2 } result.url
          s3).kinds (K := [Kind.create_new_case, Kind.ask, Kind.ask_password,
            Kind.add_reported_to_entry, Kind.ureport_do_post]) (by decide)
        generalize stage_link E fuel { L with login := l2, password := p2 } result.url s3
          = r4 at g4
        rcases r4 with ⟨L1, s4⟩ | ⟨o, s4⟩ <;> exact (g.trans g3).trans g4
    · exact g

theorem stage_case_no_product (E : Env) (fuel : Nat) (L : Locals) (W : Workspace) (s : State)
    (h : E.product = none) :
    stage_case E fuel L W s = .halt (.die E.xfunc_error_retval
      (some "Can't determine RH Support Product from problem data.")) s := by
  unfold stage_case
  rw [h]

theorem stage_create_grows (E : Env) (fuel : Nat) (L : Locals) (W : Workspace) (s : State) :
    Grows (fun e => e.kind ∈ [Kind.get_rhts_hints, Kind.ask, Kind.ask_password,
        Kind.ask_yes_no, Kind.create_new_case, Kind.add_reported_to_entry,
        Kind.ureport_do_post]) s (stage_create E fuel L W s).state ∧
    (W.tempfile_size ≤ QUERY_HINTS_IF_SMALLER_THAN →
      has_kind Kind.get_rhts_hints (stage_create E fuel L W s).state.trace) ∧
    (¬ W.tempfile_size ≤ QUERY_HINTS_IF_SMALLER_THAN →
      Grows (fun e => e.kind ∈ [Kind.create_new_case, Kind.ask, Kind.ask_password,
        Kind.add_reported_to_entry, Kind.ureport_do_post]) s
        (stage_create E fuel L W s).state) := by
  unfold stage_create
  obtain ⟨g1, k1, n1⟩ := stage_hints_grows E fuel L W s
  have g1' := g1.kinds (K := [Kind.get_rhts_hints, Kind.ask, Kind.ask_password,
        Kind.ask_yes_no, Kind.create_new_case, Kind.add_reported_to_entry,
        Kind.ureport_do_post]) (by decide)
  refine ⟨?_, ?_, ?_⟩
  · generalize stage_hints E fuel L W s = r at g1'
    rcases r with ⟨⟨_ | _, l1, p1⟩, s1⟩ | ⟨o, s1⟩
    · exact g1'.trans ((stage_case_grows E fuel _ W s1).kinds (by decide))
    · exact g1'
    · exact g1'
  · intro hle
    have k := k1 hle
    generalize stage_hints E fuel L W s = r at k
    rcases r with ⟨⟨_ | _, l1, p1⟩, s1⟩ | ⟨o, s1⟩
    · exact (stage_case_grows E fuel _ W s1).has_kind k
    · exact k
    · exact k
  · intro hgt
    rw [n1 hgt]
    exact stage_case_grows E fuel _ W s

theorem stage_hints_halts (E : Env) (fuel : Nat) (L : Locals) (W : Workspace) (s : State)
    (o : Outcome) (s1 : State) (h : stage_hints E fuel L W s = .halt o s1) :
    W.tempfile_size ≤ QUERY_HINTS_IF_SMALLER_THAN ∧
      (o = Outcome.hang ∨ ∃ m, o = Outcome.die E.EXIT_CANCEL_BY_USER m) := by
  unfold stage_hints at h
  split at h
  · rename_i hle
    exact ⟨hle, check_for_hints_halts _ _ _ _ _ _ _ _ _ _ h⟩
  · exact Res.noConfusion h

theorem stage_hints_cancel (E : Env) (fuel : Nat) (L : Locals) (W : Workspace) (s : State)
    (l p : String) (s1 : State) (h : stage_hints E fuel L W s = .ok (true, l, p) s1) :
    W.tempfile_size ≤ QUERY_HINTS_IF_SMALLER_THAN := by
  unfold stage_hints at h
  split at h
  · assumption
  · simp at h

/-- With an undetermined product the new case mode ends at the product check, unless
the hint probe ended the run before. -/
theorem stage_create_no_product (E : Env) (fuel : Nat) (L : Locals) (W : Workspace) (s : State)
    (h : E.product = none) :
    Grows (fun e => e.kind ∈ [Kind.get_rhts_hints, Kind.ask, Kind.ask_password,
        Kind.ask_yes_no]) s (stage_create E fuel L W s).state ∧
    ((∃ s1, stage_create E fuel L W s = .halt (.die E.xfunc_error_retval
        (some "Can't determine RH Support Product from problem data.")) s1) ∨
      (W.tempfile_size ≤ QUERY_HINTS_IF_SMALLER_THAN ∧
        ((∃ s1, stage_create E fuel L W s = .ok (none, none) s1) ∨
         (∃ s1, stage_create E fuel L W s = .halt .hang s1) ∨
         (∃ m s1, stage_create E fuel L W s = .halt (.die E.EXIT_CANCEL_BY_USER m) s1)))) := by
  unfold stage_create
  have g1 := (stage_hints_grows E fuel L W s).1
  have hh := stage_hints_halts E fuel L W s
  have hc := stage_hints_cancel E fuel L W s
  generalize stage_hints E fuel L W s = r at g1 hh hc
  rcases r with ⟨⟨_ | _, l1, p1⟩, s1⟩ | ⟨o, s1⟩
  · simp only [stage_case_no_product E fuel _ W s1 h]
    exact ⟨g1, Or.inl ⟨s1, rfl⟩⟩
  · exact ⟨g1, Or.inr ⟨hc l1 p1 s1 rfl, Or.inl ⟨s1, rfl⟩⟩⟩
  · obtain ⟨hle, ho⟩ := hh o s1 rfl
    refine ⟨g1, Or.inr ⟨hle, Or.inr ?_⟩⟩
    rcases ho with rfl | ⟨m, rfl⟩
    · exact Or.inl ⟨s1, rfl⟩
    · exact Or.inr ⟨m, s1, rfl⟩

/-- The run up to the archive, for a set of kinds that holds what `stage_mode` may
add: `main` goes on with `stage_finish` when it gets there, and every event before is
of one of the kinds. -/
theorem main_before_archive_of (E : Env) (fuel : Nat) (K : List Kind)
    (hK : ∀ k ∈ [Kind.ask, Kind.ask_password, Kind.ask_yes_no, Kind.mkdtemp,
      Kind.create_tarball, Kind.unlink, Kind.rmdir], k ∈ K)
    (hmode : ∀ L s, Grows (fun e => e.kind ∈ K) s (stage_mode E fuel L s).state) :
    (∀ L W s, reaches_archive E fuel = some (L, W, s) →
      main E fuel = stage_finish E fuel L W s ∧
      Grows (fun e => e.kind ∈ K) State.init s) ∧
    (reaches_archive E fuel = none →
      Grows (fun e => e.kind ∈ K) State.init (main E fuel).2) := by
  unfold main reaches_archive stage_report
  have g0 := (prompts_kinds (stage_config_grows E State.init).1).kinds (K := K)
    (fun k hk => hK k (by revert k; decide))
  generalize stage_config E State.init = r0 at g0
  rcases r0 with ⟨L0, s0⟩ | ⟨o, s0⟩
  · simp only [Res.state_ok] at g0 ⊢
    have g1 := hmode L0 s0
    generalize stage_mode E fuel L0 s0 = r1 at g1
    rcases r1 with ⟨L1, s1⟩ | ⟨o, s1⟩
    · simp only [Res.state_ok] at g1 ⊢
      have g2 := (stage_prepare_grows E s1).kinds (K := K)
        (fun k hk => hK k (by revert k; decide))
      generalize stage_prepare E s1 = r2 at g2
      rcases r2 with ⟨W, s2⟩ | ⟨o, s2⟩
      · simp only [Res.state_ok] at g2 ⊢
        refine ⟨?_, fun h => Option.noConfusion h⟩
        intro L W' s h
        simp only [Option.some.injEq, Prod.mk.injEq] at h
        obtain ⟨rfl, rfl, rfl⟩ := h
        exact ⟨rfl, (g0.trans g1).trans g2⟩
      · exact ⟨fun L W s h => Option.noConfusion h, fun _ => (g0.trans g1).trans g2⟩
    · exact ⟨fun L W s h => Option.noConfusion h, fun _ => g0.trans g1⟩
  · exact ⟨fun L W s h => Option.noConfusion h, fun _ => g0⟩

/-- The run up to the archive: before the archive no event is a request to the
portal other than the attach requests of the attach-only mode and the microreport
posts. -/
theorem main_before_archive (E : Env) (fuel : Nat) :
    (∀ L W s, reaches_archive E fuel = some (L, W, s) →
      main E fuel = stage_finish E fuel L W s ∧
      Grows (fun e => e.kind ∈ [Kind.ask, Kind.ask_password, Kind.attach_file_to_case,
        Kind.ask_yes_no, Kind.ureport_do_post, Kind.ureport_save, Kind.mkdtemp,
        Kind.create_tarball, Kind.unlink, Kind.rmdir]) State.init s) ∧
    (reaches_archive E fuel = none →
      Grows (fun e => e.kind ∈ [Kind.ask, Kind.ask_password, Kind.attach_file_to_case,
        Kind.ask_yes_no, Kind.ureport_do_post, Kind.ureport_save, Kind.mkdtemp,
        Kind.create_tarball, Kind.unlink, Kind.rmdir]) State.init (main E fuel).2) :=
  main_before_archive_of E fuel _ (by decide)
    (fun L s => (stage_mode_grows E fuel L s).kinds (by decide))

/-- The run up to the archive in new case mode: no attach request either. -/
theorem main_before_archive_new_case (E : Env) (fuel : Nat) (ht : E.opt_t = false) :
    (∀ L W s, reaches_archive E fuel = some (L, W, s) →
      main E fuel = stage_finish E fuel L W s ∧
      Grows (fun e => e.kind ∈ [Kind.ask, Kind.ask_password,
        Kind.ask_yes_no, Kind.ureport_do_post, Kind.ureport_save, Kind.mkdtemp,
        Kind.create_tarball, Kind.unlink, Kind.rmdir]) State.init s) ∧
    (reaches_archive E fuel = none →
      Grows (fun e => e.kind ∈ [Kind.ask, Kind.ask_password,
        Kind.ask_yes_no, Kind.ureport_do_post, Kind.ureport_save, Kind.mkdtemp,
        Kind.create_tarball, Kind.unlink, Kind.rmdir]) State.init (main E fuel).2) :=
  main_before_archive_of E fuel _ (by decide)
    (fun L s => by
      unfold stage_mode
      simp only [ht, Bool.false_eq_true, if_false]
      exact (stage_new_case_start_grows E fuel L s).kinds (by decide))

theorem stage_tail_grows (E : Env) (fuel : Nat) (W : Workspace) (K : List Kind)
    (r : Res (Option Locals × Option String))
    (hK : ∀ k ∈ [Kind.upload_file, Kind.add_comment_to_case, Kind.attach_file_to_case, Kind.ask,
      Kind.ask_password, Kind.unlink, Kind.rmdir], k ∈ K) :
    Grows (fun e => e.kind ∈ K) r.state (stage_tail E fuel W r).2 := by
  rcases r with ⟨⟨_ | L1, errmsg⟩, s2⟩ | ⟨o, s2⟩
  · exact (cleanup_grows E _ _ _ s2).kinds (fun k hk => hK k (by revert k; decide))
  · simp only [Res.state_ok, stage_tail]
    have g := (stage_deliver_grows E fuel L1 W s2).kinds (K := K)
      (fun k hk => hK k (by revert k; decide))
    generalize stage_deliver E fuel L1 W s2 = r3 at g
    rcases r3 with ⟨L2, s3⟩ | ⟨o, s3⟩
    · exact g.trans ((cleanup_grows E _ _ _ s3).kinds (fun k hk => hK k (by revert k; decide)))
    · exact g
  · exact Grows.refl _ _

theorem stage_finish_new_case (E : Env) (fuel : Nat) (L : Locals) (W : Workspace) (s : State)
    (ht : E.opt_t = false) :
    stage_finish E fuel L W s = stage_tail E fuel W (stage_create E fuel L W s) := by
  unfold stage_finish
  simp only [ht, Bool.not_false, if_true]

theorem stage_finish_attach (E : Env) (fuel : Nat) (L : Locals) (W : Workspace) (s : State)
    (ht : E.opt_t = true) :
    stage_finish E fuel L W s = stage_tail E fuel W (.ok (some L, none) s) := by
  unfold stage_finish
  simp only [ht, Bool.not_true, Bool.false_eq_true, if_false]

theorem stage_finish_grows (E : Env) (fuel : Nat) (L : Locals) (W : Workspace) (s : State) :
    (E.opt_t = true →
      Grows (fun e => e.kind ∈ [Kind.upload_file, Kind.add_comment_to_case,
        Kind.attach_file_to_case, Kind.ask, Kind.ask_password, Kind.unlink, Kind.rmdir]) s
        (stage_finish E fuel L W s).2) ∧
    (E.opt_t = false → W.tempfile_size ≤ QUERY_HINTS_IF_SMALLER_THAN →
      has_kind Kind.get_rhts_hints (stage_finish E fuel L W s).2.trace) ∧
    (E.opt_t = false → ¬ W.tempfile_size ≤ QUERY_HINTS_IF_SMALLER_THAN →
      Grows (fun e => e.kind ∈ [Kind.create_new_case, Kind.ask, Kind.ask_password,
        Kind.add_reported_to_entry, Kind.ureport_do_post, Kind.upload_file,
        Kind.add_comment_to_case, Kind.attach_file_to_case, Kind.unlink, Kind.rmdir]) s
        (stage_finish E fuel L W s).2) := by
  refine ⟨?_, ?_, ?_⟩
  · intro ht
    rw [stage_finish_attach E fuel L W s ht]
    exact stage_tail_grows E fuel W _ (.ok (some L, none) s) (by decide)
  · intro ht hle
    rw [stage_finish_new_case E fuel L W s ht]
    exact (stage_tail_grows E fuel W _ (stage_create E fuel L W s) (fun k hk => hk)).has_kind
      ((stage_create_grows E fuel L W s).2.1 hle)
  · intro ht hgt
    rw [stage_finish_new_case E fuel L W s ht]
    exact (((stage_create_grows E fuel L W s).2.2 hgt).kinds (by decide)).trans
      (stage_tail_grows E fuel W _ (stage_create E fuel L W s) (by decide))

theorem stage_prepare_size (E : Env) (s : State) (W : Workspace) (s1 : State)
    (h : stage_prepare E s = .ok W s1) : E.stat_st_size = some W.tempfile_size := by
  unfold stage_prepare at h
  split at h
  · exact Res.noConfusion h
  · split at h
    · exact Res.noConfusion h
    · simp only at h
      split at h
      · exact Res.noConfusion h
      · split at h
        · exact Res.noConfusion h
        · split at h
          · exact Res.noConfusion h
          · split at h
            · exact Res.noConfusion h
            · split at h
              · exact Res.noConfusion h
              · rename_i hsz
                simp only [Res.ok.injEq] at h
                rw [hsz, ← h.1]

theorem reaches_archive_size (E : Env) (fuel : Nat) (L : Locals) (W : Workspace) (s : State)
    (h : reaches_archive E fuel = some (L, W, s)) : E.stat_st_size = some W.tempfile_size := by
  unfold reaches_archive at h
  split at h
  · exact Option.noConfusion h
  · split at h
    · exact Option.noConfusion h
    · split at h
      · exact Option.noConfusion h
      · rename_i hp
        simp only [Option.some.injEq, Prod.mk.injEq] at h
        obtain ⟨_, rfl, _⟩ := h
        exact stage_prepare_size E _ _ _ hp

theorem no_kind_init (k : Kind) : ¬ has_kind k State.init.trace := by
  rintro ⟨e, he, _⟩
  simp [State.init] at he


theorem count_kind_eq_zero (k : Kind) (evs : List Event) (h : ∀ e ∈ evs, e.kind ≠ k) :
    count_kind k evs = 0 := by
  unfold count_kind
  rw [List.length_eq_zero, List.filter_eq_nil_iff]
  intro e he
  simpa using h e he

/-- C6: the trace of a run has a `get_rhts_hints` request exactly when the run is in
new case mode (no `-t`), gets as far as the built archive, and the archive has at
most 8388608 bytes (the size `stat_st_size_or_die` returned).  So a run that gets
there without `-t` probes for 8388608 bytes and does not for 8388609 bytes, and no
run with `-t` ever probes. -/
theorem hint_probe_runs_iff_small_new_case (E : Env) (fuel : Nat) :
    (has_kind Kind.get_rhts_hints (main E fuel).2.trace ↔
      E.opt_t = false ∧ ∃ L W s, reaches_archive E fuel = some (L, W, s) ∧
        E.stat_st_size = some W.tempfile_size ∧ W.tempfile_size ≤ 8 * 1024 * 1024) ∧
    (∀ L W s, reaches_archive E fuel = some (L, W, s) → E.opt_t = false →
      W.tempfile_size = 8388608 → has_kind Kind.get_rhts_hints (main E fuel).2.trace) ∧
    (∀ L W s, reaches_archive E fuel = some (L, W, s) →
      W.tempfile_size = 8388609 → ¬ has_kind Kind.get_rhts_hints (main E fuel).2.trace) ∧
    (E.opt_t = true → ¬ has_kind Kind.get_rhts_hints (main E fuel).2.trace) := by
  have hQ : QUERY_HINTS_IF_SMALLER_THAN = 8 * 1024 * 1024 := rfl
  have hiff : has_kind Kind.get_rhts_hints (main E fuel).2.trace ↔
      E.opt_t = false ∧ ∃ L W s, reaches_archive E fuel = some (L, W, s) ∧
        E.stat_st_size = some W.tempfile_size ∧ W.tempfile_size ≤ 8 * 1024 * 1024 := by
    obtain ⟨hsome, hnone⟩ := main_before_archive E fuel
    constructor
    · intro hk
      cases hr : reaches_archive E fuel with
      | none => exact absurd hk ((hnone hr).no_kind (by decide) (no_kind_init _))
      | some x =>
        obtain ⟨L, W, s⟩ := x
        obtain ⟨hm, hpre⟩ := hsome L W s hr
        have hs : ¬ has_kind Kind.get_rhts_hints s.trace :=
          hpre.no_kind (by decide) (no_kind_init _)
        rw [hm] at hk
        obtain ⟨ft, _, fbig⟩ := stage_finish_grows E fuel L W s
        cases ht : E.opt_t with
        | true => exact absurd hk ((ft ht).no_kind (by decide) hs)
        | false =>
          by_cases hle : W.tempfile_size ≤ QUERY_HINTS_IF_SMALLER_THAN
          · exact ⟨rfl, L, W, s, rfl, reaches_archive_size E fuel L W s hr, hQ ▸ hle⟩
          · exact absurd hk ((fbig ht hle).no_kind (by decide) hs)
    · rintro ⟨ht, L, W, s, hr, _, hle⟩
      rw [((main_before_archive E fuel).1 L W s hr).1]
      exact (stage_finish_grows E fuel L W s).2.1 ht (hQ ▸ hle)
  refine ⟨hiff, ?_, ?_, ?_⟩
  · intro L W s hr ht hsz
    exact hiff.2 ⟨ht, L, W, s, hr, reaches_archive_size E fuel L W s hr, by omega⟩
  · intro L W s hr hsz hk
    obtain ⟨_, L1, W1, s1, hr1, _, hle⟩ := hiff.1 hk
    rw [hr] at hr1
    simp only [Option.some.injEq, Prod.mk.injEq] at hr1
    obtain ⟨_, rfl, _⟩ := hr1
    omega
  · intro ht hk
    have := (hiff.1 hk).1
    rw [ht] at this
    exact Bool.noConfusion this

/-! ### The product check -/


/-- C8, as stated, fails on the run with `-u`, an archive of 1 MiB and an
undetermined product: before the run dies at the product check it has posted the
microreport and has uploaded the archive to the hint endpoint. -/
theorem requests_precede_product_check :
    env_no_product_u.product = none ∧
    (main env_no_product_u 3).1
      = Outcome.die 1 (some "Can't determine RH Support Product from problem data.") ∧
    (main env_no_product_u 3).2.trace =
      [Event.ureport_do_post (ureport_json.report "json") "u" "p" ureport_action.submit,
       Event.ureport_server_response_save_in_dump_dir
         { urr_is_error := false, urr_bthash := some "F1", urr_message := none },
       Event.mkdtemp "/var/tmp/rhtsupport-XXXXXX",
       Event.create_tarball "/var/tmp/rhtsupport-XXXXXX/d.tar.gz",
       Event.get_rhts_hints "https://api.access.redhat.com/rs" "u" "p" true
         "/var/tmp/rhtsupport-XXXXXX/d.tar.gz"] := by
  decide

/-- C8, amended: in new case mode with an undetermined product no event of the run
is a case creation, an attach, a comment, a bulk upload or a reported-to entry; a run
that gets as far as the built archive dies with the product message, unless the
archive is small enough for the hint probe and the probe ended the run (the user
cancelled there, left a credential prompt unanswered, or the retries went on); and
with an archive too big for the hint probe the run dies right after the archive is
built, without any request since. -/
theorem no_case_request_without_product (E : Env) (fuel : Nat) (ht : E.opt_t = false)
    (hp : E.product = none) :
    (∀ e ∈ (main E fuel).2.trace, e.kind ∉ [Kind.create_new_case, Kind.attach_file_to_case,
      Kind.add_comment_to_case, Kind.upload_file, Kind.add_reported_to_entry]) ∧
    (∀ L W s, reaches_archive E fuel = some (L, W, s) →
      (main E fuel).1 = Outcome.die E.xfunc_error_retval
          (some "Can't determine RH Support Product from problem data.") ∨
      (W.tempfile_size ≤ 8 * 1024 * 1024 ∧
        ((main E fuel).1 = Outcome.ret 0 ∨ (main E fuel).1 = Outcome.hang ∨
          ∃ m, (main E fuel).1 = Outcome.die E.EXIT_CANCEL_BY_USER m))) ∧
    (∀ L W s, reaches_archive E fuel = some (L, W, s) → ¬ W.tempfile_size ≤ 8 * 1024 * 1024 →
      main E fuel = (Outcome.die E.xfunc_error_retval
          (some "Can't determine RH Support Product from problem data."), s)) := by
  obtain ⟨hsome, hnone⟩ := main_before_archive_new_case E fuel ht
  have hQ : QUERY_HINTS_IF_SMALLER_THAN = 8 * 1024 * 1024 := rfl
  have hfin := fun L W s => stage_finish_new_case E fuel L W s ht
  refine ⟨?_, ?_, ?_⟩
  · have key : Grows (fun e => e.kind ∈ [Kind.ask, Kind.ask_password,
        Kind.ask_yes_no, Kind.ureport_do_post, Kind.ureport_save, Kind.mkdtemp,
        Kind.create_tarball, Kind.unlink, Kind.rmdir, Kind.get_rhts_hints])
        State.init (main E fuel).2 := by
      cases hr : reaches_archive E fuel with
      | none => exact (hnone hr).kinds (by decide)
      | some x =>
        obtain ⟨L, W, s⟩ := x
        obtain ⟨hm, hpre⟩ := hsome L W s hr
        refine (hpre.kinds (by decide)).trans ?_
        rw [hm, hfin]
        obtain ⟨g, hcase⟩ := stage_create_no_product E fuel L W s hp
        have g' := g.kinds (K := [Kind.ask, Kind.ask_password,
          Kind.ask_yes_no, Kind.ureport_do_post, Kind.ureport_save, Kind.mkdtemp,
          Kind.create_tarball, Kind.unlink, Kind.rmdir, Kind.get_rhts_hints]) (by decide)
        rcases hcase with ⟨s1, h1⟩ | ⟨_, ⟨s1, h1⟩ | ⟨s1, h1⟩ | ⟨m, s1, h1⟩⟩ <;>
          rw [h1] at g' ⊢ <;> simp only [stage_tail, Res.state_ok, Res.state_halt] at g' ⊢
        · exact g'
        · exact g'.trans ((cleanup_grows E _ _ _ s1).kinds (by decide))
        · exact g'
        · exact g'
    intro e he
    rcases key.mem he with h | h
    · simp [State.init] at h
    · intro hbad
      revert h hbad
      generalize e.kind = k
      revert k
      decide
  · intro L W s hr
    obtain ⟨hm, _⟩ := hsome L W s hr
    rw [hm, hfin]
    obtain ⟨_, hcase⟩ := stage_create_no_product E fuel L W s hp
    rcases hcase with ⟨s1, h1⟩ | ⟨hle, ⟨s1, h1⟩ | ⟨s1, h1⟩ | ⟨m, s1, h1⟩⟩ <;> rw [h1]
    · exact Or.inl rfl
    · refine Or.inr ⟨hQ ▸ hle, Or.inl ?_⟩
      simp [stage_tail, cleanup]
    · exact Or.inr ⟨hQ ▸ hle, Or.inr (Or.inl rfl)⟩
    · exact Or.inr ⟨hQ ▸ hle, Or.inr (Or.inr ⟨m, rfl⟩)⟩
  · intro L W s hr hgt
    obtain ⟨hm, _⟩ := hsome L W s hr
    rw [hm, hfin]
    unfold stage_create
    rw [(stage_hints_grows E fuel L W s).2.2 (by rw [hQ]; exact hgt)]
    simp only [stage_case_no_product E fuel _ W s hp, stage_tail]

/-- C8 amended, at the run with `-u` and an undetermined product: no case creation
request in the trace. -/
theorem no_case_request_without_product_witness :
    env_no_product_u.opt_t = false ∧ env_no_product_u.product = none ∧
    count_kind Kind.create_new_case (main env_no_product_u 3).2.trace = 0 :=
  ⟨rfl, rfl, count_kind_eq_zero _ _ (fun e he h =>
    (no_case_request_without_product env_no_product_u 3 (by decide) (by decide)).1 e he
      (by rw [h]; decide))⟩

/-! ### The delivery of the archive -/

/-- C16: `get_param_string` returns the value of the environment variable
`RHTSupport_X` when it is set, also when it is empty; otherwise the settings entry
for `X` when there is one; otherwise the default.  The `SubmitUReport` flag that the
configuration stage computes is `string_to_bool` of the same choice with the default
"1" when `-u` is given and "0" when not: a value from the environment or from the
settings decides whatever `-u` says, and `-u` decides when both are unset. -/
theorem config_precedence (E : Env) (L : Locals) (s : State)
    (hcfg : stage_config E State.init = .ok L s) :
    (∀ (getenv : String → Option String) (X : String) (settings : String → Option String)
        (d : String),
      (∀ v, getenv ("RHTSupport_" ++ X) = some v → get_param_string getenv X settings d = v) ∧
      (getenv ("RHTSupport_" ++ X) = some "" → get_param_string getenv X settings d = "") ∧
      (getenv ("RHTSupport_" ++ X) = none → ∀ v, settings X = some v →
        get_param_string getenv X settings d = v) ∧
      (getenv ("RHTSupport_" ++ X) = none → settings X = none →
        get_param_string getenv X settings d = d)) ∧
    L.submit_ur = E.string_to_bool
      (get_param_string E.getenv "SubmitUReport" E.settings (if E.opt_u then "1" else "0")) ∧
    (∀ v, E.getenv "RHTSupport_SubmitUReport" = some v → L.submit_ur = E.string_to_bool v) ∧
    (E.getenv "RHTSupport_SubmitUReport" = none → ∀ v, E.settings "SubmitUReport" = some v →
      L.submit_ur = E.string_to_bool v) ∧
    (E.getenv "RHTSupport_SubmitUReport" = none → E.settings "SubmitUReport" = none →
      L.submit_ur = E.string_to_bool (if E.opt_u then "1" else "0")) := by
  have hg : ∀ (getenv : String → Option String) (X : String)
      (settings : String → Option String) (d : String),
      (∀ v, getenv ("RHTSupport_" ++ X) = some v → get_param_string getenv X settings d = v) ∧
      (getenv ("RHTSupport_" ++ X) = some "" → get_param_string getenv X settings d = "") ∧
      (getenv ("RHTSupport_" ++ X) = none → ∀ v, settings X = some v →
        get_param_string getenv X settings d = v) ∧
      (getenv ("RHTSupport_" ++ X) = none → settings X = none →
        get_param_string getenv X settings d = d) := by
    intro getenv X settings d
    refine ⟨?_, ?_, ?_, ?_⟩
    · intro v h; simp [get_param_string, h]
    · intro h; simp [get_param_string, h]
    · intro h v hv; simp [get_param_string, h, hv]
    · intro h hv; simp [get_param_string, h, hv]
  have hsub : L.submit_ur = E.string_to_bool
      (get_param_string E.getenv "SubmitUReport" E.settings (if E.opt_u then "1" else "0")) := by
    unfold stage_config at hcfg
    simp only at hcfg
    split at hcfg
    · exact Res.noConfusion hcfg
    · split at hcfg
      · exact Res.noConfusion hcfg
      · split at hcfg
        · exact Res.noConfusion hcfg
        · simp only [Res.ok.injEq] at hcfg
          rw [← hcfg.1]
          simp only [get_param_string]
          have e : ("RHTSupport_" ++ "SubmitUReport" : String) = "RHTSupport_SubmitUReport" := by
            decide
          rw [e]
          cases E.getenv "RHTSupport_SubmitUReport" with
          | some v => rfl
          | none => cases E.settings "SubmitUReport" <;> rfl
  have e : ("RHTSupport_" ++ "SubmitUReport" : String) = "RHTSupport_SubmitUReport" := by decide
  refine ⟨hg, hsub, ?_, ?_, ?_⟩
  · intro v hv
    rw [hsub, (hg E.getenv "SubmitUReport" E.settings _).1 v (by rw [e]; exact hv)]
  · intro hn v hv
    rw [hsub, (hg E.getenv "SubmitUReport" E.settings _).2.2.1 (by rw [e]; exact hn) v hv]
  · intro hn hv
    rw [hsub, (hg E.getenv "SubmitUReport" E.settings _).2.2.2 (by rw [e]; exact hn) hv]

/-- C16, at the sample run with `-u` and `SubmitUReport` unset: the flag is set. -/
theorem config_precedence_witness :
    (∃ L s, stage_config env_no_product_u State.init = .ok L s ∧ L.submit_ur = true) :=
  ⟨_, _, rfl, by
    have h := (config_precedence env_no_product_u _ _ rfl).2.2.2.2 (by decide) (by decide)
    rw [h]; decide⟩

/-! ### The members of the archive -/

theorem append_dd_files_ok (T : TarEnv) (cpf : String → String → String)
    (files : List (String × String)) :
    ∀ (i : Nat) (ops : List TarOp), append_dd_files T cpf i files = (true, ops) →
      ops = files.map (fun f => TarOp.tar_append_file f.2 (cpf "content" f.1)) := by
  induction files with
  | nil =>
    intro i ops h
    simp only [append_dd_files, Prod.mk.injEq, true_and] at h
    simp [← h]
  | cons f rest ih =>
    intro i ops h
    obtain ⟨short_name, full_name⟩ := f
    simp only [append_dd_files] at h
    split at h
    · generalize hr : append_dd_files T cpf (i + 1) rest = r at h
      obtain ⟨ok, ops1⟩ := r
      simp only [Prod.mk.injEq] at h
      obtain ⟨rfl, rfl⟩ := h
      rw [ih (i + 1) ops1 hr]
      rfl
    · simp at h

theorem write_content_xml_ok (T : TarEnv) (signature : List Char) (ops : List TarOp)
    (h : write_content_xml T signature = (true, ops)) :
    ops = [TarOp.th_write "content.xml" (content_xml_len signature),
      TarOp.full_write (content_xml_block signature), TarOp.tar_append_eof, TarOp.tar_close] := by
  unfold write_content_xml at h
  simp only at h
  repeat' split at h
  all_goals simp_all

/-- C17: when `create_tarball` returns 0, the calls it made on the archive writer
are: one `tar_append_file` per file of the dump directory enumerator, in the order of
the enumerator, each saved under `concat_path_file("content", short_name)`; then the
one header with path "content.xml", the padded block, the end of archive marker and
the close.  So there are as many appended members as enumerated files, the header of
content.xml is written exactly once, its path does not start with "content/", and
nothing but its payload stands between it and the end of archive marker. -/
theorem tarball_members_in_order (T : TarEnv) (cpf : String → String → String)
    (h : (create_tarball T cpf).1 = 0) :
    (create_tarball T cpf).2 =
      T.dd_files.map (fun f => TarOp.tar_append_file f.2 (cpf "content" f.1)) ++
      [TarOp.th_write "content.xml"
          (content_xml_len (T.reportfile_as_string (manifest_bindings cpf T.problem_items))),
        TarOp.full_write
          (content_xml_block (T.reportfile_as_string (manifest_bindings cpf T.problem_items))),
        TarOp.tar_append_eof, TarOp.tar_close] ∧
    ((create_tarball T cpf).2.filter
        (fun op => match op with | TarOp.tar_append_file _ _ => true | _ => false)).length
      = T.dd_files.length ∧
    ((create_tarball T cpf).2.filter
        (fun op => match op with | TarOp.th_write _ _ => true | _ => false)).length = 1 ∧
    ("content/".data.isPrefixOf "content.xml".data) = false := by
  have key : (create_tarball T cpf).2 =
      T.dd_files.map (fun f => TarOp.tar_append_file f.2 (cpf "content" f.1)) ++
      [TarOp.th_write "content.xml"
          (content_xml_len (T.reportfile_as_string (manifest_bindings cpf T.problem_items))),
        TarOp.full_write
          (content_xml_block (T.reportfile_as_string (manifest_bindings cpf T.problem_items))),
        TarOp.tar_append_eof, TarOp.tar_close] := by
    have hopen : T.tar_fdopen_ok = true := by
      cases ho : T.tar_fdopen_ok with
      | true => rfl
      | false => simp [create_tarball, ho] at h
    unfold create_tarball at h ⊢
    simp only [hopen, Bool.not_true, Bool.false_eq_true, if_false] at h ⊢
    generalize hr : append_dd_files T cpf 0 T.dd_files = r at h ⊢
    obtain ⟨ok, ops⟩ := r
    cases ok with
    | false => simp at h
    | true =>
      simp only at h ⊢
      generalize hw : write_content_xml T
        (T.reportfile_as_string (manifest_bindings cpf T.problem_items)) = w at h ⊢
      obtain ⟨ok2, ops2⟩ := w
      cases ok2 with
      | false => simp at h
      | true =>
        simp only at h ⊢
        rw [append_dd_files_ok T cpf _ 0 ops hr, write_content_xml_ok T _ ops2 hw]
        cases hg : T.gzip_ok with
        | true => simp
        | false => simp [hg] at h
  refine ⟨key, ?_, ?_, by decide⟩
  · rw [key, List.filter_append]
    have : ∀ l : List (String × String),
        (List.filter (fun op => match op with | TarOp.tar_append_file _ _ => true | _ => false)
          (l.map (fun f => TarOp.tar_append_file f.2 (cpf "content" f.1)))).length = l.length := by
      intro l
      induction l with
      | nil => rfl
      | cons a l ih => simp [List.filter_cons, ih]
    rw [List.length_append, this]
    rfl
  · rw [key, List.filter_append]
    have : ∀ l : List (String × String),
        (List.filter (fun op => match op with | TarOp.th_write _ _ => true | _ => false)
          (l.map (fun f => TarOp.tar_append_file f.2 (cpf "content" f.1)))) = [] := by
      intro l
      induction l with
      | nil => rfl
      | cons a l ih => simp [List.filter_cons, ih]
    rw [this]
    rfl

/-- C17, at the sample archive with the two files "backtrace" and "count". -/
theorem tarball_members_in_order_witness :
    (create_tarball tar_sample (fun a b => a ++ "/" ++ b)).2 =
      [TarOp.tar_append_file "/d/backtrace" "content/backtrace",
       TarOp.tar_append_file "/d/count" "content/count",
       TarOp.th_write "content.xml" 4,
       TarOp.full_write (content_xml_block ['<', 'x', '/', '>']),
       TarOp.tar_append_eof, TarOp.tar_close] :=
  (tarball_members_in_order tar_sample (fun a b => a ++ "/" ++ b) (by decide)).1.trans
    (by decide)

/-! ### The microreport is submitted once -/

/-- C13: a dump directory in which `find_in_reported_to` finds a "uReport" entry.
When the directory can be opened (line 257), `submit_ureport` returns the bthash
stored in that entry, and the result is the same whatever `ureport_from_dump_dir` and
`ureport_do_post` would give, so neither is consulted.  When the directory cannot be
opened, `submit_ureport` returns NULL.  Either way the state is left as it was: no
event, so no post to the microreport server, and no network request counted. -/
theorem submit_ureport_known (E : Env) (fuel : Nat) (username password : String) (s : State)
    (rr : report_result) (hrr : E.reported_to_uReport = some rr) :
    (E.dd_opendir_ureport = true →
      submit_ureport E fuel username password s = .ok (rr.bthash, username, password) s ∧
      ∀ (json : Option String) (post : Nat → Option post_state),
        submit_ureport { E with ureport_from_dump_dir := json, ureport_do_post := post }
          fuel username password s = .ok (rr.bthash, username, password) s) ∧
    (E.dd_opendir_ureport = false →
      submit_ureport E fuel username password s = .ok (none, username, password) s) ∧
    (submit_ureport E fuel username password s).state = s := by
  refine ⟨fun hdd => ⟨?_, ?_⟩, fun hdd => ?_, ?_⟩
  · simp [submit_ureport, hdd, hrr]
  · intro json post
    simp [submit_ureport, hdd, hrr]
  · simp [submit_ureport, hdd]
  · cases hdd : E.dd_opendir_ureport <;> simp [submit_ureport, hdd, hrr, Res.state]

/-- C13, at the sample run with `-u` on a dump directory with a "uReport" entry. -/
theorem submit_ureport_known_witness :
    submit_ureport env_ureport_known 3 "u" "p" State.init = .ok (some "F0", "u", "p") State.init :=
  ((submit_ureport_known env_ureport_known 3 "u" "p" State.init
    { url := none, bthash := some "F0" } rfl).1 rfl).1

/-! ### The target of `-t` -/

/-- C11: a run with `-t` whose configuration stage succeeded.  With a case id the
target URL is `concat_path_file(concat_path_file(url, "cases"), id)` for the
configured URL, whatever the dump directory holds, and the dump directory is not even
opened.  Without a case id, on a dump directory that can be opened: the target is the
URL of the "RHTSupport" entry when the entry is there and has one; the target
resolution dies exactly when the entry is absent or has no URL, and then `main` dies
without any request, with a message that contains "was not reported to RHTSupport".
On a dump directory that cannot be opened, `get_reported_to` ends the run without a
message of its own. -/
theorem target_url_resolution (E : Env) (fuel : Nat) (L : Locals) (s : State)
    (ht : E.opt_t = true) (hcfg : stage_config E State.init = .ok L s) :
    L.url = some (get_param_string E.getenv "URL" E.settings
      "https://api.access.redhat.com/rs") ∧
    (∀ id, E.case_no = some id →
      resolve_target_url E L.url s = .ok (some (E.concat_path_file (E.concat_path_file
        (get_param_string E.getenv "URL" E.settings "https://api.access.redhat.com/rs")
        "cases") id)) s) ∧
    (E.case_no = none → E.dd_opendir_reported_to = true →
      (∀ rr u, E.reported_to_RHTSupport = some rr → rr.url = some u →
        resolve_target_url E L.url s = .ok (some u) s) ∧
      ((∃ o s1, resolve_target_url E L.url s = .halt o s1) ↔
        (E.reported_to_RHTSupport = none ∨
          ∃ rr, E.reported_to_RHTSupport = some rr ∧ rr.url = none)) ∧
      ((E.reported_to_RHTSupport = none ∨
          ∃ rr, E.reported_to_RHTSupport = some rr ∧ rr.url = none) →
        main E fuel = (Outcome.die E.xfunc_error_retval
          (some ("Can't attach: problem data in '" ++ E.dump_dir_name ++ "' " ++
            "was not reported to RHTSupport" ++ " and therefore has no URL")), s))) ∧
    (E.case_no = none → E.dd_opendir_reported_to = false →
      main E fuel = (Outcome.die E.xfunc_error_retval none, s)) := by
  have hurl : L.url = some (get_param_string E.getenv "URL" E.settings
      "https://api.access.redhat.com/rs") := by
    unfold stage_config at hcfg
    simp only at hcfg
    split at hcfg
    · exact Res.noConfusion hcfg
    · split at hcfg
      · exact Res.noConfusion hcfg
      · split at hcfg
        · exact Res.noConfusion hcfg
        · simp only [Res.ok.injEq] at hcfg
          rw [← hcfg.1]
  have hmsg : ("Can't attach: problem data in '" ++ E.dump_dir_name ++ "' " ++
      "was not reported to RHTSupport" ++ " and therefore has no URL")
      = "Can't attach: problem data in '" ++ E.dump_dir_name ++
        "' was not reported to RHTSupport and therefore has no URL" := by
    simp only [String.append_assoc]
    rfl
  refine ⟨hurl, ?_, ?_, ?_⟩
  · intro id hid
    simp [resolve_target_url, hid, hurl]
  · intro hnone hdd
    refine ⟨?_, ?_, ?_⟩
    · intro rr u hrr hu
      simp [resolve_target_url, hnone, get_reported_to, hdd, hrr, hu]
    · constructor
      · rintro ⟨o, s1, h⟩
        cases hrr : E.reported_to_RHTSupport with
        | none => exact Or.inl rfl
        | some rr =>
          cases hu : rr.url with
          | none => exact Or.inr ⟨rr, rfl, hu⟩
          | some u => simp [resolve_target_url, hnone, get_reported_to, hdd, hrr, hu] at h
      · rintro (hrr | ⟨rr, hrr, hu⟩)
        · exact ⟨_, _, by simp [resolve_target_url, hnone, get_reported_to, hdd, hrr]; exact ⟨rfl, rfl⟩⟩
        · exact ⟨_, _, by simp [resolve_target_url, hnone, get_reported_to, hdd, hrr, hu]; exact ⟨rfl, rfl⟩⟩
    · intro h
      rw [hmsg]
      rcases h with hrr | ⟨rr, hrr, hu⟩
      · simp [main, hcfg, stage_mode, ht, resolve_target_url, hnone, get_reported_to, hdd, hrr]
      · simp [main, hcfg, stage_mode, ht, resolve_target_url, hnone, get_reported_to, hdd, hrr, hu]
  · intro hnone hdd
    simp [main, hcfg, stage_mode, ht, resolve_target_url, hnone, get_reported_to, hdd]

/-- C11, at the run `-t extra1.log` on a dump directory without an "RHTSupport"
entry. -/
theorem target_url_resolution_witness :
    main env_attach_unreported 3 =
      (Outcome.die 1 (some ("Can't attach: problem data in 'd' " ++
        "was not reported to RHTSupport" ++ " and therefore has no URL")), State.init) :=
  ((target_url_resolution env_attach_unreported 3
    { url := some "https://api.access.redhat.com/rs", login := "u", password := "p",
      bigurl := "ftp://dropbox.redhat.com/incoming/", ssl_verify := true, bigsize := 200,
      submit_ur := false, base_api_url := "https://api.access.redhat.com/rs",
      ur_username := "u", ur_password := "p", bthash := none }
    State.init rfl (by decide)).2.2.1 rfl rfl).2.2 (Or.inl rfl)

/-! ### What each stage adds to the trace, by tag -/

theorem Grows.tags {J K : List Tag} {s1 s2 : State}
    (h : Grows (fun e => e.tag ∈ J) s1 s2) (hsub : ∀ t ∈ J, t ∈ K) :
    Grows (fun e => e.tag ∈ K) s1 s2 :=
  h.mono (fun e he => hsub e.tag he)

theorem Grows.not_mem {K : List Tag} {s1 s2 : State} (h : Grows (fun e => e.tag ∈ K) s1 s2)
    {e : Event} (hk : e.tag ∉ K) (h1 : e ∉ s1.trace) : e ∉ s2.trace := by
  intro he
  rcases h.mem he with h' | h'
  · exact h1 h'
  · exact hk h'

theorem prompts_tags {s1 s2 : State}
    (h : Grows (fun e => e = Event.ask ∨ e = Event.ask_password) s1 s2) :
    Grows (fun e => e.tag ∈ [Tag.plain Kind.ask, Tag.plain Kind.ask_password]) s1 s2 :=
  h.mono (fun e he => by rcases he with rfl | rfl <;> simp [Event.tag])

theorem loop_tags (E : Env) (fncall : String → String → Event) (t : Tag)
    (ht : ∀ l p, (fncall l p).tag = t) (fuel : Nat) (l p : String) (s : State) :
    Grows (fun e => e.tag ∈ [t, Tag.plain Kind.ask, Tag.plain Kind.ask_password]) s
      (INVALID_CREDENTIALS_LOOP E fncall fuel l p s).state := by
  obtain ⟨evs, hev, hp⟩ := loop_trace E fncall fuel l p s
  refine ⟨fncall l p :: evs, hev, ?_⟩
  intro e he
  rcases List.mem_cons.1 he with rfl | he
  · simp [ht]
  · rcases hp e he with rfl | rfl | ⟨l1, p1, rfl⟩
    · simp [Event.tag]
    · simp [Event.tag]
    · simp [ht]

theorem ureport_loop_tags (E : Env) (json : ureport_json) (action : ureport_action)
    (fuel : Nat) (username password : String) (s : State) :
    Grows (fun e => e.tag ∈ [Tag.post action, Tag.plain Kind.ask, Tag.plain Kind.ask_password]) s
      (ureport_do_post_credentials E json action fuel username password s).state := by
  have hpost : ∀ (u p : String) (s : State),
      Grows (fun e => e.tag ∈ [Tag.post action, Tag.plain Kind.ask,
        Tag.plain Kind.ask_password]) s
        { s with trace := s.trace ++ [Event.ureport_do_post json u p action],
                 ncall := s.ncall + 1 } :=
    fun u p s => ⟨_, rfl, by simp [Event.tag]⟩
  have hask : ∀ s : State,
      Grows (fun e => e.tag ∈ [Tag.post action, Tag.plain Kind.ask,
        Tag.plain Kind.ask_password]) s (ask_rh_credentials E s).state :=
    fun s => (prompts_tags (ask_rh_credentials_grows E s).1).tags
      (fun t ht => List.mem_cons_of_mem _ ht)
  induction fuel generalizing username password s with
  | zero =>
    rw [ureport_step]
    split
    · exact hpost _ _ _
    · split
      · exact hpost _ _ _
      · refine (hpost username password s).trans ?_
        have g := hask
          { s with trace := s.trace ++ [Event.ureport_do_post json username password action],
                   ncall := s.ncall + 1 }
        split
        · rename_i hc; rw [hc] at g; exact g
        · rename_i hc; rw [hc] at g; exact g
  | succ n ih =>
    rw [ureport_step]
    split
    · exact hpost _ _ _
    · split
      · exact hpost _ _ _
      · refine (hpost username password s).trans ?_
        have g := hask
          { s with trace := s.trace ++ [Event.ureport_do_post json username password action],
                   ncall := s.ncall + 1 }
        split
        · rename_i hc; rw [hc] at g; exact g
        · rename_i hc; rw [hc] at g
          exact g.trans (ih _ _ _)

theorem submit_ureport_tags (E : Env) (fuel : Nat) (u p : String) (s : State) :
    Grows (fun e => e.tag ∈ [Tag.post ureport_action.submit, Tag.plain Kind.ask,
        Tag.plain Kind.ask_password, Tag.plain Kind.ureport_save]) s
      (submit_ureport E fuel u p s).state := by
  unfold submit_ureport
  split
  · exact Grows.refl _ _
  · split
    · exact Grows.refl _ _
    · split
      · exact Grows.refl _ _
      · rename_i json _
        have g := (ureport_loop_tags E (.report json) .submit fuel u p s).tags
          (K := [Tag.post ureport_action.submit, Tag.plain Kind.ask,
            Tag.plain Kind.ask_password, Tag.plain Kind.ureport_save]) (by decide)
        generalize ureport_do_post_credentials E (.report json) .submit fuel u p s = r at g
        rcases r with ⟨⟨_ | resp, u1, p1⟩, s1⟩ | ⟨o, s1⟩
        · exact g
        · simp only
          split
          · exact g.trans (Grows.emit _ _ _ (by simp [Event.tag]))
          · exact g
        · exact g

theorem attach_to_ureport_tags (E : Env) (fuel : Nat) (u p bthash attach_id : String)
    (data : Option String) (s : State) :
    Grows (fun e => e.tag ∈ [Tag.post ureport_action.attach, Tag.plain Kind.ask,
        Tag.plain Kind.ask_password]) s
      (attach_to_ureport E fuel u p bthash attach_id data s).state := by
  unfold attach_to_ureport
  have g := ureport_loop_tags E (.attachment bthash attach_id data) .attach fuel u p s
  generalize ureport_do_post_credentials E (.attachment bthash attach_id data) .attach fuel u p s
    = r at g
  rcases r with ⟨⟨_, u1, p1⟩, s1⟩ | ⟨o, s1⟩ <;> exact g

theorem check_for_hints_tags (E : Env) (fuel : Nat) (url login password : String)
    (ssl_verify : Bool) (tempfile : String) (s : State) :
    Grows (fun e => e.tag ∈ [Tag.plain Kind.get_rhts_hints, Tag.plain Kind.ask,
        Tag.plain Kind.ask_password, Tag.prompt Prompt.hints]) s
      (check_for_hints E fuel url login password ssl_verify tempfile s).state := by
  unfold check_for_hints
  have g := (loop_tags E (fun l p => Event.get_rhts_hints url l p ssl_verify tempfile)
    (Tag.plain Kind.get_rhts_hints) (fun _ _ => rfl) fuel login password s).tags
    (K := [Tag.plain Kind.get_rhts_hints, Tag.plain Kind.ask, Tag.plain Kind.ask_password,
      Tag.prompt Prompt.hints]) (by decide)
  generalize INVALID_CREDENTIALS_LOOP E
    (fun l p => Event.get_rhts_hints url l p ssl_verify tempfile) fuel login password s = r at g
  rcases r with ⟨⟨l, p, result⟩, s1⟩ | ⟨o, s1⟩
  · simp only
    repeat' split
    all_goals first
      | exact g
      | exact g.trans (Grows.emit _ _ _ (by simp [Event.tag]))
  · exact g

theorem confirm_report_again_tags (E : Env) (reported_to : Option report_result) (s : State) :
    Grows (fun e => e.tag ∈ [Tag.prompt Prompt.already_reported]) s
      (confirm_report_again E reported_to s).state := by
  unfold confirm_report_again
  repeat' split
  all_goals first
    | exact Grows.refl _ _
    | exact Grows.emit _ _ _ (by simp [Event.tag])

theorem stage_new_case_start_tags (E : Env) (fuel : Nat) (L : Locals) (s : State) :
    Grows (fun e => e.tag ∈ [Tag.prompt Prompt.already_reported,
        Tag.post ureport_action.submit, Tag.plain Kind.ask, Tag.plain Kind.ask_password,
        Tag.plain Kind.ureport_save]) s (stage_new_case_start E fuel L s).state := by
  unfold stage_new_case_start
  split
  · exact Grows.refl _ _
  · have hs := get_reported_to_state E s
    generalize get_reported_to E s = r at hs
    rcases r with ⟨reported_to, s1⟩ | ⟨o, s1⟩
    · simp only [Res.state_ok] at hs
      subst hs
      simp only
      have g2 := (confirm_report_again_tags E reported_to s1).tags
        (K := [Tag.prompt Prompt.already_reported, Tag.post ureport_action.submit,
          Tag.plain Kind.ask, Tag.plain Kind.ask_password, Tag.plain Kind.ureport_save])
        (by decide)
      generalize confirm_report_again E reported_to s1 = r2 at g2
      rcases r2 with ⟨_, s2⟩ | ⟨o, s2⟩
      · simp only [Res.state_ok] at g2 ⊢
        split
        · refine g2.trans ?_
          have g := (submit_ureport_tags E fuel L.ur_username L.ur_password s2).tags
            (K := [Tag.prompt Prompt.already_reported, Tag.post ureport_action.submit,
              Tag.plain Kind.ask, Tag.plain Kind.ask_password, Tag.plain Kind.ureport_save])
            (by decide)
          generalize submit_ureport E fuel L.ur_username L.ur_password s2 = r at g
          rcases r with ⟨⟨bthash, u1, p1⟩, s3⟩ | ⟨o, s3⟩ <;> exact g
        · exact g2
      · exact g2
    · simp only [Res.state_halt] at hs
      subst hs
      exact Grows.refl _ _

theorem attach_files_tags (E : Env) (url : Option String) (login password : String)
    (ssl_verify : Bool) (files : List String) (s : State) :
    Grows (fun e => e.tag ∈ [Tag.plain Kind.attach_file_to_case]) s
      (attach_files E url login password ssl_verify files s).2 :=
  (attach_files_grows E url login password ssl_verify files s).mono (fun e he => by
    cases e <;> simp_all [Event.kind, Event.tag])

/-- Before the pre-flight checks a run has credential prompts, the question about a
problem already reported, the microreport submission, and in attach-only mode the
attach requests. -/
theorem stage_mode_tags (E : Env) (fuel : Nat) (L : Locals) (s : State) :
    Grows (fun e => e.tag ∈ [Tag.plain Kind.attach_file_to_case,
        Tag.prompt Prompt.already_reported, Tag.post ureport_action.submit,
        Tag.plain Kind.ask, Tag.plain Kind.ask_password, Tag.plain Kind.ureport_save]) s
      (stage_mode E fuel L s).state ∧
    (E.opt_t = true →
      Grows (fun e => e.tag ∈ [Tag.plain Kind.attach_file_to_case]) s
        (stage_mode E fuel L s).state) ∧
    (E.opt_t = false →
      Grows (fun e => e.tag ∈ [Tag.prompt Prompt.already_reported,
        Tag.post ureport_action.submit, Tag.plain Kind.ask, Tag.plain Kind.ask_password,
        Tag.plain Kind.ureport_save]) s (stage_mode E fuel L s).state) := by
  have hT : E.opt_t = true →
      Grows (fun e => e.tag ∈ [Tag.plain Kind.attach_file_to_case]) s
        (stage_mode E fuel L s).state := by
    intro ht
    unfold stage_mode
    simp only [ht, if_true]
    have hs := resolve_target_url_state E L.url s
    generalize resolve_target_url E L.url s = r at hs
    rcases r with ⟨url, s1⟩ | ⟨o, s1⟩
    · simp only [Res.state_ok] at hs
      subst hs
      simp only
      split
      · exact attach_files_tags E url L.login L.password L.ssl_verify E.argv s1
      · exact Grows.refl _ _
    · simp only [Res.state_halt] at hs
      subst hs
      exact Grows.refl _ _
  have hF : E.opt_t = false →
      Grows (fun e => e.tag ∈ [Tag.prompt Prompt.already_reported,
        Tag.post ureport_action.submit, Tag.plain Kind.ask, Tag.plain Kind.ask_password,
        Tag.plain Kind.ureport_save]) s (stage_mode E fuel L s).state := by
    intro ht
    unfold stage_mode
    simp only [ht, Bool.false_eq_true, if_false]
    exact stage_new_case_start_tags E fuel L s
  refine ⟨?_, hT, hF⟩
  cases ht : E.opt_t with
  | true => exact (hT ht).tags (by decide)
  | false => exact (hF ht).tags (by decide)

theorem cleanup_tags (E : Env) (tempfile tmpdir_name : String) (errmsg : Option String)
    (s : State) :
    Grows (fun e => e.tag ∈ [Tag.plain Kind.unlink, Tag.plain Kind.rmdir]) s
      (cleanup E tempfile tmpdir_name errmsg s).2 :=
  (cleanup_grows E tempfile tmpdir_name errmsg s).mono (fun e he => by
    cases e <;> simp_all [Event.kind, Event.tag])

theorem confirm_or_exit_tags (E : Env) (q : Prompt) (s : State) :
    Grows (fun e => e.tag ∈ [Tag.prompt q]) s (confirm_or_exit E q s).state := by
  unfold confirm_or_exit
  split <;> exact Grows.emit _ _ _ (by simp [Event.tag])

theorem stage_preflight_eq (E : Env) (pd : problem_data) (s : State) :
    stage_preflight E pd s =
      match stage_count_check E pd s with
      | .halt o s1 => .halt o s1
      | .ok _ s1 => stage_vendor_package_check E pd s1 := by
  unfold stage_preflight stage_count_check stage_vendor_package_check
  generalize (if pd.count = some "1" ∧ pd.reproducible ≤ E.PROBLEM_REPRODUCIBLE_UNKNOWN
    then confirm_or_exit E Prompt.count_once s else Res.ok () s) = r
  rcases r with ⟨_, s1⟩ | ⟨o, s1⟩ <;> rfl

theorem stage_prepare_eq (E : Env) (s : State) :
    stage_prepare E s =
      match E.create_problem_data_for_reporting with
      | none => .halt (.die E.xfunc_error_retval none) s
      | some pd =>
        match E.mkdtemp with
        | none =>
          .halt (.die E.xfunc_error_retval
            (some ("Can't create a temporary directory in " ++ E.LARGE_DATA_TMP_DIR))) s
        | some tmpdir_name =>
          match stage_preflight E pd (s.emit (Event.mkdtemp tmpdir_name)) with
          | .halt o s2 => .halt o s2
          | .ok _ s2 => stage_archive E pd tmpdir_name s2 := by
  unfold stage_prepare stage_archive
  cases E.create_problem_data_for_reporting with
  | none => rfl
  | some pd =>
    cases E.mkdtemp with
    | none => rfl
    | some tmpdir_name =>
      simp only

theorem stage_count_check_tags (E : Env) (pd : problem_data) (s : State) :
    Grows (fun e => e.tag ∈ [Tag.prompt Prompt.count_once]) s (stage_count_check E pd s).state := by
  unfold stage_count_check
  split
  · exact confirm_or_exit_tags E _ s
  · exact Grows.refl _ _

theorem stage_vendor_package_check_tags (E : Env) (pd : problem_data) (s : State) :
    Grows (fun e => e.tag ∈ [Tag.prompt Prompt.vendor, Tag.prompt Prompt.not_packaged]) s
      (stage_vendor_package_check E pd s).state := by
  unfold stage_vendor_package_check
  have h : ∀ (c : Prop) [Decidable c] (q : Prompt) (s : State),
      q = Prompt.vendor ∨ q = Prompt.not_packaged →
      Grows (fun e => e.tag ∈ [Tag.prompt Prompt.vendor, Tag.prompt Prompt.not_packaged]) s
        (if c then confirm_or_exit E q s else Res.ok () s).state := by
    intro c _ q s hq
    split
    · exact (confirm_or_exit_tags E q s).tags (by
        rcases hq with rfl | rfl <;> decide)
    · exact Grows.refl _ _
  have g2 := h (pd.package.isSome ∧ pd.vendor.isSome ∧ pd.vendor ≠ some "Red Hat, Inc.")
    Prompt.vendor s (Or.inl rfl)
  generalize (if pd.package.isSome ∧ pd.vendor.isSome ∧ pd.vendor ≠ some "Red Hat, Inc."
    then confirm_or_exit E Prompt.vendor s else Res.ok () s) = r2 at g2
  rcases r2 with ⟨_, s2⟩ | ⟨o, s2⟩
  · simp only [Res.state_ok] at g2 ⊢
    exact g2.trans (h _ Prompt.not_packaged s2 (Or.inr rfl))
  · exact g2

theorem stage_archive_tags (E : Env) (pd : problem_data) (tmpdir_name : String) (s : State) :
    Grows (fun e => e.tag ∈ [Tag.plain Kind.create_tarball, Tag.plain Kind.unlink,
        Tag.plain Kind.rmdir]) s (stage_archive E pd tmpdir_name s).state := by
  unfold stage_archive
  simp only
  have g2 := stage_format_state E s
  generalize stage_format E s = r2 at g2
  rcases r2 with ⟨⟨summary, dsc⟩, s3⟩ | ⟨o, s3⟩
  · simp only [Res.state_ok] at g2
    subst g2
    simp only
    have g3 : Grows (fun e => e.tag ∈ [Tag.plain Kind.create_tarball, Tag.plain Kind.unlink,
        Tag.plain Kind.rmdir]) s3
        (s3.emit (Event.create_tarball
          (E.concat_path_basename tmpdir_name E.dump_dir_name ++ ".tar.gz"))) :=
      Grows.emit _ _ _ (by simp [Event.tag])
    split
    · exact Grows.refl _ _
    · split
      · exact g3.trans ((cleanup_tags E _ _ _ _).tags (by decide))
      · split
        · exact g3
        · exact g3
  · simp only [Res.state_halt] at g2
    subst g2
    exact Grows.refl _ _

theorem stage_link_tags (E : Env) (fuel : Nat) (L : Locals) (case_url : Option String)
    (s : State) :
    Grows (fun e => e.tag ∈ [Tag.post ureport_action.attach, Tag.plain Kind.ask,
        Tag.plain Kind.ask_password]) s (stage_link E fuel L case_url s).state := by
  unfold stage_link
  split
  · exact Grows.refl _ _
  · rename_i bthash _
    have g1 := attach_to_ureport_tags E fuel L.login L.password bthash "RHCID" case_url s
    generalize attach_to_ureport E fuel L.login L.password bthash "RHCID" case_url s = r1 at g1
    rcases r1 with ⟨⟨u1, p1⟩, s1⟩ | ⟨o, s1⟩
    · simp only [Res.state_ok] at g1 ⊢
      split
      · exact g1
      · rename_i email _
        have g2 := attach_to_ureport_tags E fuel u1 p1 bthash "email" (some email) s1
        generalize attach_to_ureport E fuel u1 p1 bthash "email" (some email) s1 = r2 at g2
        rcases r2 with ⟨⟨u2, p2⟩, s2⟩ | ⟨o, s2⟩ <;> exact g1.trans g2
    · exact g1

theorem stage_deliver_tags (E : Env) (fuel : Nat) (L : Locals) (W : Workspace) (s : State) :
    Grows (fun e => e.tag ∈ [Tag.plain Kind.upload_file, Tag.plain Kind.add_comment_to_case,
        Tag.plain Kind.attach_file_to_case, Tag.plain Kind.ask, Tag.plain Kind.ask_password]) s
      (stage_deliver E fuel L W s).state :=
  (stage_deliver_grows E fuel L W s).mono (fun e he => by
    cases e <;> simp_all [Event.kind, Event.tag])

theorem stage_tail_tags (E : Env) (fuel : Nat) (W : Workspace) (K : List Tag)
    (r : Res (Option Locals × Option String))
    (hK : ∀ t ∈ [Tag.plain Kind.upload_file, Tag.plain Kind.add_comment_to_case,
      Tag.plain Kind.attach_file_to_case, Tag.plain Kind.ask, Tag.plain Kind.ask_password,
      Tag.plain Kind.unlink, Tag.plain Kind.rmdir], t ∈ K) :
    Grows (fun e => e.tag ∈ K) r.state (stage_tail E fuel W r).2 := by
  rcases r with ⟨⟨_ | L1, errmsg⟩, s2⟩ | ⟨o, s2⟩
  · exact (cleanup_tags E _ _ _ s2).tags (fun t ht => hK t (by revert t; decide))
  · simp only [Res.state_ok, stage_tail]
    have g := (stage_deliver_tags E fuel L1 W s2).tags (K := K)
      (fun t ht => hK t (by revert t; decide))
    generalize stage_deliver E fuel L1 W s2 = r3 at g
    rcases r3 with ⟨L2, s3⟩ | ⟨o, s3⟩
    · exact g.trans ((cleanup_tags E _ _ _ s3).tags (fun t ht => hK t (by revert t; decide)))
    · exact g
  · exact Grows.refl _ _

theorem stage_hints_tags (E : Env) (fuel : Nat) (L : Locals) (W : Workspace) (s : State) :
    Grows (fun e => e.tag ∈ [Tag.plain Kind.get_rhts_hints, Tag.plain Kind.ask,
        Tag.plain Kind.ask_password, Tag.prompt Prompt.hints]) s
      (stage_hints E fuel L W s).state := by
  unfold stage_hints
  split
  · exact check_for_hints_tags _ _ _ _ _ _ _ _
  · exact Grows.refl _ _

/-- The new case stage: either the case was created, and the rest of the run is
`stage_after_creation` after a stretch of creation requests and credential prompts;
or it was not, and the rest of the run has no reported-to entry and no post that
links the microreport. -/
theorem stage_case_creation (E : Env) (fuel : Nat) (L : Locals) (W : Workspace) (s : State) :
    (∀ L1 W1 r s2, creation_result E fuel L W s = some (L1, W1, r, s2) →
      W1 = W ∧ r.error = 0 ∧
      stage_tail E fuel W (stage_case E fuel L W s) = stage_after_creation E fuel L1 W r s2 ∧
      Grows (fun e => e.tag ∈ [Tag.plain Kind.create_new_case, Tag.plain Kind.ask,
        Tag.plain Kind.ask_password]) s s2) ∧
    (creation_result E fuel L W s = none →
      Grows (fun e => e.tag ∈ [Tag.plain Kind.create_new_case, Tag.plain Kind.ask,
        Tag.plain Kind.ask_password, Tag.plain Kind.unlink, Tag.plain Kind.rmdir]) s
        (stage_tail E fuel W (stage_case E fuel L W s)).2) := by
  unfold creation_result stage_case
  cases E.product with
  | none =>
    exact ⟨fun _ _ _ _ h => Option.noConfusion h, fun _ => Grows.refl _ _⟩
  | some product =>
    simp only
    have g := loop_tags E (fun l p => Event.create_new_case L.url l p L.ssl_verify product
      E.version W.summary W.dsc W.package) (Tag.plain Kind.create_new_case) (fun _ _ => rfl)
      fuel L.login L.password s
    generalize INVALID_CREDENTIALS_LOOP E (fun l p => Event.create_new_case L.url l p
      L.ssl_verify product E.version W.summary W.dsc W.package) fuel L.login L.password s
      = r at g
    rcases r with ⟨⟨l2, p2, result⟩, s2⟩ | ⟨o, s2⟩
    · simp only [Res.state_ok] at g ⊢
      by_cases he : result.error = 0
      · simp only [he, if_true, ne_eq, not_true_eq_false, if_false]
        refine ⟨?_, fun h => Option.noConfusion h⟩
        intro L1 W1 r s2' h
        simp only [Option.some.injEq, Prod.mk.injEq] at h
        obtain ⟨rfl, rfl, rfl, rfl⟩ := h
        exact ⟨rfl, he, rfl, g⟩
      · simp only [he, if_false, ne_eq, not_false_eq_true, if_true]
        refine ⟨fun _ _ _ _ h => Option.noConfusion h, fun _ => ?_⟩
        cases case_errmsg result.msg with
        | none => exact g.tags (by decide)
        | some errmsg =>
          exact (g.tags (by decide)).trans ((cleanup_tags E _ _ _ s2).tags (by decide))
    · exact ⟨fun _ _ _ _ h => Option.noConfusion h, fun _ => g.tags (by decide)⟩

theorem stage_config_tags (E : Env) (s : State) :
    Grows (fun e => e.tag ∈ [Tag.plain Kind.ask, Tag.plain Kind.ask_password]) s
      (stage_config E s).state :=
  prompts_tags (stage_config_grows E s).1

theorem stage_preflight_tags (E : Env) (pd : problem_data) (s : State) :
    Grows (fun e => e.tag ∈ [Tag.prompt Prompt.count_once, Tag.prompt Prompt.vendor,
        Tag.prompt Prompt.not_packaged]) s (stage_preflight E pd s).state := by
  rw [stage_preflight_eq]
  have g1 := stage_count_check_tags E pd s
  generalize stage_count_check E pd s = r at g1
  rcases r with ⟨_, s1⟩ | ⟨o, s1⟩
  · simp only [Res.state_ok] at g1 ⊢
    exact (g1.tags (by decide)).trans
      ((stage_vendor_package_check_tags E pd s1).tags (by decide))
  · exact g1.tags (by decide)

theorem stage_prepare_tags (E : Env) (s : State) :
    Grows (fun e => e.tag ∈ [Tag.plain Kind.mkdtemp, Tag.prompt Prompt.count_once,
        Tag.prompt Prompt.vendor, Tag.prompt Prompt.not_packaged,
        Tag.plain Kind.create_tarball, Tag.plain Kind.unlink, Tag.plain Kind.rmdir]) s
      (stage_prepare E s).state := by
  rw [stage_prepare_eq]
  cases E.create_problem_data_for_reporting with
  | none => exact Grows.refl _ _
  | some pd =>
    cases E.mkdtemp with
    | none => exact Grows.refl _ _
    | some t =>
      simp only
      have g0 : Grows (fun e => e.tag ∈ [Tag.plain Kind.mkdtemp, Tag.prompt Prompt.count_once,
          Tag.prompt Prompt.vendor, Tag.prompt Prompt.not_packaged,
          Tag.plain Kind.create_tarball, Tag.plain Kind.unlink, Tag.plain Kind.rmdir]) s
          (s.emit (Event.mkdtemp t)) := Grows.emit _ _ _ (by simp [Event.tag])
      have g1 := stage_preflight_tags E pd (s.emit (Event.mkdtemp t))
      generalize stage_preflight E pd (s.emit (Event.mkdtemp t)) = r at g1
      rcases r with ⟨_, s1⟩ | ⟨o, s1⟩
      · simp only [Res.state_ok] at g1 ⊢
        exact (g0.trans (g1.tags (by decide))).trans
          ((stage_archive_tags E pd t s1).tags (by decide))
      · exact g0.trans (g1.tags (by decide))

theorem stage_record_tags (E : Env) (r : rhts_result) (s : State) :
    Grows (fun e => e.tag ∈ [Tag.plain Kind.add_reported_to_entry]) s (stage_record E r s) := by
  unfold stage_record
  split
  · exact Grows.emit _ _ _ (by simp [Event.tag])
  · exact Grows.refl _ _

/-- After the record of a created case the run links the microreport, delivers the
archive and cleans up: no request creates a case and no entry is recorded. -/
theorem stage_after_record_tags (E : Env) (fuel : Nat) (L : Locals) (W : Workspace)
    (url : Option String) (s : State) :
    Grows (fun e => e.tag ∈ [Tag.post ureport_action.attach, Tag.plain Kind.ask,
        Tag.plain Kind.ask_password, Tag.plain Kind.upload_file,
        Tag.plain Kind.add_comment_to_case, Tag.plain Kind.attach_file_to_case,
        Tag.plain Kind.unlink, Tag.plain Kind.rmdir]) s
      (stage_tail E fuel W
        (match stage_link E fuel L url s with
         | .halt o s4 => .halt o s4
         | .ok L1 s4 => .ok (some { L1 with url := url }, none) s4)).2 := by
  have g2 := stage_link_tags E fuel L url s
  generalize stage_link E fuel L url s = r2 at g2
  rcases r2 with ⟨L1, s4⟩ | ⟨o, s4⟩
  · simp only [Res.state_ok] at g2 ⊢
    have g3 := stage_tail_tags E fuel W [Tag.post ureport_action.attach, Tag.plain Kind.ask,
        Tag.plain Kind.ask_password, Tag.plain Kind.upload_file,
        Tag.plain Kind.add_comment_to_case, Tag.plain Kind.attach_file_to_case,
        Tag.plain Kind.unlink, Tag.plain Kind.rmdir]
      (.ok (some { L1 with url := url }, none) s4) (by decide)
    simp only [Res.state_ok] at g3
    exact (g2.tags (by decide)).trans g3
  · exact g2.tags (by decide)

theorem stage_after_creation_tags (E : Env) (fuel : Nat) (L : Locals) (W : Workspace)
    (r : rhts_result) (s : State) :
    Grows (fun e => e.tag ∈ [Tag.plain Kind.add_reported_to_entry,
        Tag.post ureport_action.attach, Tag.plain Kind.ask,
        Tag.plain Kind.ask_password, Tag.plain Kind.upload_file,
        Tag.plain Kind.add_comment_to_case, Tag.plain Kind.attach_file_to_case,
        Tag.plain Kind.unlink, Tag.plain Kind.rmdir]) s
      (stage_after_creation E fuel L W r s).2 := by
  unfold stage_after_creation
  exact ((stage_record_tags E r s).tags (by decide)).trans
    ((stage_after_record_tags E fuel L W r.url (stage_record E r s)).tags (by decide))

/-- The run up to the built archive, by tag. -/
theorem main_to_archive_tags (E : Env) (fuel : Nat) :
    (∀ L W s, reaches_archive E fuel = some (L, W, s) →
      main E fuel = stage_finish E fuel L W s ∧
      Grows (fun e => e.tag ∈ [Tag.plain Kind.ask, Tag.plain Kind.ask_password,
        Tag.plain Kind.attach_file_to_case, Tag.prompt Prompt.already_reported,
        Tag.post ureport_action.submit, Tag.plain Kind.ureport_save, Tag.plain Kind.mkdtemp,
        Tag.prompt Prompt.count_once, Tag.prompt Prompt.vendor, Tag.prompt Prompt.not_packaged,
        Tag.plain Kind.create_tarball, Tag.plain Kind.unlink, Tag.plain Kind.rmdir])
        State.init s) ∧
    (reaches_archive E fuel = none →
      Grows (fun e => e.tag ∈ [Tag.plain Kind.ask, Tag.plain Kind.ask_password,
        Tag.plain Kind.attach_file_to_case, Tag.prompt Prompt.already_reported,
        Tag.post ureport_action.submit, Tag.plain Kind.ureport_save, Tag.plain Kind.mkdtemp,
        Tag.prompt Prompt.count_once, Tag.prompt Prompt.vendor, Tag.prompt Prompt.not_packaged,
        Tag.plain Kind.create_tarball, Tag.plain Kind.unlink, Tag.plain Kind.rmdir])
        State.init (main E fuel).2) := by
  unfold main reaches_archive stage_report
  have g0 := (stage_config_tags E State.init).tags
    (K := [Tag.plain Kind.ask, Tag.plain Kind.ask_password,
        Tag.plain Kind.attach_file_to_case, Tag.prompt Prompt.already_reported,
        Tag.post ureport_action.submit, Tag.plain Kind.ureport_save, Tag.plain Kind.mkdtemp,
        Tag.prompt Prompt.count_once, Tag.prompt Prompt.vendor, Tag.prompt Prompt.not_packaged,
        Tag.plain Kind.create_tarball, Tag.plain Kind.unlink, Tag.plain Kind.rmdir])
    (by decide)
  generalize stage_config E State.init = r0 at g0
  rcases r0 with ⟨L0, s0⟩ | ⟨o, s0⟩
  · simp only [Res.state_ok] at g0 ⊢
    have g1 := (stage_mode_tags E fuel L0 s0).1.tags
      (K := [Tag.plain Kind.ask, Tag.plain Kind.ask_password,
        Tag.plain Kind.attach_file_to_case, Tag.prompt Prompt.already_reported,
        Tag.post ureport_action.submit, Tag.plain Kind.ureport_save, Tag.plain Kind.mkdtemp,
        Tag.prompt Prompt.count_once, Tag.prompt Prompt.vendor, Tag.prompt Prompt.not_packaged,
        Tag.plain Kind.create_tarball, Tag.plain Kind.unlink, Tag.plain Kind.rmdir])
      (by decide)
    generalize stage_mode E fuel L0 s0 = r1 at g1
    rcases r1 with ⟨L1, s1⟩ | ⟨o, s1⟩
    · simp only [Res.state_ok] at g1 ⊢
      have g2 := (stage_prepare_tags E s1).tags
        (K := [Tag.plain Kind.ask, Tag.plain Kind.ask_password,
          Tag.plain Kind.attach_file_to_case, Tag.prompt Prompt.already_reported,
          Tag.post ureport_action.submit, Tag.plain Kind.ureport_save, Tag.plain Kind.mkdtemp,
          Tag.prompt Prompt.count_once, Tag.prompt Prompt.vendor, Tag.prompt Prompt.not_packaged,
          Tag.plain Kind.create_tarball, Tag.plain Kind.unlink, Tag.plain Kind.rmdir])
        (by decide)
      generalize stage_prepare E s1 = r2 at g2
      rcases r2 with ⟨W, s2⟩ | ⟨o, s2⟩
      · simp only [Res.state_ok] at g2 ⊢
        refine ⟨?_, fun h => Option.noConfusion h⟩
        intro L W' s h
        simp only [Option.some.injEq, Prod.mk.injEq] at h
        obtain ⟨rfl, rfl, rfl⟩ := h
        exact ⟨rfl, (g0.trans g1).trans g2⟩
      · exact ⟨fun L W s h => Option.noConfusion h, fun _ => (g0.trans g1).trans g2⟩
    · exact ⟨fun L W s h => Option.noConfusion h, fun _ => g0.trans g1⟩
  · exact ⟨fun L W s h => Option.noConfusion h, fun _ => g0⟩

/-- The run and the creation of the case: either the case was created, and the run is
what follows the creation, entered after events that record nothing and link nothing;
or no case was created, and no event of the run records an entry or links the
microreport. -/
theorem main_case_created (E : Env) (fuel : Nat) :
    (∀ L W r s, case_created E fuel = some (L, W, r, s) →
      E.opt_t = false ∧ r.error = 0 ∧
      main E fuel = stage_after_creation E fuel L W r s ∧
      Grows (fun e => e.tag ∈ [Tag.plain Kind.ask, Tag.plain Kind.ask_password,
        Tag.plain Kind.attach_file_to_case, Tag.prompt Prompt.already_reported,
        Tag.post ureport_action.submit, Tag.plain Kind.ureport_save, Tag.plain Kind.mkdtemp,
        Tag.prompt Prompt.count_once, Tag.prompt Prompt.vendor, Tag.prompt Prompt.not_packaged,
        Tag.plain Kind.create_tarball, Tag.plain Kind.unlink, Tag.plain Kind.rmdir,
        Tag.plain Kind.get_rhts_hints, Tag.prompt Prompt.hints,
        Tag.plain Kind.create_new_case]) State.init s) ∧
    (case_created E fuel = none →
      Grows (fun e => e.tag ∈ [Tag.plain Kind.ask, Tag.plain Kind.ask_password,
        Tag.plain Kind.attach_file_to_case, Tag.prompt Prompt.already_reported,
        Tag.post ureport_action.submit, Tag.plain Kind.ureport_save, Tag.plain Kind.mkdtemp,
        Tag.prompt Prompt.count_once, Tag.prompt Prompt.vendor, Tag.prompt Prompt.not_packaged,
        Tag.plain Kind.create_tarball, Tag.plain Kind.unlink, Tag.plain Kind.rmdir,
        Tag.plain Kind.get_rhts_hints, Tag.prompt Prompt.hints,
        Tag.plain Kind.create_new_case, Tag.plain Kind.upload_file,
        Tag.plain Kind.add_comment_to_case]) State.init (main E fuel).2) := by
  obtain ⟨h1, h2⟩ := main_to_archive_tags E fuel
  unfold case_created reaches_case
  cases hra : reaches_archive E fuel with
  | none =>
    exact ⟨fun _ _ _ _ h => Option.noConfusion h, fun _ => (h2 hra).tags (by decide)⟩
  | some x =>
    obtain ⟨L, W, s⟩ := x
    obtain ⟨hm, g⟩ := h1 L W s hra
    rw [hm]
    unfold stage_finish stage_create
    cases ht : E.opt_t with
    | true =>
      simp only [if_true, Bool.not_true, Bool.false_eq_true, if_false]
      refine ⟨fun _ _ _ _ h => Option.noConfusion h, fun _ => ?_⟩
      have g3 := stage_tail_tags E fuel W [Tag.plain Kind.ask, Tag.plain Kind.ask_password,
        Tag.plain Kind.attach_file_to_case, Tag.prompt Prompt.already_reported,
        Tag.post ureport_action.submit, Tag.plain Kind.ureport_save, Tag.plain Kind.mkdtemp,
        Tag.prompt Prompt.count_once, Tag.prompt Prompt.vendor, Tag.prompt Prompt.not_packaged,
        Tag.plain Kind.create_tarball, Tag.plain Kind.unlink, Tag.plain Kind.rmdir,
        Tag.plain Kind.get_rhts_hints, Tag.prompt Prompt.hints,
        Tag.plain Kind.create_new_case, Tag.plain Kind.upload_file,
        Tag.plain Kind.add_comment_to_case] (.ok (some L, none) s) (by decide)
      simp only [Res.state_ok] at g3
      exact (g.tags (by decide)).trans g3
    | false =>
      simp only [Bool.false_eq_true, if_false, Bool.not_false, if_true]
      have gh := stage_hints_tags E fuel L W s
      generalize stage_hints E fuel L W s = rh at gh
      rcases rh with ⟨⟨b, l1, p1⟩, s1⟩ | ⟨o, s1⟩
      · simp only [Res.state_ok] at gh
        cases b with
        | true =>
          refine ⟨fun _ _ _ _ h => Option.noConfusion h, fun _ => ?_⟩
          exact ((g.tags (by decide)).trans (gh.tags (by decide))).trans
            ((cleanup_tags E _ _ _ s1).tags (by decide))
        | false =>
          simp only
          obtain ⟨c1, c2⟩ := stage_case_creation E fuel { L with login := l1, password := p1 } W s1
          cases hc : creation_result E fuel { L with login := l1, password := p1 } W s1 with
          | none =>
            refine ⟨fun _ _ _ _ h => Option.noConfusion h, fun _ => ?_⟩
            exact ((g.tags (by decide)).trans (gh.tags (by decide))).trans
              ((c2 hc).tags (by decide))
          | some y =>
            obtain ⟨L1, W1, r, s2⟩ := y
            obtain ⟨hw, he, hst, gc⟩ := c1 L1 W1 r s2 hc
            subst hw
            refine ⟨?_, fun h => Option.noConfusion h⟩
            intro L' W' r' s' h
            simp only [Option.some.injEq, Prod.mk.injEq] at h
            obtain ⟨rfl, rfl, rfl, rfl⟩ := h
            exact ⟨trivial, he, hst, ((g.tags (by decide)).trans (gh.tags (by decide))).trans
              (gc.tags (by decide))⟩
      · exact ⟨fun _ _ _ _ h => Option.noConfusion h, fun _ =>
          (g.tags (by decide)).trans (gh.tags (by decide))⟩

/-- An event of a kind other than a yes/no prompt and a microreport post has the
plain tag of that kind. -/
theorem Event.tag_of_kind (e : Event) (k : Kind) (h1 : k ≠ Kind.ask_yes_no)
    (h2 : k ≠ Kind.ureport_do_post) : e.kind = k ↔ e.tag = Tag.plain k := by
  cases e <;> cases k <;> simp_all [Event.kind, Event.tag]

/-- A stretch of events whose tags leave out a kind adds no event of that kind. -/
theorem Grows.filter_kind {K : List Tag} {s1 s2 : State}
    (h : Grows (fun e => e.tag ∈ K) s1 s2) (k : Kind) (h1 : k ≠ Kind.ask_yes_no)
    (h2 : k ≠ Kind.ureport_do_post) (hk : Tag.plain k ∉ K) :
    s2.trace.filter (fun e => e.kind = k) = s1.trace.filter (fun e => e.kind = k) := by
  obtain ⟨evs, ht, hp⟩ := h
  rw [ht, List.filter_append]
  have : evs.filter (fun e => e.kind = k) = [] := by
    rw [List.filter_eq_nil_iff]
    intro e he
    have := hp e he
    simp only [decide_eq_true_eq]
    intro hek
    exact hk (((Event.tag_of_kind e k h1 h2).1 hek) ▸ this)
  rw [this, List.append_nil]

theorem filter_kind_init (k : Kind) :
    State.init.trace.filter (fun e => e.kind = k) = [] := rfl

/-- The posting loop: the first new event is the post with the credentials given, and
the later ones are prompts and further posts of the same document. -/
theorem ureport_loop_trace (E : Env) (json : ureport_json) (action : ureport_action)
    (fuel : Nat) (u p : String) (s : State) :
    ∃ evs, (ureport_do_post_credentials E json action fuel u p s).state.trace
        = s.trace ++ Event.ureport_do_post json u p action :: evs ∧
      ∀ e ∈ evs, e = Event.ask ∨ e = Event.ask_password ∨
        ∃ u1 p1, e = Event.ureport_do_post json u1 p1 action := by
  induction fuel generalizing u p s with
  | zero =>
    rw [ureport_step]
    split
    · exact ⟨[], by simp [Res.state_ok], by simp⟩
    · split
      · exact ⟨[], by simp [Res.state_ok], by simp⟩
      · rcases ask_rh_credentials_cases E
          { s with trace := s.trace ++ [Event.ureport_do_post json u p action],
                   ncall := s.ncall + 1 }
          with ⟨o, h⟩ | ⟨o, h⟩ | ⟨l1, p1, h⟩ <;> rw [h] <;>
          simp only [Res.state_ok, Res.state_halt]
        · exact ⟨[Event.ask], by simp, by simp⟩
        · exact ⟨[Event.ask, Event.ask_password], by simp, by simp⟩
        · exact ⟨[Event.ask, Event.ask_password], by simp, by simp⟩
  | succ n ih =>
    rw [ureport_step]
    split
    · exact ⟨[], by simp [Res.state_ok], by simp⟩
    · split
      · exact ⟨[], by simp [Res.state_ok], by simp⟩
      · rcases ask_rh_credentials_cases E
          { s with trace := s.trace ++ [Event.ureport_do_post json u p action],
                   ncall := s.ncall + 1 }
          with ⟨o, h⟩ | ⟨o, h⟩ | ⟨l1, p1, h⟩ <;> rw [h] <;>
          simp only [Res.state_ok, Res.state_halt]
        · exact ⟨[Event.ask], by simp, by simp⟩
        · exact ⟨[Event.ask, Event.ask_password], by simp, by simp⟩
        · obtain ⟨evs, ht, hp⟩ := ih l1 p1
            { trace := s.trace ++ [Event.ureport_do_post json u p action] ++
                [Event.ask, Event.ask_password],
              ncall := s.ncall + 1, nask := s.nask + 1, npw := s.npw + 1 }
          refine ⟨Event.ask :: Event.ask_password ::
            Event.ureport_do_post json l1 p1 action :: evs, ?_, ?_⟩
          · rw [ht]; simp
          · intro e he
            simp only [List.mem_cons] at he
            rcases he with rfl | rfl | rfl | he
            · exact Or.inl rfl
            · exact Or.inr (Or.inl rfl)
            · exact Or.inr (Or.inr ⟨l1, p1, rfl⟩)
            · exact hp e he

theorem attach_to_ureport_trace (E : Env) (fuel : Nat) (u p bthash attach_id : String)
    (data : Option String) (s : State) :
    ∃ evs, (attach_to_ureport E fuel u p bthash attach_id data s).state.trace
        = s.trace ++ Event.ureport_do_post (.attachment bthash attach_id data) u p
            ureport_action.attach :: evs ∧
      ∀ e ∈ evs, link_event (.attachment bthash attach_id data) e := by
  unfold attach_to_ureport
  have g := ureport_loop_trace E (.attachment bthash attach_id data) .attach fuel u p s
  generalize ureport_do_post_credentials E (.attachment bthash attach_id data) .attach fuel u p s
    = r at g
  rcases r with ⟨⟨_, u1, p1⟩, s1⟩ | ⟨o, s1⟩ <;> exact g

/-- The events of the linking step, when there is a bthash: the first is the post of
the "RHCID" attachment with the URL of the case and the credentials the step starts
with; prompts and further posts of it follow; the events of the "email" attachment
come after them, none without a configured contact e-mail, and when one is
configured and the posting of "RHCID" returns, the first of them is the post of the
e-mail with the credentials the posting of "RHCID" ended with. -/
theorem stage_link_posts (E : Env) (fuel : Nat) (L : Locals) (url : Option String)
    (s : State) (b : String) (hb : L.bthash = some b) :
    ∃ ev1 ev2, (stage_link E fuel L url s).state.trace =
        s.trace ++ (Event.ureport_do_post (.attachment b "RHCID" url) L.login L.password
          ureport_action.attach :: ev1) ++ ev2 ∧
      (∀ e ∈ ev1, link_event (.attachment b "RHCID" url) e) ∧
      (E.ureport_option_value "ContactEmail" = none → ev2 = []) ∧
      (∀ email, E.ureport_option_value "ContactEmail" = some email →
        (∀ e ∈ ev2, link_event (.attachment b "email" (some email)) e) ∧
        (∀ u1 p1 s1, attach_to_ureport E fuel L.login L.password b "RHCID" url s
            = .ok (u1, p1) s1 →
          ∃ ev3, ev2 = Event.ureport_do_post (.attachment b "email" (some email)) u1 p1
            ureport_action.attach :: ev3)) := by
  unfold stage_link
  rw [hb]
  simp only
  obtain ⟨ev1, ht1, hp1⟩ := attach_to_ureport_trace E fuel L.login L.password b "RHCID" url s
  generalize attach_to_ureport E fuel L.login L.password b "RHCID" url s = r1 at ht1
  rcases r1 with ⟨⟨u1, p1⟩, s1⟩ | ⟨o, s1⟩
  · simp only [Res.state_ok] at ht1 ⊢
    cases he : E.ureport_option_value "ContactEmail" with
    | none =>
      refine ⟨ev1, [], by simp [ht1, Res.state_ok], hp1, fun _ => rfl,
        fun email h => Option.noConfusion h⟩
    | some email =>
      simp only
      obtain ⟨ev3, ht2, hp2⟩ := attach_to_ureport_trace E fuel u1 p1 b "email" (some email) s1
      generalize attach_to_ureport E fuel u1 p1 b "email" (some email) s1 = r2 at ht2
      have key : r2.state.trace = s.trace ++ (Event.ureport_do_post (.attachment b "RHCID" url)
          L.login L.password ureport_action.attach :: ev1) ++
          (Event.ureport_do_post (.attachment b "email" (some email)) u1 p1
            ureport_action.attach :: ev3) := by
        rw [ht2, ht1]
      refine ⟨ev1, Event.ureport_do_post (.attachment b "email" (some email)) u1 p1
        ureport_action.attach :: ev3, ?_, hp1, fun h => Option.noConfusion h, ?_⟩
      · rcases r2 with ⟨⟨u2, p2⟩, s2⟩ | ⟨o, s2⟩ <;> exact key
      · intro email' h
        simp only [Option.some.injEq] at h
        subst h
        refine ⟨?_, ?_⟩
        · intro e he
          rcases List.mem_cons.1 he with rfl | he
          · exact Or.inr (Or.inr ⟨u1, p1, rfl⟩)
          · exact hp2 e he
        · intro u1' p1' s1' h
          simp only [Res.ok.injEq, Prod.mk.injEq] at h
          obtain ⟨⟨rfl, rfl⟩, _⟩ := h
          exact ⟨ev3, rfl⟩
  · simp only [Res.state_halt] at ht1 ⊢
    refine ⟨ev1, [], by simp [ht1], hp1, fun _ => rfl, ?_⟩
    intro email _
    exact ⟨by simp, fun u1 p1 s1' h => Res.noConfusion h⟩

/-- A credential loop that returns has just made the request with the credentials it
returns. -/
theorem loop_ok_last (E : Env) (fncall : String → String → Event) (fuel : Nat)
    (l p : String) (s : State) (l2 p2 : String) (result : rhts_result) (s2 : State)
    (h : INVALID_CREDENTIALS_LOOP E fncall fuel l p s = .ok (l2, p2, result) s2) :
    ∃ tr, s2.trace = tr ++ [fncall l2 p2] := by
  induction fuel generalizing l p s with
  | zero =>
    rw [loop_step] at h
    split at h
    · simp only [Res.ok.injEq, Prod.mk.injEq] at h
      obtain ⟨⟨rfl, rfl, _⟩, rfl⟩ := h
      exact ⟨s.trace, rfl⟩
    · rcases ask_rh_credentials_cases E
        { s with trace := s.trace ++ [fncall l p], ncall := s.ncall + 1 }
        with ⟨m, hc⟩ | ⟨m, hc⟩ | ⟨l1, p1, hc⟩ <;> rw [hc] at h <;>
        exact Res.noConfusion h
  | succ n ih =>
    rw [loop_step] at h
    split at h
    · simp only [Res.ok.injEq, Prod.mk.injEq] at h
      obtain ⟨⟨rfl, rfl, _⟩, rfl⟩ := h
      exact ⟨s.trace, rfl⟩
    · rcases ask_rh_credentials_cases E
        { s with trace := s.trace ++ [fncall l p], ncall := s.ncall + 1 }
        with ⟨m, hc⟩ | ⟨m, hc⟩ | ⟨l1, p1, hc⟩ <;> rw [hc] at h
      · exact Res.noConfusion h
      · exact Res.noConfusion h
      · exact ih l1 p1 _ h

/-- A created case: the last event before the record is the `create_new_case`
request with the login and the password the run goes on with. -/
theorem creation_result_last (E : Env) (fuel : Nat) (L : Locals) (W : Workspace) (s : State)
    (L1 : Locals) (W1 : Workspace) (r : rhts_result) (s2 : State)
    (h : creation_result E fuel L W s = some (L1, W1, r, s2)) :
    ∃ tr product, E.product = some product ∧
      s2.trace = tr ++ [Event.create_new_case L1.url L1.login L1.password L1.ssl_verify
        product E.version W1.summary W1.dsc W1.package] := by
  unfold creation_result at h
  cases hp : E.product with
  | none => rw [hp] at h; exact Option.noConfusion h
  | some product =>
    rw [hp] at h
    simp only at h
    have g := loop_ok_last E (fun l p => Event.create_new_case L.url l p L.ssl_verify product
      E.version W.summary W.dsc W.package) fuel L.login L.password s
    generalize INVALID_CREDENTIALS_LOOP E (fun l p => Event.create_new_case L.url l p
      L.ssl_verify product E.version W.summary W.dsc W.package) fuel L.login L.password s
      = r0 at g h
    rcases r0 with ⟨⟨l2, p2, result⟩, s3⟩ | ⟨o, s3⟩
    · simp only at h
      split at h
      · simp only [Option.some.injEq, Prod.mk.injEq] at h
        obtain ⟨rfl, rfl, rfl, rfl⟩ := h
        obtain ⟨tr, ht⟩ := g _ _ _ _ rfl
        exact ⟨tr, product, rfl, ht⟩
      · exact Option.noConfusion h
    · exact Option.noConfusion h

theorem case_created_last (E : Env) (fuel : Nat)
    (L : Locals) (W : Workspace) (r : rhts_result) (s : State)
    (h : case_created E fuel = some (L, W, r, s)) :
    ∃ tr product, E.product = some product ∧
      s.trace = tr ++ [Event.create_new_case L.url L.login L.password L.ssl_verify
        product E.version W.summary W.dsc W.package] := by
  unfold case_created at h
  cases hr : reaches_case E fuel with
  | none => rw [hr] at h; exact Option.noConfusion h
  | some x =>
    obtain ⟨L0, W0, s0⟩ := x
    rw [hr] at h
    exact creation_result_last E fuel L0 W0 s0 L W r s h

/-- What follows the creation of a case: the record, the linking step, and then
events of the delivery and the cleanup. -/
theorem stage_after_creation_trace (E : Env) (fuel : Nat) (L : Locals) (W : Workspace)
    (r : rhts_result) (s : State) :
    ∃ pre post, (stage_record E r s).trace = s.trace ++ pre ∧
      (stage_after_creation E fuel L W r s).2.trace =
        (stage_link E fuel L r.url (stage_record E r s)).state.trace ++ post ∧
      (∀ e ∈ pre, e.kind = Kind.add_reported_to_entry) ∧
      (∀ e ∈ post, e.tag ∈ [Tag.plain Kind.upload_file, Tag.plain Kind.add_comment_to_case,
        Tag.plain Kind.attach_file_to_case, Tag.plain Kind.ask, Tag.plain Kind.ask_password,
        Tag.plain Kind.unlink, Tag.plain Kind.rmdir]) := by
  obtain ⟨pre, hpre, hp⟩ := stage_record_tags E r s
  have g := stage_tail_tags E fuel W [Tag.plain Kind.upload_file,
    Tag.plain Kind.add_comment_to_case, Tag.plain Kind.attach_file_to_case,
    Tag.plain Kind.ask, Tag.plain Kind.ask_password, Tag.plain Kind.unlink,
    Tag.plain Kind.rmdir]
    (match stage_link E fuel L r.url (stage_record E r s) with
     | .halt o s4 => .halt o s4
     | .ok L1 s4 => .ok (some { L1 with url := r.url }, none) s4) (fun t ht => ht)
  have hst : (match stage_link E fuel L r.url (stage_record E r s) with
     | .halt o s4 => (Res.halt o s4 : Res (Option Locals × Option String))
     | .ok L1 s4 => .ok (some { L1 with url := r.url }, none) s4).state =
     (stage_link E fuel L r.url (stage_record E r s)).state := by
    generalize stage_link E fuel L r.url (stage_record E r s) = r2
    rcases r2 with ⟨L1, s4⟩ | ⟨o, s4⟩ <;> rfl
  rw [hst] at g
  obtain ⟨post, hpost, hq⟩ := g
  refine ⟨pre, post, hpre, hpost, ?_, hq⟩
  intro e he
  have := hp e he
  simp only [List.mem_singleton] at this
  exact (Event.tag_of_kind e _ (by decide) (by decide)).2 this

/-- A stretch of events whose tags leave out a kind adds no event of that kind. -/
theorem Grows.no_kind_of_tags {K : List Tag} {s1 s2 : State}
    (h : Grows (fun e => e.tag ∈ K) s1 s2) (k : Kind) (h1 : k ≠ Kind.ask_yes_no)
    (h2 : k ≠ Kind.ureport_do_post) (hk : Tag.plain k ∉ K) (h0 : ¬ RhtSupport.has_kind k s1.trace) :
    ¬ RhtSupport.has_kind k s2.trace := by
  rintro ⟨e, he, hek⟩
  rcases h.mem he with h' | h'
  · exact h0 ⟨e, h', hek⟩
  · exact hk (((Event.tag_of_kind e k h1 h2).1 hek) ▸ h')

/-- With a determined product the case stage makes a `create_new_case` request. -/
theorem stage_case_has_request (E : Env) (fuel : Nat) (L : Locals) (W : Workspace)
    (s : State) (hp : E.product ≠ none) :
    has_kind Kind.create_new_case (stage_case E fuel L W s).state.trace := by
  unfold stage_case
  cases hprod : E.product with
  | none => exact absurd hprod hp
  | some product =>
    simp only
    have hk := loop_has_kind E (fun l p => Event.create_new_case L.url l p L.ssl_verify product
      E.version W.summary W.dsc W.package) Kind.create_new_case (fun _ _ => rfl)
      fuel L.login L.password s
    generalize INVALID_CREDENTIALS_LOOP E (fun l p => Event.create_new_case L.url l p
      L.ssl_verify product E.version W.summary W.dsc W.package) fuel L.login L.password s
      = r at hk
    rcases r with ⟨⟨l2, p2, result⟩, s2⟩ | ⟨o, s2⟩
    · simp only [Res.state_ok] at hk ⊢
      split
      · cases case_errmsg result.msg <;> exact hk
      · have g1 := stage_record_tags E result s2
        unfold stage_record at g1
        have g2 := stage_link_tags E fuel { L with login := l2, password := p2 } result.url
          (if E.dd_opendir_record = true then
            s2.emit (Event.add_reported_to_entry "RHTSupport" result.url result.msg) else s2)
        generalize stage_link E fuel { L with login := l2, password := p2 } result.url
          (if E.dd_opendir_record = true then
            s2.emit (Event.add_reported_to_entry "RHTSupport" result.url result.msg) else s2)
          = r2 at g2
        rcases r2 with ⟨L1, s4⟩ | ⟨o, s4⟩ <;> exact g2.has_kind (g1.has_kind hk)
    · exact hk

/-- With `-t` the mode selection goes on only without file arguments, and then it
adds no event. -/
theorem stage_mode_ok_attach (E : Env) (fuel : Nat) (L : Locals) (s : State)
    (L1 : Locals) (s1 : State) (ht : E.opt_t = true)
    (h : stage_mode E fuel L s = .ok L1 s1) : s1 = s := by
  unfold stage_mode at h
  simp only [ht, if_true] at h
  have hs := resolve_target_url_state E L.url s
  generalize resolve_target_url E L.url s = r at hs h
  rcases r with ⟨url, s2⟩ | ⟨o, s2⟩
  · simp only [Res.state_ok] at hs
    subst hs
    simp only at h
    split at h
    · exact Res.noConfusion h
    · simp only [Res.ok.injEq] at h
      exact h.2.symm
  · exact Res.noConfusion h

/-- A mode selection that goes on has made no attach request. -/
theorem stage_mode_ok_tags (E : Env) (fuel : Nat) (L : Locals) (s : State)
    (L1 : Locals) (s1 : State) (h : stage_mode E fuel L s = .ok L1 s1) :
    Grows (fun e => e.tag ∈ [Tag.prompt Prompt.already_reported,
      Tag.post ureport_action.submit, Tag.plain Kind.ask, Tag.plain Kind.ask_password,
      Tag.plain Kind.ureport_save]) s s1 := by
  cases ht : E.opt_t with
  | true =>
    rw [stage_mode_ok_attach E fuel L s L1 s1 ht h]
    exact Grows.refl _ _
  | false =>
    have g := (stage_mode_tags E fuel L s).2.2 ht
    rw [h] at g
    exact g

/-- The run up to the pre-flight checks, by tag. -/
theorem main_at_preflight (E : Env) (fuel : Nat) :
    (∀ L pd t s, reaches_preflight E fuel = some (L, pd, t, s) →
      main E fuel = stage_after_count_check E fuel L pd t (stage_count_check E pd s) ∧
      Grows (fun e => e.tag ∈ [Tag.plain Kind.ask, Tag.plain Kind.ask_password,
        Tag.prompt Prompt.already_reported, Tag.post ureport_action.submit,
        Tag.plain Kind.ureport_save, Tag.plain Kind.mkdtemp]) State.init s) ∧
    (reaches_preflight E fuel = none →
      Grows (fun e => e.tag ∈ [Tag.plain Kind.ask, Tag.plain Kind.ask_password,
        Tag.plain Kind.attach_file_to_case, Tag.prompt Prompt.already_reported,
        Tag.post ureport_action.submit, Tag.plain Kind.ureport_save]) State.init
        (main E fuel).2) := by
  unfold main reaches_preflight stage_report
  have g0 := stage_config_tags E State.init
  generalize stage_config E State.init = r0 at g0
  rcases r0 with ⟨L0, s0⟩ | ⟨o, s0⟩
  · simp only [Res.state_ok] at g0 ⊢
    have g1 := (stage_mode_tags E fuel L0 s0).1
    have g1ok := stage_mode_ok_tags E fuel L0 s0
    generalize stage_mode E fuel L0 s0 = r1 at g1 g1ok
    rcases r1 with ⟨L1, s1⟩ | ⟨o, s1⟩
    · simp only [Res.state_ok] at g1 ⊢
      have g1' := g1ok L1 s1 rfl
      rw [stage_prepare_eq]
      cases E.create_problem_data_for_reporting with
      | none =>
        exact ⟨fun _ _ _ _ h => Option.noConfusion h, fun _ =>
          (g0.tags (by decide)).trans (g1.tags (by decide))⟩
      | some pd =>
        cases E.mkdtemp with
        | none =>
          exact ⟨fun _ _ _ _ h => Option.noConfusion h, fun _ =>
            (g0.tags (by decide)).trans (g1.tags (by decide))⟩
        | some t =>
          simp only
          refine ⟨?_, fun h => Option.noConfusion h⟩
          intro L pd' t' s h
          simp only [Option.some.injEq, Prod.mk.injEq] at h
          obtain ⟨rfl, rfl, rfl, rfl⟩ := h
          refine ⟨?_, ((g0.tags (by decide)).trans (g1'.tags (by decide))).trans
            (Grows.emit _ _ _ (by simp [Event.tag]))⟩
          rw [stage_preflight_eq]
          generalize stage_count_check E pd (s1.emit (Event.mkdtemp t)) = r
          rcases r with ⟨_, s2⟩ | ⟨o, s2⟩
          · simp only [stage_after_count_check]
            generalize stage_vendor_package_check E pd s2 = r2
            rcases r2 with ⟨_, s3⟩ | ⟨o, s3⟩
            · simp only
            · rfl
          · rfl
    · exact ⟨fun _ _ _ _ h => Option.noConfusion h, fun _ =>
        (g0.tags (by decide)).trans (g1.tags (by decide))⟩
  · exact ⟨fun _ _ _ _ h => Option.noConfusion h, fun _ => g0.tags (by decide)⟩

/-- What the run adds once the archive is built. -/
theorem stage_finish_tags (E : Env) (fuel : Nat) (L : Locals) (W : Workspace) (s : State) :
    Grows (fun e => e.tag ∈ [Tag.plain Kind.get_rhts_hints, Tag.plain Kind.ask,
        Tag.plain Kind.ask_password, Tag.prompt Prompt.hints, Tag.plain Kind.create_new_case,
        Tag.plain Kind.add_reported_to_entry, Tag.post ureport_action.attach,
        Tag.plain Kind.upload_file, Tag.plain Kind.add_comment_to_case,
        Tag.plain Kind.attach_file_to_case, Tag.plain Kind.unlink, Tag.plain Kind.rmdir]) s
      (stage_finish E fuel L W s).2 := by
  unfold stage_finish stage_create
  cases E.opt_t with
  | true =>
    simp only [Bool.not_true, Bool.false_eq_true, if_false]
    have g3 := stage_tail_tags E fuel W [Tag.plain Kind.get_rhts_hints, Tag.plain Kind.ask,
        Tag.plain Kind.ask_password, Tag.prompt Prompt.hints, Tag.plain Kind.create_new_case,
        Tag.plain Kind.add_reported_to_entry, Tag.post ureport_action.attach,
        Tag.plain Kind.upload_file, Tag.plain Kind.add_comment_to_case,
        Tag.plain Kind.attach_file_to_case, Tag.plain Kind.unlink, Tag.plain Kind.rmdir]
      (.ok (some L, none) s) (by decide)
    simp only [Res.state_ok] at g3
    exact g3
  | false =>
    simp only [Bool.not_false, if_true]
    have gh := stage_hints_tags E fuel L W s
    generalize stage_hints E fuel L W s = rh at gh
    rcases rh with ⟨⟨b, l1, p1⟩, s1⟩ | ⟨o, s1⟩
    · simp only [Res.state_ok] at gh
      cases b with
      | true =>
        exact (gh.tags (by decide)).trans ((cleanup_tags E _ _ _ s1).tags (by decide))
      | false =>
        simp only
        obtain ⟨c1, c2⟩ := stage_case_creation E fuel { L with login := l1, password := p1 } W s1
        cases hc : creation_result E fuel { L with login := l1, password := p1 } W s1 with
        | none => exact (gh.tags (by decide)).trans ((c2 hc).tags (by decide))
        | some y =>
          obtain ⟨L1, W1, r, s2⟩ := y
          obtain ⟨hw, he, hst, gc⟩ := c1 L1 W1 r s2 hc
          rw [hst]
          exact ((gh.tags (by decide)).trans (gc.tags (by decide))).trans
            ((stage_after_creation_tags E fuel L1 W r s2).tags (by decide))
    · exact gh.tags (by decide)

/-- What the run adds after the count check: no further count question. -/
theorem stage_after_count_check_tags (E : Env) (fuel : Nat) (L : Locals) (pd : problem_data)
    (t : String) (r : Res Unit) :
    Grows (fun e => e.tag ∈ [Tag.prompt Prompt.vendor, Tag.prompt Prompt.not_packaged,
        Tag.plain Kind.create_tarball, Tag.plain Kind.get_rhts_hints, Tag.plain Kind.ask,
        Tag.plain Kind.ask_password, Tag.prompt Prompt.hints, Tag.plain Kind.create_new_case,
        Tag.plain Kind.add_reported_to_entry, Tag.post ureport_action.attach,
        Tag.plain Kind.upload_file, Tag.plain Kind.add_comment_to_case,
        Tag.plain Kind.attach_file_to_case, Tag.plain Kind.unlink, Tag.plain Kind.rmdir])
      r.state (stage_after_count_check E fuel L pd t r).2 := by
  rcases r with ⟨_, s1⟩ | ⟨o, s1⟩
  · simp only [Res.state_ok, stage_after_count_check]
    have g2 := stage_vendor_package_check_tags E pd s1
    generalize stage_vendor_package_check E pd s1 = r2 at g2
    rcases r2 with ⟨_, s2⟩ | ⟨o, s2⟩
    · simp only [Res.state_ok] at g2 ⊢
      have g3 := stage_archive_tags E pd t s2
      generalize stage_archive E pd t s2 = r3 at g3
      rcases r3 with ⟨W, s3⟩ | ⟨o, s3⟩
      · simp only [Res.state_ok] at g3 ⊢
        exact ((g2.tags (by decide)).trans (g3.tags (by decide))).trans
          ((stage_finish_tags E fuel L W s3).tags (by decide))
      · exact (g2.tags (by decide)).trans (g3.tags (by decide))
    · exact g2.tags (by decide)
  · exact Grows.refl _ _

/-! ### The record of the new case (lines 870-884) -/

/-- C12, as stated, fails on the sample run whose dump directory cannot be opened at
line 871: the case is created (the one `create_new_case` request is answered without
error), the run goes on to attach the archive and returns 0, and no reported-to entry
is written. -/
theorem created_case_left_unrecorded :
    (case_created env_record_fails 3).map (fun x => x.2.2.1) = some result_ok ∧
    result_ok.error = 0 ∧
    (main env_record_fails 3).1 = Outcome.ret 0 ∧
    count_kind Kind.create_new_case (main env_record_fails 3).2.trace = 1 ∧
    count_kind Kind.attach_file_to_case (main env_record_fails 3).2.trace = 1 ∧
    count_kind Kind.add_reported_to_entry (main env_record_fails 3).2.trace = 0 := by
  decide!

/-- C12, amended: the reported-to entries of a whole run.  When the run creates a
case (the last `create_new_case` request is answered with error = 0) and the dump
directory can be opened at line 871, the run writes exactly one entry: it has the
label "RHTSupport" and the URL and the message of that answer.  When the case is
created and the dump directory cannot be opened, no entry is written; either way the
run goes on with the link of the microreport, the delivery of the archive and the
cleanup.  When no case is created (the request failed, was never made, or the run
has `-t`), no entry is written. -/
theorem case_recorded_iff_dump_dir_opens (E : Env) (fuel : Nat) :
    (∀ L W r s, case_created E fuel = some (L, W, r, s) →
      r.error = 0 ∧
      main E fuel = stage_after_creation E fuel L W r s ∧
      (main E fuel).2.trace.filter (fun e => e.kind = Kind.add_reported_to_entry) =
        if E.dd_opendir_record then [Event.add_reported_to_entry "RHTSupport" r.url r.msg]
        else []) ∧
    (case_created E fuel = none →
      (main E fuel).2.trace.filter (fun e => e.kind = Kind.add_reported_to_entry) = []) := by
  obtain ⟨h1, h2⟩ := main_case_created E fuel
  constructor
  · intro L W r s hc
    obtain ⟨_, he, hm, g⟩ := h1 L W r s hc
    refine ⟨he, hm, ?_⟩
    rw [hm]
    unfold stage_after_creation
    rw [(stage_after_record_tags E fuel L W r.url (stage_record E r s)).filter_kind
      Kind.add_reported_to_entry (by decide) (by decide) (by decide)]
    have g0 := g.filter_kind Kind.add_reported_to_entry (by decide) (by decide) (by decide)
    rw [filter_kind_init] at g0
    unfold stage_record
    cases E.dd_opendir_record with
    | true =>
      simp only [if_true, State.emit, List.filter_append, g0, List.nil_append]
      simp [Event.kind]
    | false =>
      simp only [Bool.false_eq_true, if_false]
      exact g0
  · intro hc
    rw [(h2 hc).filter_kind Kind.add_reported_to_entry (by decide) (by decide) (by decide)]
    rfl

/-- C12, amended, on the sample run: the case "https://portal/cases/123" is created
and the one entry of the run carries its URL. -/
theorem case_recorded_iff_dump_dir_opens_witness :
    (case_created env_base 3).map (fun x => x.2.2.1) = some result_ok ∧
    env_base.dd_opendir_record = true ∧
    (main env_base 3).2.trace.filter (fun e => e.kind = Kind.add_reported_to_entry) =
      [Event.add_reported_to_entry "RHTSupport" (some "https://portal/cases/123") none] := by
  have hr : (case_created env_base 3).map (fun x => x.2.2.1) = some result_ok := by decide!
  refine ⟨hr, rfl, ?_⟩
  cases hc : case_created env_base 3 with
  | none => rw [hc] at hr; exact Option.noConfusion hr
  | some x =>
    obtain ⟨L, W, r, s⟩ := x
    rw [hc] at hr
    simp only [Option.map_some', Option.some.injEq] at hr
    subst hr
    exact ((case_recorded_iff_dump_dir_opens env_base 3).1 L W _ s hc).2.2

/-! ### The link between the microreport and the new case (lines 886-908) -/

theorem delivery_event_kind (e : Event)
    (h : e.tag ∈ [Tag.plain Kind.upload_file, Tag.plain Kind.add_comment_to_case,
      Tag.plain Kind.attach_file_to_case, Tag.plain Kind.ask, Tag.plain Kind.ask_password,
      Tag.plain Kind.unlink, Tag.plain Kind.rmdir]) :
    e.kind ≠ Kind.create_new_case ∧ e.kind ≠ Kind.ureport_do_post := by
  cases e <;> simp_all [Event.kind, Event.tag]

/-- C15: the linking of the microreport, over a whole run.  A post that attaches to
the microreport is made exactly when the run creates a case and has a bthash; a run
with `-t` makes none.  In a run that creates a case and has the bthash `b`, no such
post is made before the `create_new_case` request that was answered without error
(the last event before the record), and what follows that request is: the record in
the dump directory, then the post of the attachment "RHCID" whose value is the URL of
the new case, with the login and the password of that request, then prompts and
further posts of "RHCID" only, then the events of the attachment "email", and then
events that are neither posts nor case creations.  Without a configured
`ContactEmail` there is no event of "email"; with one, they are prompts and posts of
the attachment "email" with the configured value, and when the posting of "RHCID"
returns, the first of them is that post with the credentials "RHCID" ended with. -/
theorem microreport_linked_after_creation (E : Env) (fuel : Nat) :
    ((∃ e ∈ (main E fuel).2.trace, e.tag = Tag.post ureport_action.attach) ↔
      ∃ L W r s b, case_created E fuel = some (L, W, r, s) ∧ L.bthash = some b) ∧
    (E.opt_t = true →
      ∀ e ∈ (main E fuel).2.trace, e.tag ≠ Tag.post ureport_action.attach) ∧
    (∀ L W r s b, case_created E fuel = some (L, W, r, s) → L.bthash = some b →
      r.error = 0 ∧
      (∀ e ∈ s.trace, e.tag ≠ Tag.post ureport_action.attach) ∧
      (∃ tr product, E.product = some product ∧
        s.trace = tr ++ [Event.create_new_case L.url L.login L.password L.ssl_verify
          product E.version W.summary W.dsc W.package]) ∧
      ∃ pre ev1 ev2 post, (main E fuel).2.trace =
          s.trace ++ pre ++
            (Event.ureport_do_post (.attachment b "RHCID" r.url) L.login L.password
              ureport_action.attach :: ev1) ++ ev2 ++ post ∧
        (∀ e ∈ pre, e.kind = Kind.add_reported_to_entry) ∧
        (∀ e ∈ ev1, link_event (.attachment b "RHCID" r.url) e) ∧
        (E.ureport_option_value "ContactEmail" = none → ev2 = []) ∧
        (∀ email, E.ureport_option_value "ContactEmail" = some email →
          (∀ e ∈ ev2, link_event (.attachment b "email" (some email)) e) ∧
          (∀ u1 p1 s1, attach_to_ureport E fuel L.login L.password b "RHCID" r.url
              (stage_record E r s) = .ok (u1, p1) s1 →
            ∃ ev3, ev2 = Event.ureport_do_post (.attachment b "email" (some email)) u1 p1
              ureport_action.attach :: ev3)) ∧
        (∀ e ∈ post, e.kind ≠ Kind.create_new_case ∧ e.kind ≠ Kind.ureport_do_post)) := by
  obtain ⟨h1, h2⟩ := main_case_created E fuel
  have hinit : ∀ e ∈ State.init.trace, e.tag ≠ Tag.post ureport_action.attach := by
    intro e he
    simp [State.init] at he
  have hnone : case_created E fuel = none →
      ∀ e ∈ (main E fuel).2.trace, e.tag ≠ Tag.post ureport_action.attach := by
    intro hc e he ht
    rcases (h2 hc).mem he with h | h
    · exact hinit e h ht
    · rw [ht] at h
      revert h
      decide
  have hsome : ∀ L W r s b, case_created E fuel = some (L, W, r, s) → L.bthash = some b →
      r.error = 0 ∧
      (∀ e ∈ s.trace, e.tag ≠ Tag.post ureport_action.attach) ∧
      (∃ tr product, E.product = some product ∧
        s.trace = tr ++ [Event.create_new_case L.url L.login L.password L.ssl_verify
          product E.version W.summary W.dsc W.package]) ∧
      ∃ pre ev1 ev2 post, (main E fuel).2.trace =
          s.trace ++ pre ++
            (Event.ureport_do_post (.attachment b "RHCID" r.url) L.login L.password
              ureport_action.attach :: ev1) ++ ev2 ++ post ∧
        (∀ e ∈ pre, e.kind = Kind.add_reported_to_entry) ∧
        (∀ e ∈ ev1, link_event (.attachment b "RHCID" r.url) e) ∧
        (E.ureport_option_value "ContactEmail" = none → ev2 = []) ∧
        (∀ email, E.ureport_option_value "ContactEmail" = some email →
          (∀ e ∈ ev2, link_event (.attachment b "email" (some email)) e) ∧
          (∀ u1 p1 s1, attach_to_ureport E fuel L.login L.password b "RHCID" r.url
              (stage_record E r s) = .ok (u1, p1) s1 →
            ∃ ev3, ev2 = Event.ureport_do_post (.attachment b "email" (some email)) u1 p1
              ureport_action.attach :: ev3)) ∧
        (∀ e ∈ post, e.kind ≠ Kind.create_new_case ∧ e.kind ≠ Kind.ureport_do_post) := by
    intro L W r s b hc hb
    obtain ⟨_, he, hm, g⟩ := h1 L W r s hc
    obtain ⟨pre, post, hpre, hpost, hp, hq⟩ := stage_after_creation_trace E fuel L W r s
    obtain ⟨ev1, ev2, hl, hp1, hn, hem⟩ :=
      stage_link_posts E fuel L r.url (stage_record E r s) b hb
    refine ⟨he, ?_, case_created_last E fuel L W r s hc, pre, ev1, ev2, post, ?_, hp, hp1,
      hn, hem, ?_⟩
    · intro e he ht
      rcases g.mem he with h | h
      · exact hinit e h ht
      · rw [ht] at h
        revert h
        decide
    · rw [hm, hpost, hl, hpre]
    · exact fun e he => delivery_event_kind e (hq e he)
  refine ⟨⟨?_, ?_⟩, ?_, hsome⟩
  · rintro ⟨e, he, ht⟩
    cases hc : case_created E fuel with
    | none => exact absurd ht (hnone hc e he)
    | some x =>
      obtain ⟨L, W, r, s⟩ := x
      cases hb : L.bthash with
      | some b => exact ⟨L, W, r, s, b, rfl, hb⟩
      | none =>
        exfalso
        obtain ⟨_, _, hm, g⟩ := h1 L W r s hc
        obtain ⟨pre, post, hpre, hpost, hp, hq⟩ := stage_after_creation_trace E fuel L W r s
        have hl : (stage_link E fuel L r.url (stage_record E r s)).state
            = stage_record E r s := by
          unfold stage_link
          rw [hb]
          rfl
        rw [hm, hpost, hl, hpre] at he
        simp only [List.mem_append] at he
        rcases he with (he | he) | he
        · rcases g.mem he with h | h
          · exact hinit e h ht
          · rw [ht] at h
            revert h
            decide
        · have h := (Event.tag_of_kind e _ (by decide) (by decide)).1 (hp e he)
          rw [ht] at h
          exact Tag.noConfusion h
        · have := hq e he
          rw [ht] at this
          revert this
          decide
  · rintro ⟨L, W, r, s, b, hc, hb⟩
    obtain ⟨_, _, _, pre, ev1, ev2, post, ht, _⟩ := hsome L W r s b hc hb
    refine ⟨Event.ureport_do_post (.attachment b "RHCID" r.url) L.login L.password
      ureport_action.attach, ?_, rfl⟩
    rw [ht]
    simp
  · intro ht
    apply hnone
    unfold case_created reaches_case
    cases reaches_archive E fuel with
    | none => rfl
    | some x =>
      obtain ⟨L, W, s⟩ := x
      simp only [ht, if_true]

/-- C15 on the sample run with `-u` and a contact e-mail: the run posts attachments
to the microreport, and it created a case with a bthash at hand. -/
theorem microreport_linked_after_creation_witness :
    (∃ e ∈ (main env_link 3).2.trace, e.tag = Tag.post ureport_action.attach) ∧
    ∃ L W r s b, case_created env_link 3 = some (L, W, r, s) ∧ L.bthash = some b :=
  ⟨by decide!, (microreport_linked_after_creation env_link 3).1.1 (by decide!)⟩

/-! ### The outcome of the hint probe (lines 313-371 and 811-819) -/

/-- C14: the outcome of the hint probe.  When the credential loop of
`check_for_hints` returns with a response, `check_for_hints` returns, and it returns
true exactly when the response has no error, has a body in which
`parse_response_from_RHTS_hint_xml2txt` finds a suggestion, and the user answers "no"
to the question; a response with an error gives false without any prompt.  In a run
without `-t` that reaches the built archive and probes for hints: when
`check_for_hints` returns true, `main` unlinks the archive, removes the workspace
directory and returns 0, and the run has no `create_new_case` request and no
reported-to entry; when it returns false, the run goes on with the case stage, which
makes a `create_new_case` request whenever the product is determined. -/
theorem hint_probe_outcome (E : Env) (fuel : Nat) :
    (∀ url login password ssl_verify tempfile s l1 p1 result s1,
      INVALID_CREDENTIALS_LOOP E
          (fun l p => Event.get_rhts_hints url l p ssl_verify tempfile) fuel login password s
        = .ok (l1, p1, result) s1 →
      ∃ b s2, check_for_hints E fuel url login password ssl_verify tempfile s
          = .ok (b, l1, p1) s2 ∧
        (b = true ↔ result.error = 0 ∧
          (∃ body hint, result.body = some body ∧
            E.parse_response_from_RHTS_hint_xml2txt body = some hint) ∧
          E.ask_yes_no Prompt.hints = false) ∧
        (result.error ≠ 0 → b = false ∧ s2 = s1) ∧
        (b = true → s2 = s1.emit (Event.ask_yes_no Prompt.hints))) ∧
    (∀ L W s, reaches_archive E fuel = some (L, W, s) → E.opt_t = false →
      W.tempfile_size ≤ QUERY_HINTS_IF_SMALLER_THAN →
      ∀ b l1 p1 s1,
        check_for_hints E fuel L.base_api_url L.login L.password L.ssl_verify W.tempfile s
          = .ok (b, l1, p1) s1 →
        (b = true →
          main E fuel = (Outcome.ret 0,
            (s1.emit (Event.unlink W.tempfile)).emit (Event.rmdir W.tmpdir_name)) ∧
          ¬ has_kind Kind.create_new_case (main E fuel).2.trace ∧
          ¬ has_kind Kind.add_reported_to_entry (main E fuel).2.trace) ∧
        (b = false →
          main E fuel = stage_tail E fuel W
            (stage_case E fuel { L with login := l1, password := p1 } W s1) ∧
          (E.product ≠ none → has_kind Kind.create_new_case (main E fuel).2.trace))) := by
  constructor
  · intro url login password ssl_verify tempfile s l1 p1 result s1 hloop
    unfold check_for_hints
    rw [hloop]
    simp only
    by_cases he : result.error = 0
    · simp only [he, ne_eq, not_true_eq_false, if_false, true_and, false_implies, true_and]
      cases hb : result.body with
      | none =>
        refine ⟨false, s1, rfl, ?_, fun h => Bool.noConfusion h⟩
        simp
      | some body =>
        simp only
        cases hh : E.parse_response_from_RHTS_hint_xml2txt body with
        | none =>
          refine ⟨false, s1, rfl, ?_, fun h => Bool.noConfusion h⟩
          simp [hh]
        | some hint =>
          refine ⟨!E.ask_yes_no Prompt.hints, _, rfl, ?_, fun _ => rfl⟩
          simp [hh]
    · simp only [ne_eq, he, not_false_eq_true, if_true]
      refine ⟨false, s1, rfl, ?_, fun _ => ⟨rfl, rfl⟩, fun h => Bool.noConfusion h⟩
      simp [he]
  · intro L W s hra ht hsz b l1 p1 s1 hcf
    obtain ⟨hm, g⟩ := (main_to_archive_tags E fuel).1 L W s hra
    have gh := check_for_hints_tags E fuel L.base_api_url L.login L.password L.ssl_verify
      W.tempfile s
    rw [hcf] at gh
    simp only [Res.state_ok] at gh
    constructor
    · intro hb
      subst hb
      have hmain : main E fuel = (Outcome.ret 0,
          (s1.emit (Event.unlink W.tempfile)).emit (Event.rmdir W.tmpdir_name)) := by
        rw [hm, stage_finish_new_case E fuel L W s ht]
        unfold stage_create stage_hints
        simp only [hsz, if_true, hcf]
        rfl
      have gall := ((g.tags (K := [Tag.plain Kind.ask, Tag.plain Kind.ask_password,
          Tag.plain Kind.attach_file_to_case, Tag.prompt Prompt.already_reported,
          Tag.post ureport_action.submit, Tag.plain Kind.ureport_save, Tag.plain Kind.mkdtemp,
          Tag.prompt Prompt.count_once, Tag.prompt Prompt.vendor,
          Tag.prompt Prompt.not_packaged, Tag.plain Kind.create_tarball,
          Tag.plain Kind.unlink, Tag.plain Kind.rmdir, Tag.plain Kind.get_rhts_hints,
          Tag.prompt Prompt.hints]) (by decide)).trans (gh.tags (by decide))).trans
        ((cleanup_tags E W.tempfile W.tmpdir_name none s1).tags (by decide))
      have hcl : (cleanup E W.tempfile W.tmpdir_name none s1).2 = (main E fuel).2 := by
        rw [hmain]
        rfl
      rw [hcl] at gall
      exact ⟨hmain,
        gall.no_kind_of_tags _ (by decide) (by decide) (by decide) (no_kind_init _),
        gall.no_kind_of_tags _ (by decide) (by decide) (by decide) (no_kind_init _)⟩
    · intro hb
      subst hb
      have hfin : main E fuel = stage_tail E fuel W
          (stage_case E fuel { L with login := l1, password := p1 } W s1) := by
        rw [hm, stage_finish_new_case E fuel L W s ht]
        unfold stage_create stage_hints
        simp only [hsz, if_true, hcf]
      refine ⟨hfin, fun hp => ?_⟩
      rw [hfin]
      exact (stage_tail_tags E fuel W _ _ (fun t ht => ht)).has_kind
        (stage_case_has_request E fuel _ W s1 hp)

/-- C14 on the sample run where the probe finds a suggestion and the user answers
"no": the run is the hint request, the question and the cleanup, and it returns 0. -/
theorem hint_probe_outcome_witness :
    main env_hint_cancel 3 = (Outcome.ret 0,
      { trace := [Event.mkdtemp "/var/tmp/rhtsupport-XXXXXX",
                  Event.create_tarball "/var/tmp/rhtsupport-XXXXXX/d.tar.gz",
                  Event.get_rhts_hints "https://api.access.redhat.com/rs" "u" "p" true
                    "/var/tmp/rhtsupport-XXXXXX/d.tar.gz",
                  Event.ask_yes_no Prompt.hints,
                  Event.unlink "/var/tmp/rhtsupport-XXXXXX/d.tar.gz",
                  Event.rmdir "/var/tmp/rhtsupport-XXXXXX"],
        ncall := 1, nask := 0, npw := 0 }) ∧
    ¬ has_kind Kind.create_new_case (main env_hint_cancel 3).2.trace ∧
    ¬ has_kind Kind.add_reported_to_entry (main env_hint_cancel 3).2.trace :=
  ((hint_probe_outcome env_hint_cancel 3).2 locals_sample workspace_sample
    state_archive_sample (by decide!) rfl (by decide) true "u" "p"
    { trace := [Event.mkdtemp "/var/tmp/rhtsupport-XXXXXX",
                Event.create_tarball "/var/tmp/rhtsupport-XXXXXX/d.tar.gz",
                Event.get_rhts_hints "https://api.access.redhat.com/rs" "u" "p" true
                  "/var/tmp/rhtsupport-XXXXXX/d.tar.gz",
                Event.ask_yes_no Prompt.hints],
      ncall := 1, nask := 0, npw := 0 } (by decide!)).1 rfl

/-! ### The pre-flight count check (lines 694-708) -/

theorem preflight_event_kind (e : Event)
    (h : e.tag ∈ [Tag.plain Kind.ask, Tag.plain Kind.ask_password,
      Tag.prompt Prompt.already_reported, Tag.post ureport_action.submit,
      Tag.plain Kind.ureport_save, Tag.plain Kind.mkdtemp, Tag.prompt Prompt.count_once]) :
    e.kind ∉ [Kind.create_tarball, Kind.get_rhts_hints, Kind.create_new_case,
      Kind.attach_file_to_case, Kind.upload_file, Kind.add_comment_to_case,
      Kind.add_reported_to_entry] := by
  cases e <;> simp_all [Event.kind, Event.tag]

/-- C18: the count check of the pre-flight.  The question about a problem that
occurred once is asked in a run exactly when the run reaches the pre-flight checks
(line 694) with problem data whose count is the string "1" and whose reproducibility
is at most `PROBLEM_REPRODUCIBLE_UNKNOWN`.  When the user answers "no", the run ends
with `exit(EXIT_CANCEL_BY_USER)` right after the question, and the whole run has no
archive, no hint request, no case creation, no attach, upload or comment request
and no reported-to entry. -/
theorem count_check_prompt_and_cancel (E : Env) (fuel : Nat) :
    (Event.ask_yes_no Prompt.count_once ∈ (main E fuel).2.trace ↔
      ∃ L pd t s, reaches_preflight E fuel = some (L, pd, t, s) ∧
        pd.count = some "1" ∧ pd.reproducible ≤ E.PROBLEM_REPRODUCIBLE_UNKNOWN) ∧
    (∀ L pd t s, reaches_preflight E fuel = some (L, pd, t, s) →
      pd.count = some "1" → pd.reproducible ≤ E.PROBLEM_REPRODUCIBLE_UNKNOWN →
      E.ask_yes_no Prompt.count_once = false →
      main E fuel = (Outcome.exit E.EXIT_CANCEL_BY_USER,
        s.emit (Event.ask_yes_no Prompt.count_once)) ∧
      ∀ e ∈ (main E fuel).2.trace, e.kind ∉ [Kind.create_tarball, Kind.get_rhts_hints,
        Kind.create_new_case, Kind.attach_file_to_case, Kind.upload_file,
        Kind.add_comment_to_case, Kind.add_reported_to_entry]) := by
  obtain ⟨h1, h2⟩ := main_at_preflight E fuel
  have hinit : Event.ask_yes_no Prompt.count_once ∉ State.init.trace := by
    simp [State.init]
  refine ⟨⟨?_, ?_⟩, ?_⟩
  · intro hmem
    cases hr : reaches_preflight E fuel with
    | none =>
      exact absurd hmem ((h2 hr).not_mem (by simp [Event.tag]) hinit)
    | some x =>
      obtain ⟨L, pd, t, s⟩ := x
      by_cases hc : pd.count = some "1" ∧ pd.reproducible ≤ E.PROBLEM_REPRODUCIBLE_UNKNOWN
      · exact ⟨L, pd, t, s, rfl, hc⟩
      · exfalso
        obtain ⟨hm, g⟩ := h1 L pd t s hr
        have hs : Event.ask_yes_no Prompt.count_once ∉ s.trace :=
          g.not_mem (by simp [Event.tag]) hinit
        have hcc : stage_count_check E pd s = .ok () s := by
          unfold stage_count_check
          rw [if_neg hc]
        have g2 := stage_after_count_check_tags E fuel L pd t (stage_count_check E pd s)
        rw [← hm, hcc, Res.state_ok] at g2
        exact g2.not_mem (by simp [Event.tag]) hs hmem
  · rintro ⟨L, pd, t, s, hr, hc⟩
    obtain ⟨hm, g⟩ := h1 L pd t s hr
    have hcc : (stage_count_check E pd s).state = s.emit (Event.ask_yes_no Prompt.count_once) := by
      unfold stage_count_check confirm_or_exit
      rw [if_pos hc]
      simp only
      split <;> rfl
    have g2 := stage_after_count_check_tags E fuel L pd t (stage_count_check E pd s)
    rw [← hm, hcc] at g2
    exact g2.sub (by simp [State.emit])
  · intro L pd t s hr hc1 hc2 hno
    obtain ⟨hm, g⟩ := h1 L pd t s hr
    have hmain : main E fuel = (Outcome.exit E.EXIT_CANCEL_BY_USER,
        s.emit (Event.ask_yes_no Prompt.count_once)) := by
      rw [hm]
      unfold stage_count_check confirm_or_exit
      rw [if_pos ⟨hc1, hc2⟩]
      simp only [hno, Bool.false_eq_true, if_false]
      rfl
    refine ⟨hmain, ?_⟩
    intro e he
    rw [hmain] at he
    apply preflight_event_kind
    have g3 : Grows (fun e => e.tag ∈ [Tag.plain Kind.ask, Tag.plain Kind.ask_password,
        Tag.prompt Prompt.already_reported, Tag.post ureport_action.submit,
        Tag.plain Kind.ureport_save, Tag.plain Kind.mkdtemp, Tag.prompt Prompt.count_once])
        State.init (s.emit (Event.ask_yes_no Prompt.count_once)) :=
      (g.tags (by decide)).trans (Grows.emit _ _ _ (by simp [Event.tag]))
    rcases g3.mem he with h | h
    · simp [State.init] at h
    · exact h

/-- C18 on the sample run with a problem that occurred once, of unknown
reproducibility, and a user who answers "no": the run is the creation of the
workspace directory and the question, and it ends with the exit code 69. -/
theorem count_check_prompt_and_cancel_witness :
    main env_count_no 3 = (Outcome.exit 69,
      { trace := [Event.mkdtemp "/var/tmp/rhtsupport-XXXXXX",
                  Event.ask_yes_no Prompt.count_once],
        ncall := 0, nask := 0, npw := 0 }) :=
  ((count_check_prompt_and_cancel env_count_no 3).2 locals_sample
    { package := some "pkg", count := some "1", vendor := some "Red Hat, Inc.",
      executable := some "/bin/x", reproducible := 0 }
    "/var/tmp/rhtsupport-XXXXXX"
    { trace := [Event.mkdtemp "/var/tmp/rhtsupport-XXXXXX"], ncall := 0, nask := 0, npw := 0 }
    (by decide!) rfl (by decide) rfl).1


/-! ### The message that `main` reports after a failed case creation -/

/-- A run that arrives at the creation of the case is the case stage followed by the
delivery and the cleanup. -/
theorem main_at_case (E : Env) (fuel : Nat) (L : Locals) (W : Workspace) (s : State)
    (h : reaches_case E fuel = some (L, W, s)) :
    main E fuel = stage_tail E fuel W (stage_case E fuel L W s) := by
  unfold reaches_case at h
  cases hra : reaches_archive E fuel with
  | none => rw [hra] at h; exact Option.noConfusion h
  | some x =>
    obtain ⟨L0, W0, s0⟩ := x
    rw [hra] at h
    simp only at h
    cases ht : E.opt_t with
    | true => simp [ht] at h
    | false =>
      simp only [ht, Bool.false_eq_true, if_false] at h
      rw [((main_to_archive_tags E fuel).1 L0 W0 s0 hra).1,
        stage_finish_new_case E fuel L0 W0 s0 ht]
      unfold stage_create
      generalize stage_hints E fuel L0 W0 s0 = rh at h
      rcases rh with ⟨⟨b, l1, p1⟩, s1⟩ | ⟨o, s1⟩
      · cases b with
        | true => simp at h
        | false =>
          simp only [Option.some.injEq, Prod.mk.injEq] at h
          obtain ⟨rfl, rfl, rfl⟩ := h
          rfl
      · simp at h

/-- The buffer of a message: the C string it holds, its NUL, and what follows. -/
theorem cstr_split (msg : List Char) :
    '\x00' ∉ cstr msg ∧ ∃ t, msg ++ ['\x00'] = cstr msg ++ '\x00' :: t := by
  induction msg with
  | nil => exact ⟨by simp [cstr], [], rfl⟩
  | cons a msg ih =>
    by_cases ha : a = '\x00'
    · subst ha
      exact ⟨by simp [cstr], msg ++ ['\x00'], by simp [cstr]⟩
    · have hb : (a != '\x00') = true := by simp [ha]
      obtain ⟨h1, t, h2⟩ := ih
      have hc : cstr (a :: msg) = a :: cstr msg := by
        simp only [cstr] 
        simp [List.takeWhile_cons, hb]
      rw [hc]
      refine ⟨?_, t, ?_⟩
      · intro hm
        rcases List.mem_cons.1 hm with e | e
        · exact ha e.symm
        · exact h1 e
      · simp only [List.cons_append]
        rw [h2]


theorem get_at_length (s : List Char) (a : Char) (tail : List Char) :
    (s ++ a :: tail).get? s.length = some a := by
  rw [List.get?_eq_getElem?, List.getElem?_append_right (le_refl _)]
  simp


/-- The copy loop on a buffer that goes on after the NUL of the message: the bytes
before the NUL are rewritten, and what follows the NUL is left alone. -/
theorem replace_newlines_tail (rest tail : List Char) :
    ∀ (pre : List Char) (fuel : Nat), '\x00' ∉ rest → rest.length < fuel →
      replace_newlines fuel (pre ++ rest ++ '\x00' :: tail) pre.length pre.length
        = some (pre ++ rest.map newline_to_space ++ '\x00' :: tail,
            pre.length + rest.length + 1) := by
  induction rest with
  | nil =>
    intro pre fuel _ hf
    obtain ⟨f, rfl⟩ : ∃ f, fuel = f + 1 := ⟨fuel - 1, by simp at hf; omega⟩
    have hget := get_at_length pre '\x00' tail
    have hset : (pre ++ '\x00' :: tail).set pre.length '\x00' = pre ++ '\x00' :: tail := by
      simp [List.set_append]
    simp only [List.append_nil, List.map_nil, List.length_nil, Nat.add_zero]
    rw [replace_newlines, hget]
    simp only [Char.reduceEq, if_false, if_true, hset, (by decide : ('\x00' = '\n') = False)]
  | cons a rest ih =>
    intro pre fuel h0 hf
    obtain ⟨f, rfl⟩ : ∃ f, fuel = f + 1 := ⟨fuel - 1, by simp at hf; omega⟩
    have ha : a ≠ '\x00' := fun h => h0 (by simp [h])
    have hr : '\x00' ∉ rest := fun h => h0 (by simp [h])
    have hget : (pre ++ a :: rest ++ '\x00' :: tail).get? pre.length = some a := by
      rw [List.append_assoc, List.get?_eq_getElem?, List.getElem?_append_right (le_refl _)]
      simp
    have hc : (if a = '\n' then ' ' else a) ≠ '\x00' := by
      split
      · decide
      · exact ha
    have hset : (pre ++ a :: rest ++ '\x00' :: tail).set pre.length (newline_to_space a)
        = (pre ++ [newline_to_space a]) ++ rest ++ '\x00' :: tail := by
      simp [List.set_append]
    have := ih (pre ++ [newline_to_space a]) f hr (by simp at hf ⊢; omega)
    simp only [List.length_append, List.length_singleton] at this
    rw [replace_newlines, hget]
    simp only [hc, if_false]
    show replace_newlines f ((pre ++ a :: rest ++ '\x00' :: tail).set pre.length
        (newline_to_space a)) (pre.length + 1) (pre.length + 1) = _
    rw [hset, this]
    simp [Nat.add_assoc, Nat.add_comm 1]

theorem trim_trailing_tail (s tail : List Char) :
    trim_trailing (s ++ '\x00' :: tail) (s.length + 1) = s ++ '\x00' :: tail := by
  have h := get_at_length s '\x00' tail
  rw [trim_trailing, h]
  simp

theorem cstr_tail (s tail : List Char) (h : '\x00' ∉ s) : cstr (s ++ '\x00' :: tail) = s := by
  induction s with
  | nil => simp [cstr]
  | cons a s ih =>
    have ha : a ≠ '\x00' := fun e => h (by simp [e])
    have hs : '\x00' ∉ s := fun e => h (by simp [e])
    have := ih hs
    have hb : (a != '\x00') = true := by simp [ha]
    simp only [cstr] at this ⊢
    simp [List.takeWhile_cons, hb, this]

theorem cstr_length_le (msg : List Char) : (cstr msg).length ≤ msg.length := by
  unfold cstr
  exact (List.takeWhile_sublist _).length_le

/-- Lines 853-866 on any message: the reported `errmsg` is the C string of the
message with every newline turned into a space. -/
theorem normalise_errmsg_cstr (msg : List Char) :
    normalise_errmsg msg = some ((cstr msg).map newline_to_space) := by
  obtain ⟨h0, t, ht⟩ := cstr_split msg
  have hlen : (cstr msg).length < (msg ++ ['\x00']).length := by
    have := cstr_length_le msg
    simp
    omega
  have h1 := replace_newlines_tail (cstr msg) t [] (msg ++ ['\x00']).length h0 hlen
  simp only [List.nil_append, List.length_nil, Nat.zero_add] at h1
  have h2 : '\x00' ∉ (cstr msg).map newline_to_space := by
    intro hm
    obtain ⟨c, hc, he⟩ := List.mem_map.1 hm
    exact newline_to_space_ne_nul (fun e => h0 (e ▸ hc)) he
  have h3 := trim_trailing_tail ((cstr msg).map newline_to_space) t
  simp only [List.length_map] at h3
  unfold normalise_errmsg normalise_buffer
  rw [← ht] at h1
  rw [h1]
  simp only [Option.map_some', Option.some.injEq]
  rw [h3, cstr_tail _ t h2]

/-- C3: the message of a failed case creation, as `main` reports it.  In a run that
arrives at the creation of the case with a determined product, when the credential
loop of `create_new_case` returns a result with an error and the message `m`, `main`
goes through the cleanup and dies with the message `out` that lines 853-866 make of
`m`: `out` has no newline, has the length of the C string of `m`, and holds at every
offset the byte of `m`, with a space where `m` has a newline.  (The C string of `m`
is `m` itself when `m` has no NUL byte.) -/
theorem errmsg_newlines_become_spaces (E : Env) (fuel : Nat) (L : Locals) (W : Workspace)
    (s : State) (product l2 p2 : String) (result : rhts_result) (s2 : State) (m : String)
    (hreach : reaches_case E fuel = some (L, W, s))
    (hprod : E.product = some product)
    (hloop : INVALID_CREDENTIALS_LOOP E
        (fun l p => Event.create_new_case L.url l p L.ssl_verify product E.version
          W.summary W.dsc W.package) fuel L.login L.password s = .ok (l2, p2, result) s2)
    (herr : result.error ≠ 0) (hmsg : result.msg = some m) :
    ∃ out,
      main E fuel = (Outcome.die E.xfunc_error_retval (some (String.mk out)),
        (s2.emit (Event.unlink W.tempfile)).emit (Event.rmdir W.tmpdir_name)) ∧
      normalise_errmsg m.data = some out ∧
      '\n' ∉ out ∧ out.length = (cstr m.data).length ∧
      (∀ i c, (cstr m.data).get? i = some c →
        out.get? i = some (if c = '\n' then ' ' else c)) ∧
      ('\x00' ∉ m.data → out.length = m.data.length ∧
        ∀ i c, m.data.get? i = some c →
          out.get? i = some (if c = '\n' then ' ' else c)) := by
  have hn := normalise_errmsg_cstr m.data
  have hget : ∀ i c, (cstr m.data).get? i = some c →
      ((cstr m.data).map newline_to_space).get? i = some (if c = '\n' then ' ' else c) := by
    intro i c hc
    simp only [List.get?_eq_getElem?] at hc ⊢
    simp [List.getElem?_map, hc, newline_to_space]
  refine ⟨(cstr m.data).map newline_to_space, ?_, hn, ?_, by simp, hget, ?_⟩
  · rw [main_at_case E fuel L W s hreach]
    unfold stage_case
    rw [hprod]
    simp only
    rw [hloop]
    simp only [ne_eq, herr, not_false_eq_true, if_true]
    unfold case_errmsg
    rw [hmsg]
    simp only [hn, Option.map_some']
    rfl
  · intro hm
    obtain ⟨c, _, he⟩ := List.mem_map.1 hm
    unfold newline_to_space at he
    split at he
    · exact absurd he (by decide)
    · rename_i hc
      exact hc he
  · intro h0
    have hc : cstr m.data = m.data := by
      have := cstr_tail m.data [] h0
      obtain ⟨_, t, ht⟩ := cstr_split m.data
      have h2 := cstr_tail (cstr m.data) t (cstr_split m.data).1
      rw [← ht, this] at h2
      exact h2.symm
    exact ⟨by simp [hc], fun i c hi => hget i c (by rw [hc]; exact hi)⟩

/-- C3, at the sample run where the portal answers the case creation with an error
and the message "bad\nrequest\n": `main` dies with "bad request ". -/
theorem errmsg_newlines_become_spaces_witness :
    (∃ out,
      main env_case_fails_lines 3 = (Outcome.die 1 (some (String.mk out)),
        { trace := [Event.mkdtemp "/var/tmp/rhtsupport-XXXXXX",
                    Event.create_tarball "/var/tmp/rhtsupport-XXXXXX/d.tar.gz",
                    Event.get_rhts_hints "https://api.access.redhat.com/rs" "u" "p" true
                      "/var/tmp/rhtsupport-XXXXXX/d.tar.gz",
                    Event.create_new_case (some "https://api.access.redhat.com/rs") "u" "p"
                      true "Red Hat Enterprise Linux" (some "7.0") "summary" "description"
                      (some "pkg"),
                    Event.unlink "/var/tmp/rhtsupport-XXXXXX/d.tar.gz",
                    Event.rmdir "/var/tmp/rhtsupport-XXXXXX"],
          ncall := 2, nask := 0, npw := 0 }) ∧
      normalise_errmsg "bad\nrequest\n".data = some out ∧
      '\n' ∉ out ∧ out.length = (cstr "bad\nrequest\n".data).length ∧
      (∀ i c, (cstr "bad\nrequest\n".data).get? i = some c →
        out.get? i = some (if c = '\n' then ' ' else c)) ∧
      ('\x00' ∉ "bad\nrequest\n".data → out.length = "bad\nrequest\n".data.length ∧
        ∀ i c, "bad\nrequest\n".data.get? i = some c →
          out.get? i = some (if c = '\n' then ' ' else c))) ∧
    (main env_case_fails_lines 3).1 = Outcome.die 1 (some "bad request ") :=
  ⟨errmsg_newlines_become_spaces env_case_fails_lines 3 locals_sample workspace_sample
    { trace := [Event.mkdtemp "/var/tmp/rhtsupport-XXXXXX",
                Event.create_tarball "/var/tmp/rhtsupport-XXXXXX/d.tar.gz",
                Event.get_rhts_hints "https://api.access.redhat.com/rs" "u" "p" true
                  "/var/tmp/rhtsupport-XXXXXX/d.tar.gz"],
      ncall := 1, nask := 0, npw := 0 }
    "Red Hat Enterprise Linux" "u" "p"
    { result_500 with msg := some "bad\nrequest\n" }
    { trace := [Event.mkdtemp "/var/tmp/rhtsupport-XXXXXX",
                Event.create_tarball "/var/tmp/rhtsupport-XXXXXX/d.tar.gz",
                Event.get_rhts_hints "https://api.access.redhat.com/rs" "u" "p" true
                  "/var/tmp/rhtsupport-XXXXXX/d.tar.gz",
                Event.create_new_case (some "https://api.access.redhat.com/rs") "u" "p"
                  true "Red Hat Enterprise Linux" (some "7.0") "summary" "description"
                  (some "pkg")],
      ncall := 2, nask := 0, npw := 0 }
    "bad\nrequest\n" (by decide!) rfl (by decide!) (by decide) rfl, by decide!⟩

end RhtSupport
